import Mathlib

/-!
# linc: the issue-list view, the session controller and the prompt builder

A shallow embedding of `internal/linear/types.go`, `internal/tui/messages/messages.go`,
`internal/tui/views/list.go`, `internal/tui/root.go`, the state resolution of
`internal/linear/mutations.go`, `Client.GetTeamStates` of `internal/linear/queries.go`,
`internal/provider/prompt.go`, the `Update` functions of the StartWork and Settings views, and
the part of `main.go` that follows the run of the interface.

Modelling conventions.

* Go strings are `String`; Go `error` values are `Option String` (`none` is `nil`).
* The three issue collections of the list view (`issues`, `myIssues`, `allIssues`) are Go
  slices that may share a backing array (`m.issues = m.myIssues`), and `removeIssue` shifts a
  backing array in place.  They are therefore modelled as slice headers over an explicit heap
  of backing arrays.  The buckets, the filtered list and the edit target are never written
  after they are built, so they carry value semantics.
* Library code that is not part of the repository (`sort.Slice`, `unicode.ToLower`,
  `strings.EqualFold`, the `textinput` widget of bubbles) is a parameter, bundled in `Lib`,
  constrained only by its documented contract; the tracker's GraphQL endpoint is the
  parameter `Tracker`, and the time parsing of the prompt builder is in `PromptLib`.
* `cursor` and `activeState` are only ever assigned `0`, a `max 0 _`, a guarded decrement or
  an increment; they are natural numbers and `len(x)-1` is truncated subtraction, which
  agrees with the integer comparison in every guard it occurs in.
-/

namespace Linc

/-! ## Data model (`internal/linear/types.go`) -/

structure User where
  ID : String := ""
  Name : String := ""
  Email : String := ""
deriving DecidableEq, Repr

structure Team where
  ID : String := ""
  Name : String := ""
  Key : String := ""
deriving DecidableEq, Repr

/-- Workflow state.  `Position` is a `float64` decoded from JSON, hence a rational. -/
structure State where
  ID : String := ""
  Name : String := ""
  Color : String := ""
  Type' : String := ""
  Position : Rat := 0
deriving DecidableEq, Repr

structure Label where
  ID : String := ""
  Name : String := ""
  Color : String := ""
deriving DecidableEq, Repr

structure Cycle where
  ID : String := ""
  Number : Int := 0
  Name : String := ""
deriving DecidableEq, Repr

/-- A value of `map[string]interface{}`: only strings are ever inspected. -/
inductive MetaValue where
  | str (s : String)
  | other
deriving DecidableEq, Repr

structure Attachment where
  ID : String := ""
  Title : String := ""
  URL : String := ""
  SourceType : String := ""
  Subtitle : String := ""
  Metadata : Option (List (String × MetaValue)) := none
  CreatedAt : String := ""
deriving DecidableEq, Repr

structure Comment where
  ID : String := ""
  Body : String := ""
  CreatedAt : String := ""
  User : User := {}
deriving DecidableEq, Repr

structure Issue where
  ID : String := ""
  Identifier : String := ""
  Title : String := ""
  Description : String := ""
  Priority : Int := 0
  Estimate : Option Rat := none
  BranchName : String := ""
  URL : String := ""
  CreatedAt : String := ""
  State : State := {}
  Assignee : Option User := none
  Labels : List Label := []
  Cycle : Option Cycle := none
  Team : Team := {}
  Comments : List Comment := []
  Attachments : List Attachment := []
deriving DecidableEq, Repr

/-! ## Backing arrays and slices -/

/-- The backing arrays of the issue slices; an array is addressed by its index. -/
abbrev Heap := List (List Issue)

/-- A Go slice header whose offset in its backing array is zero.  The `nil` slice has
`len = cap = 0`. -/
structure Slice where
  arr : Nat := 0
  len : Nat := 0
  cap : Nat := 0
deriving DecidableEq, Repr

/-- A pointer `&s[i]` into a backing array. -/
structure Ptr where
  arr : Nat
  idx : Nat
deriving DecidableEq, Repr

/-- The whole backing array of a slice. -/
def Heap.array (h : Heap) (a : Nat) : List Issue := h.getD a []

/-- The elements a slice shows: the first `len` cells of its backing array. -/
def Heap.read (h : Heap) (s : Slice) : List Issue := (h.array s.arr).take s.len

/-- A slice as the client builds it, `make([]Issue, n)` filled with `xs`: a fresh backing
array with `cap = len`.  The empty result shares no array. -/
def Heap.alloc (h : Heap) (xs : List Issue) : Heap × Slice :=
  (h ++ [xs], { arr := h.length, len := xs.length, cap := xs.length })

/-- Index of the first issue with the given id, as the loops
`for i := range s { if s[i].ID == issueID { ...; break } }` find it. -/
def findID (issueID : String) : List Issue → Option Nat
  | [] => none
  | x :: xs => if x.ID = issueID then some 0 else (findID issueID xs).map (· + 1)

/-- The loop `for i := range s { if s[i].ID == issueID { s[i] = f s[i]; break } }`:
an in-place write through the slice into its backing array. -/
def Heap.updateFirst (h : Heap) (s : Slice) (issueID : String) (f : Issue → Issue) : Heap :=
  match findID issueID (h.read s) with
  | none => h
  | some i =>
    match (h.array s.arr)[i]? with
    | none => h
    | some x => h.set s.arr ((h.array s.arr).set i (f x))

/-- The loop `for i := range s { if s[i].ID == issueID { s = append(s[:i], s[i+1:]...); break } }`.
`append` has room (`i + (len-i-1) ≤ cap`), so it moves the cells `i+1 .. len-1` one place
down inside the same backing array; the cell `len-1` keeps its old content and the header
shrinks by one. -/
def Heap.removeFirst (h : Heap) (s : Slice) (issueID : String) : Heap × Slice :=
  match findID issueID (h.read s) with
  | none => (h, s)
  | some i =>
    let a := h.array s.arr
    let a' := a.take i ++ ((a.drop (i + 1)).take (s.len - 1 - i)) ++ a.drop (s.len - 1)
    (h.set s.arr a', { s with len := s.len - 1 })

/-! ## Messages and effects (`internal/tui/messages/messages.go`) -/

/-- A key press; `str` is what `msg.String()` returns. -/
structure KeyMsg where
  str : String
deriving DecidableEq, Repr

/-- A workspace of the persisted configuration. -/
structure Workspace where
  ID : String := ""
  Name : String := ""
  APIKey : String := ""
  DefaultTeamID : String := ""
deriving DecidableEq, Repr

structure StartClaudeMsg where
  Issue : Issue := {}
  Comment : String := ""
  UseBranch : Bool := false
  PlanMode : Bool := false
  CheckoutOnly : Bool := false
deriving DecidableEq, Repr

inductive Msg where
  | key (k : KeyMsg)
  | switchToList
  | switchToDetail (issue : Issue)
  | switchToStartWork (issue : Issue)
  | switchToTeamSelect
  | switchToSettings
  | switchToWorkspaceSelect
  | nextIssue
  | prevIssue
  | teamsLoaded (teams : List Team) (err : Option String)
  | issuesLoaded (issues : List Issue) (err : Option String)
  | allIssuesLoaded (issues : List Issue) (err : Option String)
  | statesLoaded (states : List State) (err : Option String)
  | viewerLoaded (teams : List Team) (err : Option String)
  | teamSelected (team : Team) (setAsDefault : Bool)
  | commentCreated (comment : Option Comment) (err : Option String)
  | issueTitleUpdated (issueID newTitle : String) (err : Option String) (completed : Bool)
  | issuePriorityUpdated (issueID : String) (newPriority : Int) (err : Option String)
      (completed : Bool)
  | issueStateUpdated (issueID newStateID : String) (err : Option String) (completed : Bool)
  | cancelIssue (issueID teamID : String)
  | markDuplicate (issueID teamID : String)
  | openBrowser (url : String)
  | startClaude (m : StartClaudeMsg)
  | error (err : Option String)
  | settingsSaved (err : Option String)
  | workspaceSelected (workspace : Option Workspace) (addNew : Bool)
  | quit
deriving DecidableEq, Repr

/-- An effect (`tea.Cmd`), named by what running it does.  `emit msg` is a closure that just
returns `msg`; `panics` is a closure whose body indexes a slice out of range when it runs;
`blink` is `textinput.Blink` and `input code` any other command of the text input. -/
inductive Cmd where
  | emit (msg : Msg)
  | panics
  | blink
  | input (code : Nat)
  | quit
  | loadViewer
  | loadStates (teamID : String)
  | loadIssues (teamID : String)
  | loadAllIssues (teamID : String)
  | createComment (issueID body : String)
  | updateIssueTitle (issueID title : String)
  | updateIssuePriority (issueID : String) (priority : Int)
  | updateIssueStateByID (issueID stateID : String)
  | cancelIssue (issueID teamID : String)
  | markDuplicate (issueID teamID : String)
  | saveSettings (provider : String)
  | batch (cmds : List Cmd)

/-! ## Library parameters -/

/-- A strict weak ordering, the requirement `sort.Slice` puts on `less`. -/
def StrictWeakOrder {α : Type} (less : α → α → Bool) : Prop :=
  (∀ a, less a a = false) ∧
  (∀ a b c, less a b = true → less b c = true → less a c = true) ∧
  (∀ a b c, less a b = false → less b c = false → less a c = false)

/-- The library code the list view calls, with the part of its contract that is used.
`TI` is the state of a `textinput.Model`. -/
structure Lib (TI : Type) where
  /-- `sort.Slice`: the slice after sorting, for a comparison on elements. -/
  sortSlice : (Issue → Issue → Bool) → List Issue → List Issue
  /-- `sort.Slice` only swaps elements. -/
  sortSlice_perm : ∀ less l, (sortSlice less l).Perm l
  /-- For a strict weak ordering no later element is less than an earlier one. -/
  sortSlice_sorted : ∀ less l, StrictWeakOrder less →
    (sortSlice less l).Pairwise (fun a b => less b a = false)
  /-- `unicode.ToLower`. -/
  toLowerRune : Char → Char
  /-- `strings.EqualFold`. -/
  equalFold : String → String → Bool
  /-- `textinput.New()` with `Placeholder`, `CharLimit` and `Width` set. -/
  tiNew : String → Nat → Nat → TI
  tiValue : TI → String
  tiSetValue : TI → String → TI
  tiUpdate : TI → KeyMsg → TI × Option Cmd
  tiFocus : TI → TI
  tiBlur : TI → TI
  tiCursorEnd : TI → TI
  tiValue_setValue_empty : ∀ t, tiValue (tiSetValue t "") = ""
  tiValue_focus : ∀ t, tiValue (tiFocus t) = tiValue t
  tiValue_blur : ∀ t, tiValue (tiBlur t) = tiValue t

/-! ## The list view (`internal/tui/views/list.go`) -/

inductive EditMode where
  | EditModeNone
  | EditModeRename
  | EditModePriority
  | EditModeStatus
deriving DecidableEq, Repr

open EditMode

/-- The `issuesByState` map, as the list of its entries in the order the keys were first
inserted. -/
abbrev Buckets := List (String × List Issue)

structure ListModel (TI : Type) where
  heap : Heap := []
  issues : Slice := {}
  allIssues : Slice := {}
  myIssues : Slice := {}
  states : List State := []
  issuesByState : Buckets := []
  filtered : List Issue := []
  cursor : Nat := 0
  activeState : Nat := 0
  filtering : Bool := false
  filterInput : TI
  loading : Bool := false
  showAllIssues : Bool := false
  err : Option String := none
  currentBranch : String := ""
  currentIssue : Option Ptr := none
  workingDir : String := ""
  version : String := ""
  editMode : EditMode := EditModeNone
  editInput : TI
  editCursor : Int := 0
  editIssue : Option Issue := none

section ListView

variable {TI : Type} (L : Lib TI)

/-- `strings.ToLower`: every rune is mapped by `unicode.ToLower`. -/
def Lib.toLower (s : String) : String := ⟨s.data.map L.toLowerRune⟩

/-- `strings.Contains`: for valid UTF-8 a substring of bytes is a substring of runes. -/
def stringsContains (s substr : String) : Bool := decide (substr.data <:+: s.data)

def NewListModel : ListModel TI :=
  { filterInput := L.tiNew "Filter issues..." 100 40
    editInput := L.tiNew "New title..." 200 60
    issuesByState := []
    loading := true }

/-- Map index `m[k]`: the `nil` slice when the key is absent. -/
def Buckets.get (b : Buckets) (k : String) : List Issue :=
  match b with
  | [] => []
  | (k', v) :: rest => if k' = k then v else Buckets.get rest k

/-- The statement `m[k] = append(m[k], issue)`. -/
def Buckets.append (b : Buckets) (k : String) (issue : Issue) : Buckets :=
  match b with
  | [] => [(k, [issue])]
  | (k', v) :: rest =>
    if k' = k then (k', v ++ [issue]) :: rest else (k', v) :: Buckets.append rest k issue

def currentStateIssues (m : ListModel TI) : List Issue :=
  if m.states.length = 0 ∨ m.activeState ≥ m.states.length then []
  else
    match m.states[m.activeState]? with
    | some st => m.issuesByState.get st.ID
    | none => []

/-- The condition of the filter loop. -/
def matchesFilter (filter : String) (issue : Issue) : Bool :=
  stringsContains (L.toLower issue.Title) filter ||
  stringsContains (L.toLower issue.Identifier) filter ||
  stringsContains (L.toLower issue.Description) filter

def applyFilter (m : ListModel TI) : ListModel TI :=
  let issues := currentStateIssues m
  let filter := L.toLower (L.tiValue m.filterInput)
  if filter = "" then
    { m with filtered := issues }
  else
    let filtered := issues.foldl
      (fun acc issue => if matchesFilter L filter issue then acc ++ [issue] else acc) []
    if m.cursor ≥ filtered.length then
      { m with filtered := filtered, cursor := max 0 (filtered.length - 1) }
    else
      { m with filtered := filtered }

/-- The comparison closure handed to `sort.Slice`. -/
def priorityLess (a b : Issue) : Bool :=
  let pi := if a.Priority = 0 then 99 else a.Priority
  let pj := if b.Priority = 0 then 99 else b.Priority
  decide (pi < pj)

def groupIssuesByState (m : ListModel TI) : ListModel TI :=
  let grouped : Buckets :=
    (m.heap.read m.issues).foldl (fun b issue => b.append issue.State.ID issue) []
  { m with issuesByState := grouped.map (fun kv => (kv.1, L.sortSlice priorityLess kv.2)) }

/-- Index of the first state whose name folds to "todo". -/
def findTodo : List State → Option Nat
  | [] => none
  | s :: ss => if L.equalFold s.Name "todo" then some 0 else (findTodo ss).map (· + 1)

def findDefaultState (m : ListModel TI) : ListModel TI :=
  match findTodo L m.states with
  | some i => { m with activeState := i }
  | none => { m with activeState := 0 }

/-- The call `append(s, t...)`: in place when the capacity of `s` suffices, into a fresh
array otherwise.  (The capacity of the fresh array is not modelled beyond its length: the
only slice appended to this way is dropped at once.) -/
def Heap.append (h : Heap) (s t : Slice) : Heap × Slice :=
  let ts := h.read t
  if s.len + ts.length ≤ s.cap then
    if ts.length = 0 then (h, s)
    else
      let a := h.array s.arr
      (h.set s.arr (a.take s.len ++ ts ++ a.drop (s.len + ts.length)),
        { s with len := s.len + ts.length })
  else
    let xs := h.read s ++ ts
    (h ++ [xs], { arr := h.length, len := xs.length, cap := xs.length })

/-- Index of the first issue the branch correlates with. -/
def findBranch (branch : String) : List Issue → Option Nat
  | [] => none
  | issue :: rest =>
    if stringsContains branch issue.Identifier then some 0
    else if issue.BranchName ≠ "" ∧ branch = issue.BranchName then some 0
    else (findBranch branch rest).map (· + 1)

def findCurrentIssue (m : ListModel TI) : ListModel TI :=
  if m.currentBranch = "" then { m with currentIssue := none }
  else
    let (h, allIssues) := m.heap.append m.myIssues m.allIssues
    match findBranch m.currentBranch (h.read allIssues) with
    | some i => { m with heap := h, currentIssue := some ⟨allIssues.arr, i⟩ }
    | none => { m with heap := h, currentIssue := none }

def updateIssueTitle (m : ListModel TI) (issueID newTitle : String) : ListModel TI :=
  let h1 := m.heap.updateFirst m.issues issueID (fun x => { x with Title := newTitle })
  let h2 := h1.updateFirst m.myIssues issueID (fun x => { x with Title := newTitle })
  let h3 := h2.updateFirst m.allIssues issueID (fun x => { x with Title := newTitle })
  applyFilter L (groupIssuesByState L { m with heap := h3 })

def updateIssuePriority (m : ListModel TI) (issueID : String) (newPriority : Int) :
    ListModel TI :=
  let h1 := m.heap.updateFirst m.issues issueID (fun x => { x with Priority := newPriority })
  let h2 := h1.updateFirst m.myIssues issueID (fun x => { x with Priority := newPriority })
  let h3 := h2.updateFirst m.allIssues issueID (fun x => { x with Priority := newPriority })
  applyFilter L (groupIssuesByState L { m with heap := h3 })

def removeIssue (m : ListModel TI) (issueID : String) : ListModel TI :=
  let r1 := m.heap.removeFirst m.issues issueID
  let r2 := r1.1.removeFirst m.myIssues issueID
  let r3 := r2.1.removeFirst m.allIssues issueID
  let cursor := if m.cursor ≥ m.filtered.length - 1 ∧ m.cursor > 0 then m.cursor - 1
    else m.cursor
  applyFilter L (groupIssuesByState L
    { m with heap := r3.1, issues := r1.2, myIssues := r2.2, allIssues := r3.2,
             cursor := cursor })

def updateIssueState (m : ListModel TI) (issueID newStateID : String) : ListModel TI :=
  match m.states.find? (fun state => state.ID = newStateID) with
  | none => removeIssue L m issueID
  | some newState =>
    let h1 := m.heap.updateFirst m.issues issueID (fun x => { x with State := newState })
    let h2 := h1.updateFirst m.myIssues issueID (fun x => { x with State := newState })
    let h3 := h2.updateFirst m.allIssues issueID (fun x => { x with State := newState })
    applyFilter L (groupIssuesByState L { m with heap := h3 })

def SetMyIssues (m : ListModel TI) (issues : List Issue) : ListModel TI :=
  let a := m.heap.alloc issues
  let m := { m with heap := a.1, myIssues := a.2 }
  let m := if !m.showAllIssues then
      applyFilter L (groupIssuesByState L { m with issues := a.2 })
    else m
  findCurrentIssue { m with loading := false }

def SetAllIssues (m : ListModel TI) (issues : List Issue) : ListModel TI :=
  let a := m.heap.alloc issues
  let m := { m with heap := a.1, allIssues := a.2 }
  let m := if m.showAllIssues then
      applyFilter L (groupIssuesByState L { m with issues := a.2 })
    else m
  findCurrentIssue m

def ToggleShowAll (m : ListModel TI) : ListModel TI :=
  let m := { m with showAllIssues := !m.showAllIssues }
  let m := if m.showAllIssues then { m with issues := m.allIssues }
    else { m with issues := m.myIssues }
  applyFilter L (groupIssuesByState L { m with cursor := 0 })

def SetStates (m : ListModel TI) (states : List State) : ListModel TI :=
  applyFilter L (findDefaultState L { m with states := states })

def SetError (m : ListModel TI) (err : Option String) : ListModel TI :=
  { m with err := err, loading := false }

def SetCurrentBranch (m : ListModel TI) (branch : String) : ListModel TI :=
  findCurrentIssue { m with currentBranch := branch }

def SetWorkingDir (m : ListModel TI) (dir : String) : ListModel TI :=
  { m with workingDir := dir }

def SetVersion (m : ListModel TI) (version : String) : ListModel TI :=
  { m with version := version }

def GetNextIssue (m : ListModel TI) : Option Issue :=
  if m.cursor + 1 < m.filtered.length then m.filtered[m.cursor + 1]? else none

/-- The outer `none` is the panic of `&m.filtered[m.cursor-1]` when the index is out of
range; `some none` is the `nil` result. -/
def GetPrevIssue (m : ListModel TI) : Option (Option Issue) :=
  if m.cursor > 0 then (m.filtered[m.cursor - 1]?).map some else some none

def MoveCursorNext (m : ListModel TI) : ListModel TI :=
  if m.cursor + 1 < m.filtered.length then { m with cursor := m.cursor + 1 } else m

def MoveCursorPrev (m : ListModel TI) : ListModel TI :=
  if m.cursor > 0 then { m with cursor := m.cursor - 1 } else m

/-- The result of an `Update`: `none` is a run-time panic (index out of range), a `none`
effect is the `nil` command. -/
abbrev Step (TI : Type) := Option (ListModel TI × Option Cmd)

def handleRenameInput (m : ListModel TI) (msg : KeyMsg) : Step TI :=
  if msg.str = "enter" then
    let newTitle := L.tiValue m.editInput
    match m.editIssue with
    | some issue =>
      if newTitle ≠ "" then
        some ({ m with editInput := L.tiBlur m.editInput },
          some (Cmd.emit (Msg.issueTitleUpdated issue.ID newTitle none false)))
      else
        some ({ m with editMode := EditModeNone, editIssue := none,
                       editInput := L.tiBlur m.editInput }, none)
    | none =>
      some ({ m with editMode := EditModeNone, editIssue := none,
                     editInput := L.tiBlur m.editInput }, none)
  else if msg.str = "esc" then
    some ({ m with editMode := EditModeNone, editIssue := none,
                   editInput := L.tiBlur m.editInput }, none)
  else
    let r := L.tiUpdate m.editInput msg
    some ({ m with editInput := r.1 }, r.2)

def handlePriorityInput (m : ListModel TI) (msg : KeyMsg) : Step TI :=
  if msg.str = "up" ∨ msg.str = "k" then
    some (if m.editCursor > 0 then { m with editCursor := m.editCursor - 1 } else m, none)
  else if msg.str = "down" ∨ msg.str = "j" then
    some (if m.editCursor < 4 then { m with editCursor := m.editCursor + 1 } else m, none)
  else if msg.str = "enter" then
    match m.editIssue with
    | some issue =>
      some (m, some (Cmd.emit (Msg.issuePriorityUpdated issue.ID m.editCursor none false)))
    | none => some ({ m with editMode := EditModeNone, editIssue := none }, none)
  else if msg.str = "esc" then
    some ({ m with editMode := EditModeNone, editIssue := none }, none)
  else if msg.str = "0" ∨ msg.str = "1" ∨ msg.str = "2" ∨ msg.str = "3" ∨ msg.str = "4" then
    let priority : Int := (msg.str.get 0).toNat - ('0').toNat
    match m.editIssue with
    | some issue =>
      some (m, some (Cmd.emit (Msg.issuePriorityUpdated issue.ID priority none false)))
    | none => some (m, none)
  else some (m, none)

def handleStatusInput (m : ListModel TI) (msg : KeyMsg) : Step TI :=
  let maxCursor : Int := m.states.length + 1
  if msg.str = "up" ∨ msg.str = "k" then
    some (if m.editCursor > 0 then { m with editCursor := m.editCursor - 1 } else m, none)
  else if msg.str = "down" ∨ msg.str = "j" then
    some (if m.editCursor < maxCursor then { m with editCursor := m.editCursor + 1 } else m,
      none)
  else if msg.str = "enter" then
    match m.editIssue with
    | some issue =>
      if m.editCursor = m.states.length then
        some (m, some (Cmd.emit (Msg.cancelIssue issue.ID issue.Team.ID)))
      else if m.editCursor = m.states.length + 1 then
        some (m, some (Cmd.emit (Msg.markDuplicate issue.ID issue.Team.ID)))
      else if m.editCursor < m.states.length then
        if m.editCursor < 0 then none
        else
          match m.states[m.editCursor.toNat]? with
          | some st => some (m, some (Cmd.emit (Msg.issueStateUpdated issue.ID st.ID none false)))
          | none => none
      else some ({ m with editMode := EditModeNone, editIssue := none }, none)
    | none => some ({ m with editMode := EditModeNone, editIssue := none }, none)
  else if msg.str = "esc" then
    some ({ m with editMode := EditModeNone, editIssue := none }, none)
  else some (m, none)

/-- Index of the first state with the given id (the loop of the `s` key). -/
def findStateIdx (stateID : String) : List State → Option Nat
  | [] => none
  | s :: ss => if s.ID = stateID then some 0 else (findStateIdx stateID ss).map (· + 1)

/-- The key handling of `Update` outside the edit sub-modes and outside filter entry. -/
def handleListKey (m : ListModel TI) (msg : KeyMsg) : Step TI :=
  if msg.str = "up" ∨ msg.str = "k" then
    some (if m.cursor > 0 then { m with cursor := m.cursor - 1 } else m, none)
  else if msg.str = "down" ∨ msg.str = "j" then
    some (if m.cursor < m.filtered.length - 1 then { m with cursor := m.cursor + 1 } else m,
      none)
  else if msg.str = "left" ∨ msg.str = "h" then
    if m.activeState > 0 then
      some (applyFilter L { m with activeState := m.activeState - 1, cursor := 0,
                                   filterInput := L.tiSetValue m.filterInput "" }, none)
    else some (m, none)
  else if msg.str = "right" ∨ msg.str = "l" then
    if m.activeState < m.states.length - 1 then
      some (applyFilter L { m with activeState := m.activeState + 1, cursor := 0,
                                   filterInput := L.tiSetValue m.filterInput "" }, none)
    else some (m, none)
  else if msg.str = "/" then
    some ({ m with filtering := true, filterInput := L.tiFocus m.filterInput },
      some Cmd.blink)
  else if msg.str = "enter" then
    if m.filtered.length > 0 then
      match m.filtered[m.cursor]? with
      | some issue => some (m, some (Cmd.emit (Msg.switchToDetail issue)))
      | none => some (m, some Cmd.panics)
    else some (m, none)
  else if msg.str = "esc" then
    if L.tiValue m.filterInput ≠ "" then
      some (applyFilter L { m with filterInput := L.tiSetValue m.filterInput "" }, none)
    else some (m, some (Cmd.emit Msg.switchToTeamSelect))
  else if msg.str = "a" then
    some (ToggleShowAll L m, none)
  else if msg.str = "R" then
    if m.filtered.length > 0 then
      match m.filtered[m.cursor]? with
      | some issue =>
        some ({ m with editMode := EditModeRename, editIssue := some issue,
                       editInput := L.tiCursorEnd (L.tiFocus
                         (L.tiSetValue m.editInput issue.Title)) },
          some Cmd.blink)
      | none => none
    else some (m, none)
  else if msg.str = "p" then
    if m.filtered.length > 0 then
      match m.filtered[m.cursor]? with
      | some issue =>
        some ({ m with editMode := EditModePriority, editIssue := some issue,
                       editCursor := issue.Priority }, none)
      | none => none
    else some (m, none)
  else if msg.str = "s" then
    if m.filtered.length > 0 then
      match m.filtered[m.cursor]? with
      | some issue =>
        match findStateIdx issue.State.ID m.states with
        | some i =>
          some ({ m with editMode := EditModeStatus, editIssue := some issue,
                         editCursor := i }, none)
        | none => some ({ m with editMode := EditModeStatus, editIssue := some issue }, none)
      | none => none
    else some (m, none)
  else if msg.str = "," then
    some (m, some (Cmd.emit Msg.switchToSettings))
  else some (m, none)

def ListModel.Update (m : ListModel TI) (msg : Msg) : Step TI :=
  match msg with
  | Msg.statesLoaded states err =>
    match err with
    | some e => some ({ m with err := some e }, none)
    | none => some (applyFilter L (findDefaultState L { m with states := states }), none)
  | Msg.issuesLoaded issues err =>
    match err with
    | some e => some ({ m with err := some e, loading := false }, none)
    | none =>
      let a := m.heap.alloc issues
      some (applyFilter L (groupIssuesByState L
        { m with heap := a.1, issues := a.2, loading := false }), none)
  | Msg.issueTitleUpdated issueID newTitle err _ =>
    let m := match err with
      | some e => { m with err := some e }
      | none => updateIssueTitle L m issueID newTitle
    some ({ m with editMode := EditModeNone, editIssue := none }, none)
  | Msg.issuePriorityUpdated issueID newPriority err _ =>
    let m := match err with
      | some e => { m with err := some e }
      | none => updateIssuePriority L m issueID newPriority
    some ({ m with editMode := EditModeNone, editIssue := none }, none)
  | Msg.issueStateUpdated issueID newStateID err _ =>
    let m := match err with
      | some e => { m with err := some e }
      | none => updateIssueState L m issueID newStateID
    some ({ m with editMode := EditModeNone, editIssue := none }, none)
  | Msg.key k =>
    if m.editMode = EditModeRename then handleRenameInput L m k
    else if m.editMode = EditModePriority then handlePriorityInput m k
    else if m.editMode = EditModeStatus then handleStatusInput m k
    else if m.filtering then
      if k.str = "enter" ∨ k.str = "esc" then
        some ({ m with filtering := false, filterInput := L.tiBlur m.filterInput }, none)
      else
        let r := L.tiUpdate m.filterInput k
        some (applyFilter L { m with filterInput := r.1 }, r.2)
    else handleListKey L m k
  | _ => some (m, none)

end ListView

/-! ## The session controller (`internal/tui/root.go`) -/

inductive View where
  | ViewWorkspaceSelect
  | ViewTeamSelect
  | ViewList
  | ViewDetail
  | ViewStartWork
  | ViewSettings
deriving DecidableEq, Repr

open View

/-- The persisted configuration, as far as the controller touches it. -/
structure Config where
  Workspaces : List Workspace := []
  Provider : String := ""
deriving DecidableEq, Repr

/-- The in-memory part of `Config.SetDefaultTeam`; saving to disk is not modelled. -/
def Config.SetDefaultTeam (c : Config) (workspaceID teamID : String) : Config :=
  let rec go : List Workspace → List Workspace
    | [] => []
    | w :: ws =>
      if w.ID = workspaceID then { w with DefaultTeamID := teamID } :: ws else w :: go ws
  { c with Workspaces := go c.Workspaces }

/-- What the controller reads from its process environment when it builds a list view:
`git.GetCurrentBranch()`, `os.Getwd()` (`none` on error) and the `Version` variable. -/
structure Env where
  branch : String := ""
  wd : Option String := none
  version : String := "dev"

/-- The five satellite views (workspace select, team select, detail, start work, settings),
kept abstract: `SV` is their joint state and the fields are the operations the controller
performs on them. -/
structure Views (SV : Type) where
  init : List Workspace → SV
  setTeams : SV → List Team → SV
  setWorkspaces : SV → List Workspace → SV
  newDetail : SV → Issue → SV
  newStartWork : SV → Issue → SV
  newSettings : SV → Config → Option Workspace → List String → SV
  update : View → SV → Msg → SV × Option Cmd

structure RootModel (TI SV : Type) where
  cfg : Config := {}
  workspace : Option Workspace := none
  workspaces : List Workspace := []
  currentDir : String := ""
  providers : List String := []
  currentView : View := ViewWorkspaceSelect
  views : SV
  list : ListModel TI
  teams : List Team := []
  selectedTeam : Option Team := none
  err : Option String := none
  quitting : Bool := false
  startClaude : Option StartClaudeMsg := none
  addNewWorkspace : Bool := false

section Root

variable {TI SV : Type} (L : Lib TI) (V : Views SV) (E : Env)

/-- The list view as `NewRootModel` and the workspace switch build it. -/
def freshList : ListModel TI :=
  let list := NewListModel L
  let list := if E.branch ≠ "" then SetCurrentBranch list E.branch else list
  let list := match E.wd with
    | some wd => SetWorkingDir list wd
    | none => list
  SetVersion list E.version

def NewRootModel (cfg : Config) (workspace : Option Workspace) (workspaces : List Workspace)
    (currentDir : String) (providers : List String) : RootModel TI SV :=
  { cfg := cfg, workspace := workspace, workspaces := workspaces, currentDir := currentDir,
    providers := providers, views := V.init workspaces, list := freshList L E }

/-- The three load effects `tea.Batch(loadStates, loadIssues, loadAllIssues)`. -/
def loadTeam (teamID : String) : Cmd :=
  Cmd.batch [Cmd.loadStates teamID, Cmd.loadIssues teamID, Cmd.loadAllIssues teamID]

/-- The tail of `Update`: the message goes to the active view. -/
def delegate (m : RootModel TI SV) (msg : Msg) : Option (RootModel TI SV × Option Cmd) :=
  match m.currentView with
  | ViewList =>
    match m.list.Update L msg with
    | some (list, cmd) => some ({ m with list := list }, cmd)
    | none => none
  | v =>
    let r := V.update v m.views msg
    some ({ m with views := r.1 }, r.2)

/-- `m.list, _ = m.list.Update(msg)`. -/
def updateList (m : RootModel TI SV) (msg : Msg) : Option (RootModel TI SV × Option Cmd) :=
  match m.list.Update L msg with
  | some (list, _) => some ({ m with list := list }, none)
  | none => none

/-- The controller's `Update`; `none` is a panic.  What it does outside its own state (opening
the browser, building a new client, saving the configuration) is not part of the model. -/
def RootModel.Update (m : RootModel TI SV) (msg : Msg) :
    Option (RootModel TI SV × Option Cmd) :=
  match msg with
  | Msg.key k =>
    if k.str = "ctrl+c" ∨
        (k.str = "q" ∧ m.currentView ≠ ViewStartWork ∧ m.currentView ≠ ViewSettings) then
      some ({ m with quitting := true }, some Cmd.quit)
    else delegate L V m msg
  | Msg.viewerLoaded teams err =>
    match err with
    | some e => some ({ m with err := some e }, none)
    | none =>
      let m := { m with teams := teams }
      let byDefault : Option Team :=
        match m.workspace with
        | some ws =>
          if ws.DefaultTeamID ≠ "" then m.teams.find? (fun team => team.ID = ws.DefaultTeamID)
          else none
        | none => none
      match byDefault with
      | some team =>
        some ({ m with selectedTeam := some team, currentView := ViewList },
          some (loadTeam team.ID))
      | none =>
        match m.teams with
        | [team] =>
          some ({ m with selectedTeam := some team, currentView := ViewList },
            some (loadTeam team.ID))
        | _ =>
          some ({ m with currentView := ViewTeamSelect,
                         views := V.setTeams m.views m.teams }, none)
  | Msg.teamSelected team setAsDefault =>
    let cfg := match m.workspace with
      | some ws => if setAsDefault then m.cfg.SetDefaultTeam ws.ID team.ID else m.cfg
      | none => m.cfg
    some ({ m with selectedTeam := some team, cfg := cfg, currentView := ViewList },
      some (loadTeam team.ID))
  | Msg.statesLoaded states err =>
    match err with
    | some e => some ({ m with list := SetError m.list (some e) }, none)
    | none => some ({ m with list := SetStates L m.list states }, none)
  | Msg.issuesLoaded issues err =>
    match err with
    | some e => some ({ m with list := SetError m.list (some e) }, none)
    | none => some ({ m with list := SetMyIssues L m.list issues }, none)
  | Msg.allIssuesLoaded issues err =>
    match err with
    | some e => some ({ m with list := SetError m.list (some e) }, none)
    | none => some ({ m with list := SetAllIssues L m.list issues }, none)
  | Msg.switchToList => some ({ m with currentView := ViewList }, none)
  | Msg.switchToTeamSelect =>
    some ({ m with currentView := ViewTeamSelect, views := V.setTeams m.views m.teams }, none)
  | Msg.switchToWorkspaceSelect =>
    some ({ m with currentView := ViewWorkspaceSelect,
                   views := V.setWorkspaces m.views m.workspaces }, none)
  | Msg.workspaceSelected workspace addNew =>
    if addNew then
      some ({ m with addNewWorkspace := true, quitting := true }, some Cmd.quit)
    else
      let switch : Bool :=
        match workspace, m.workspace with
        | some ws, some cur => decide (ws.ID ≠ cur.ID)
        | some _, none => true
        | none, _ => false
      if switch then
        some ({ m with workspace := workspace, list := freshList L E, selectedTeam := none,
                       teams := [] }, some Cmd.loadViewer)
      else
        some ({ m with currentView := ViewTeamSelect,
                       views := V.setTeams m.views m.teams }, none)
  | Msg.switchToDetail issue =>
    some ({ m with views := V.newDetail m.views issue, currentView := ViewDetail }, none)
  | Msg.nextIssue =>
    match GetNextIssue m.list with
    | some next =>
      some ({ m with list := MoveCursorNext m.list, views := V.newDetail m.views next }, none)
    | none => some (m, none)
  | Msg.prevIssue =>
    match GetPrevIssue m.list with
    | some (some prev) =>
      some ({ m with list := MoveCursorPrev m.list, views := V.newDetail m.views prev }, none)
    | some none => some (m, none)
    | none => none
  | Msg.switchToStartWork issue =>
    some ({ m with views := V.newStartWork m.views issue, currentView := ViewStartWork }, none)
  | Msg.switchToSettings =>
    some ({ m with views := V.newSettings m.views m.cfg m.workspace m.providers,
                   currentView := ViewSettings }, none)
  | Msg.openBrowser _ => some (m, none)
  | Msg.startClaude sc =>
    if sc.Comment ≠ "" then
      some ({ m with startClaude := some sc }, some (Cmd.createComment sc.Issue.ID sc.Comment))
    else
      some ({ m with startClaude := some sc, quitting := true }, some Cmd.quit)
  | Msg.commentCreated _ _ =>
    match m.startClaude with
    | some _ => some ({ m with quitting := true }, some Cmd.quit)
    | none => some (m, none)
  | Msg.error err => some ({ m with err := err }, none)
  | Msg.issueTitleUpdated issueID newTitle _ completed =>
    if !completed then some (m, some (Cmd.updateIssueTitle issueID newTitle))
    else updateList L m msg
  | Msg.issuePriorityUpdated issueID newPriority _ completed =>
    if !completed then some (m, some (Cmd.updateIssuePriority issueID newPriority))
    else updateList L m msg
  | Msg.issueStateUpdated issueID newStateID _ completed =>
    if !completed then some (m, some (Cmd.updateIssueStateByID issueID newStateID))
    else updateList L m msg
  | Msg.cancelIssue issueID teamID => some (m, some (Cmd.cancelIssue issueID teamID))
  | Msg.markDuplicate issueID teamID => some (m, some (Cmd.markDuplicate issueID teamID))
  | _ => delegate L V m msg

end Root

/-! ## Specification vocabulary -/

/-- The keys of the bucket map. -/
def Buckets.keys (b : Buckets) : List String := b.map Prod.fst

/-- The priority an issue sorts by: `99` when it has none. -/
def effectivePriority (x : Issue) : Int := if x.Priority = 0 then 99 else x.Priority

/-- The bucket map `b` partitions the issue set `set` by state id. -/
def Partition (b : Buckets) (set : List Issue) : Prop :=
  b.keys.Nodup ∧
  (∀ x ∈ set, x.State.ID ∈ b.keys) ∧
  (∀ kv ∈ b, kv.2 ≠ [] ∧ ∀ x ∈ kv.2, x.State.ID = kv.1) ∧
  (∀ k, (b.get k).Perm (set.filter (fun x => x.State.ID = k)))

/-- The bucket map of a list state partitions its displayed issue set. -/
def Partitioned {TI : Type} (m : ListModel TI) : Prop :=
  Partition m.issuesByState (m.heap.read m.issues)

/-- A slice that refers to an allocated backing array, or has no capacity at all. -/
def Slice.Allocated (s : Slice) (h : Heap) : Prop := s.arr < h.length ∨ s.cap = 0

/-! ## Concrete library instances

`sort.Slice` sorts slices of at most twelve elements by insertion sort and longer ones by
pattern-defeating quicksort, which first moves a pivot taken from the middle of the slice
to its front.  The two instances below are insertion sort, and insertion sort after such a
pivot move for slices longer than twelve; both satisfy the contract of `Lib`.  The text input
of the instances holds just its value: a one-character key is appended, `backspace` removes
the last character. -/

/-- The element at index `i` moved to the front. -/
def moveToFront (i : Nat) (l : List Issue) : List Issue :=
  match l.drop i with
  | x :: rest => x :: (l.take i ++ rest)
  | [] => l

/-- For slices longer than twelve, the pivot `l[len/4*2]` moved to the front. -/
def pivotFirst (l : List Issue) : List Issue :=
  if l.length ≤ 12 then l else moveToFront (l.length / 4 * 2) l

/-- Insertion sort after the rearrangement `pre`, with ASCII case folding and a text input
that holds just its value. -/
def insertionLib (pre : List Issue → List Issue) (hpre : ∀ l, (pre l).Perm l) :
    Lib String where
  sortSlice less l := (pre l).insertionSort (fun a b => less b a = false)
  sortSlice_perm less l := (List.perm_insertionSort _ _).trans (hpre l)
  sortSlice_sorted less l h := by
    haveI : IsTotal Issue (fun a b => less b a = false) :=
      ⟨fun a b => by
        cases hba : less b a
        · exact Or.inl rfl
        · right
          cases hab : less a b
          · rfl
          · have := h.2.1 b a b hba hab
            rw [h.1 b] at this
            cases this⟩
    haveI : IsTrans Issue (fun a b => less b a = false) :=
      ⟨fun a b c h1 h2 => h.2.2 c b a h2 h1⟩
    exact List.sorted_insertionSort _ _
  toLowerRune := Char.toLower
  equalFold a b := decide (a.data.map Char.toLower = b.data.map Char.toLower)
  tiNew _ _ _ := ""
  tiValue t := t
  tiSetValue _ s := s
  tiUpdate t k :=
    if k.str.length = 1 then (t ++ k.str, none)
    else if k.str = "backspace" then (⟨t.data.dropLast⟩, none)
    else (t, none)
  tiFocus t := t
  tiBlur t := t
  tiCursorEnd t := t
  tiValue_setValue_empty _ := rfl
  tiValue_focus _ := rfl
  tiValue_blur _ := rfl

/-- Plain insertion sort. -/
def refLib : Lib String := insertionLib id (fun l => List.Perm.refl l)

/-- Insertion sort after the pivot move. -/
def pivotLib : Lib String :=
  insertionLib pivotFirst (fun l => by
    unfold pivotFirst moveToFront
    split_ifs
    · exact List.Perm.refl l
    · split
      · rename_i x rest hd
        have hl : l = l.take (l.length / 4 * 2) ++ x :: rest := by
          rw [← hd, List.take_append_drop]
        exact List.perm_middle.symm.trans (by rw [← hl])
      · exact List.Perm.refl l)

/-- The bucket sort of a list state is stable: within every bucket the issues of one
effective priority stand in the order they have in the displayed issue set. -/
def StableBuckets {TI : Type} (L : Lib TI) (m : ListModel TI) : Prop :=
  ∀ k p, ((groupIssuesByState L m).issuesByState.get k).filter
        (fun x => effectivePriority x = p)
    = ((m.heap.read m.issues).filter (fun x => x.State.ID = k)).filter
        (fun x => effectivePriority x = p)

/-- The library sort keeps issues of equal effective priority in their order. -/
def StableSort {TI : Type} (L : Lib TI) : Prop :=
  ∀ l p, (L.sortSlice priorityLess l).filter (fun x => effectivePriority x = p)
    = l.filter (fun x => effectivePriority x = p)

/-! ## Fixtures -/

def exTodo : State := { ID := "s1", Name := "Todo", Type' := "unstarted" }

def exDone : State := { ID := "s2", Name := "Done", Type' := "completed" }

def exIssue (id : String) (priority : Int) (state : State) : Issue :=
  { ID := id, Identifier := id, Title := id, Priority := priority, State := state }

/-- Three issues of the "Todo" state. -/
def exIssues : List Issue :=
  [exIssue "a" 0 exTodo, exIssue "b" 2 exTodo, exIssue "c" 1 exTodo]

/-- Thirteen issues of one state: a high-priority issue followed by twelve urgent ones. -/
def exThirteen : List Issue :=
  [exIssue "i0" 2 exTodo, exIssue "i1" 1 exTodo, exIssue "i2" 1 exTodo, exIssue "i3" 1 exTodo,
   exIssue "i4" 1 exTodo, exIssue "i5" 1 exTodo, exIssue "i6" 1 exTodo, exIssue "i7" 1 exTodo,
   exIssue "i8" 1 exTodo, exIssue "i9" 1 exTodo, exIssue "i10" 1 exTodo,
   exIssue "i11" 1 exTodo, exIssue "i12" 1 exTodo]

/-! ## Vocabulary for the in-place updates -/

/-- The list `l` with `f` applied to its first issue of id `issueID`. -/
def setFirst (issueID : String) (f : Issue → Issue) : List Issue → List Issue
  | [] => []
  | x :: xs => if x.ID = issueID then f x :: xs else x :: setFirst issueID f xs

/-- The list `l` with `f` applied to every issue of id `issueID`. -/
def setByID (issueID : String) (f : Issue → Issue) (l : List Issue) : List Issue :=
  l.map (fun x => if x.ID = issueID then f x else x)

/-- The field update `f` keeps the id and is idempotent. -/
def FieldUpdate (f : Issue → Issue) : Prop :=
  (∀ x, (f x).ID = x.ID) ∧ (∀ x, f (f x) = f x)

/-- The ids of a collection are pairwise distinct. -/
def UniqueIDs (l : List Issue) : Prop := (l.map (fun x => x.ID)).Nodup

/-- The collection `new` is `old` with `f` applied to its first issue of id `issueID` and
every other cell unchanged; when the ids of `old` are distinct, that is `f` applied to the one
issue of that id. -/
def UpdatedByID (issueID : String) (f : Issue → Issue) (old new : List Issue) : Prop :=
  new = setFirst issueID f old ∧ (UniqueIDs old → new = setByID issueID f old)

/-- The displayed set, "my issues" and "all issues" of `m'` are those of `m` with `f` applied to
the issue of id `issueID`. -/
def UpdatedEverywhere {TI : Type} (m m' : ListModel TI) (issueID : String)
    (f : Issue → Issue) : Prop :=
  UpdatedByID issueID f (m.heap.read m.issues) (m'.heap.read m'.issues) ∧
  UpdatedByID issueID f (m.heap.read m.myIssues) (m'.heap.read m'.myIssues) ∧
  UpdatedByID issueID f (m.heap.read m.allIssues) (m'.heap.read m'.allIssues)

/-- The list view after the states and "my issues" have loaded with the fixtures. -/
def exLoaded : ListModel String :=
  SetMyIssues refLib (SetStates refLib (NewListModel refLib) [exTodo, exDone]) exIssues

/-! ## Vocabulary for the cursor invariant -/

/-- The cursor is an index into the filtered list, or `0` when that list is empty. -/
def CursorOk {TI : Type} (m : ListModel TI) : Prop :=
  (m.filtered ≠ [] → m.cursor < m.filtered.length) ∧ (m.filtered = [] → m.cursor = 0)

/-- The filtered list is the derived one: the active tab's bucket restricted by the current
filter text.  Every operation of the list view that touches the states, the tab index, the
bucket map or the filter text recomputes it (`coherent_Update`, `coherent_setters`). -/
def Coherent {TI : Type} (L : Lib TI) (m : ListModel TI) : Prop :=
  m.filtered
    = (currentStateIssues m).filter (matchesFilter L (L.toLower (L.tiValue m.filterInput)))

/-- What the filtered list is derived from, together with the list and the cursor. -/
def SameView {TI : Type} (m m' : ListModel TI) : Prop :=
  m'.states = m.states ∧ m'.activeState = m.activeState ∧
  m'.issuesByState = m.issuesByState ∧ m'.filterInput = m.filterInput ∧
  m'.filtered = m.filtered ∧ m'.cursor = m.cursor

/-- The navigation keys, the tab keys and the key that opens the filter input. -/
def navKeys : List String := ["up", "down", "j", "k", "left", "right", "h", "l", "/"]

/-- The keys of the cursor invariant: navigation keys, tab keys, the key that opens the filter
input, and any key typed while the filter input has the focus. -/
def NavOrFilterKey {TI : Type} (m : ListModel TI) (k : KeyMsg) : Prop :=
  k.str ∈ navKeys ∨ (m.editMode = EditModeNone ∧ m.filtering = true)

/-- Delivering a sequence of key presses to the list view; `none` when a step panics. -/
def runKeys {TI : Type} (L : Lib TI) (m : ListModel TI) : List KeyMsg → Option (ListModel TI)
  | [] => some m
  | k :: ks =>
    match m.Update L (Msg.key k) with
    | some r => runKeys L r.1 ks
    | none => none

/-- Every key of the sequence is, in the state it is delivered to, a navigation key, a tab
key or a filter key. -/
def NavOrFilterRun {TI : Type} (L : Lib TI) (m : ListModel TI) : List KeyMsg → Prop
  | [] => True
  | k :: ks =>
    NavOrFilterKey m k ∧
      match m.Update L (Msg.key k) with
      | some r => NavOrFilterRun L r.1 ks
      | none => True

/-- Satellite views that ignore every message; they are never active in the runs below. -/
def idleViews : Views Unit where
  init _ := ()
  setTeams _ _ := ()
  setWorkspaces _ _ := ()
  newDetail _ _ := ()
  newStartWork _ _ := ()
  newSettings _ _ _ _ := ()
  update _ _ _ := ((), none)

/-- Delivering a sequence of messages to the controller; `none` when a step panics. -/
def runRoot {TI SV : Type} (L : Lib TI) (V : Views SV) (E : Env) (m : RootModel TI SV) :
    List Msg → Option (RootModel TI SV)
  | [] => some m
  | msg :: msgs =>
    match m.Update L V E msg with
    | some r => runRoot L V E r.1 msgs
    | none => none

/-- The message a command returns when it is a closure that just returns a message. -/
def Cmd.emitted : Option Cmd → Option Msg
  | some (Cmd.emit msg) => some msg
  | _ => none

/-- The command is a closure that indexes out of range when it runs. -/
def Cmd.isPanic : Option Cmd → Bool
  | some Cmd.panics => true
  | _ => false

/-- A freshly built controller. -/
def exRoot : RootModel String Unit := NewRootModel refLib idleViews {} {} none [] "" []

/-- A session: the viewer has one team; its states and the three issues load; the user moves
the cursor to the last issue of the "Todo" tab (`a`), opens the status selector, selects
"Done" and confirms; the controller turns the request into the tracker update, which
succeeds. -/
def exSession : List Msg :=
  [Msg.viewerLoaded [{ ID := "t1", Name := "Team", Key := "T" }] none,
   Msg.statesLoaded [exTodo, exDone] none,
   Msg.issuesLoaded exIssues none,
   Msg.key ⟨"j"⟩, Msg.key ⟨"j"⟩, Msg.key ⟨"s"⟩, Msg.key ⟨"j"⟩, Msg.key ⟨"enter"⟩,
   Msg.issueStateUpdated "a" "s2" none false,
   Msg.issueStateUpdated "a" "s2" none true]

/-! ## The tracker client and the cancel and duplicate effects
(`internal/linear/mutations.go`, `internal/tui/root.go`) -/

/-- The remote tracker as the effects see it: the states of a team as the query returns them
(or its error), and the outcome of a state update (`none`, or its error). -/
structure Tracker where
  allTeamStates : String → Except String (List State)
  updateIssueState : String → String → Option String

/-- A call an effect makes to the tracker. -/
inductive Call where
  | getAllTeamStates (teamID : String)
  | updateIssueState (issueID stateID : String)
deriving DecidableEq, Repr

/-- The loop `for _, state := range states { if p state { return state.ID, nil } }`: the id it
returns, or `none` when it runs to its end. -/
def firstStateID (p : State → Bool) : List State → Option String
  | [] => none
  | s :: ss => if p s then some s.ID else firstStateID p ss

/-- The two loops of `GetCanceledStateID` and its final `return ""`. -/
def canceledStateID (states : List State) : String :=
  match firstStateID (fun state => state.Type' = "canceled" && state.Name = "Canceled") states with
  | some id => id
  | none =>
    match firstStateID (fun state => state.Type' = "canceled") states with
    | some id => id
    | none => ""

/-- The result is Go's `(string, error)`. -/
def GetCanceledStateID (T : Tracker) (teamID : String) : String × Option String :=
  match T.allTeamStates teamID with
  | .error e => ("", some e)
  | .ok states => (canceledStateID states, none)

/-- The loop of `GetDuplicateStateID` and its final `return ""`. -/
def duplicateStateID (states : List State) : String :=
  match firstStateID (fun state => state.Name = "Duplicate") states with
  | some id => id
  | none => ""

def GetDuplicateStateID (T : Tracker) (teamID : String) : String × Option String :=
  match T.allTeamStates teamID with
  | .error e => ("", some e)
  | .ok states => (duplicateStateID states, none)

/-- Running the command `RootModel.cancelIssue` returns: the message it produces and the
calls it makes to the tracker, in order. -/
def cancelIssue (T : Tracker) (issueID teamID : String) : Msg × List Call :=
  let r := GetCanceledStateID T teamID
  match r.2 with
  | some e => (Msg.issueStateUpdated issueID "" (some e) true, [Call.getAllTeamStates teamID])
  | none =>
    if r.1 = "" then
      (Msg.issueStateUpdated issueID "" none true, [Call.getAllTeamStates teamID])
    else
      (Msg.issueStateUpdated issueID r.1 (T.updateIssueState issueID r.1) true,
        [Call.getAllTeamStates teamID, Call.updateIssueState issueID r.1])

/-- Running the command `RootModel.markDuplicate` returns. -/
def markDuplicate (T : Tracker) (issueID teamID : String) : Msg × List Call :=
  let r := GetDuplicateStateID T teamID
  match r.2 with
  | some e => (Msg.issueStateUpdated issueID "" (some e) true, [Call.getAllTeamStates teamID])
  | none =>
    if r.1 = "" then
      let r2 := GetCanceledStateID T teamID
      match r2.2 with
      | some e =>
        (Msg.issueStateUpdated issueID "" (some e) true,
          [Call.getAllTeamStates teamID, Call.getAllTeamStates teamID])
      | none =>
        if r2.1 = "" then
          (Msg.issueStateUpdated issueID "" none true,
            [Call.getAllTeamStates teamID, Call.getAllTeamStates teamID])
        else
          (Msg.issueStateUpdated issueID r2.1 (T.updateIssueState issueID r2.1) true,
            [Call.getAllTeamStates teamID, Call.getAllTeamStates teamID,
             Call.updateIssueState issueID r2.1])
    else
      (Msg.issueStateUpdated issueID r.1 (T.updateIssueState issueID r.1) true,
        [Call.getAllTeamStates teamID, Call.updateIssueState issueID r.1])

/-- The id Cancel resolution is specified to yield: that of the first state of type
"canceled" named exactly "Canceled", else that of the first state of type "canceled", else
none (the empty id). -/
def cancelResolution (states : List State) : String :=
  match states.find? (fun s => s.Type' = "canceled" ∧ s.Name = "Canceled") with
  | some s => s.ID
  | none =>
    match states.find? (fun s => s.Type' = "canceled") with
    | some s => s.ID
    | none => ""

/-- A tracker whose teams all have the given states and whose updates succeed. -/
def exTracker (states : List State) : Tracker :=
  { allTeamStates := fun _ => .ok states, updateIssueState := fun _ _ => none }

/-- The states of the cancel scenario. -/
def exCancelStates : List State :=
  [{ ID := "s1", Name := "Canceled", Type' := "canceled" },
   { ID := "s2", Name := "Won't Fix", Type' := "canceled" }]

/-! ## Vocabulary for branch correlation -/

/-- The issue a pointer into a backing array points at. -/
def Heap.deref (h : Heap) (p : Ptr) : Option Issue := (h.array p.arr)[p.idx]?

/-- The issue `m.currentIssue` points at (`*m.currentIssue`), `none` for `nil`. -/
def currentIssueValue {TI : Type} (m : ListModel TI) : Option Issue :=
  m.currentIssue.bind m.heap.deref

/-- What every Go slice satisfies: its length is within its capacity, and its capacity within
its backing array. -/
def Slice.Wf (s : Slice) (h : Heap) : Prop :=
  s.len ≤ s.cap ∧ s.cap ≤ (h.array s.arr).length

/-- Branch correlation as specified: for a non-empty branch name, the first issue, scanning
"my issues" and then "all issues", whose identifier is a substring of the branch name or whose
stored branch name is the branch name; no issue for the empty branch name. -/
def branchCorrelation (branch : String) (my all : List Issue) : Option Issue :=
  if branch = "" then none
  else (my ++ all).find?
    (fun issue => issue.Identifier.data <:+: branch.data ∨ issue.BranchName = branch)

/-- The two issues of the branch scenario. -/
def exBranchIssues : List Issue :=
  [{ ID := "1", Identifier := "ENG-1", BranchName := "" },
   { ID := "2", Identifier := "ENG-2", BranchName := "feature/eng-2-foo" }]

/-- The list view with the branch `branch` and the two issues of the branch scenario as "my
issues". -/
def exOnBranch (branch : String) : ListModel String :=
  SetMyIssues refLib (SetCurrentBranch (NewListModel refLib) branch) exBranchIssues

/-- The list view on the branch "feature/eng-2-foo" with the two issues of the branch scenario
loaded both as "my issues" and as "all issues". -/
def exCorrelated : ListModel String :=
  SetAllIssues refLib (exOnBranch "feature/eng-2-foo") exBranchIssues

/-- The stored current-branch issue next to the branch correlation of the current contents of
"my issues" and "all issues". -/
def storedAndCorrelated {TI : Type} (m : ListModel TI) : Option Issue × Option Issue :=
  (currentIssueValue m,
    branchCorrelation m.currentBranch (m.heap.read m.myIssues) (m.heap.read m.allIssues))

/-! ## Vocabulary for the load completions -/

/-- The entries of a list, each once, in the order of first mention. -/
def firstMention (ids : List Nat) : List Nat :=
  ids.foldl (fun acc a => if a ∈ acc then acc else acc ++ [a]) []

/-- The backing arrays a list view refers to: those of `issues`, `myIssues`, `allIssues` and
of the current-branch pointer, in this order, each once. -/
def ListModel.arrays {TI : Type} (m : ListModel TI) : List Nat :=
  firstMention ([m.issues.arr, m.myIssues.arr, m.allIssues.arr]
    ++ (m.currentIssue.map (fun p => p.arr)).toList)

/-- The list view with its backing arrays renumbered in the order of `arrays` and the arrays
nothing refers to dropped.  Two list views with the same `canon` differ only in the addresses
of their backing arrays: every field holds the same value, every slice and the pointer have the
same length, capacity, index and array contents, and the same slices share an array. -/
def ListModel.canon {TI : Type} (m : ListModel TI) : ListModel TI :=
  let ids := m.arrays
  { m with
    heap := ids.map m.heap.array
    issues := { m.issues with arr := ids.indexOf m.issues.arr }
    myIssues := { m.myIssues with arr := ids.indexOf m.myIssues.arr }
    allIssues := { m.allIssues with arr := ids.indexOf m.allIssues.arr }
    currentIssue := m.currentIssue.map (fun p => { p with arr := ids.indexOf p.arr }) }

/-- The three successful load completions of one team. -/
def loads (S : List State) (M A : List Issue) : List Msg :=
  [Msg.statesLoaded S none, Msg.issuesLoaded M none, Msg.allIssuesLoaded A none]

/-! ## The prompt builder (`internal/provider/prompt.go`) -/

/-- The organization a workspace belongs to (`linear.IssueContext`). -/
structure IssueContext where
  OrganizationID : String := ""
  OrganizationName : String := ""
deriving DecidableEq, Repr

/-- Library code the prompt builder calls: `unicode.ToLower`, by which `strings.ToLower` maps
every rune, and `time.Parse(time.RFC3339, ts)` followed by `Format("2006-01-02")`, which is
`none` when the timestamp does not parse. -/
structure PromptLib where
  toLowerRune : Char → Char
  rfc3339Date : String → Option String

section Prompt

variable (P : PromptLib)

/-- `strings.ToLower`. -/
def PromptLib.toLower (s : String) : String := ⟨s.data.map P.toLowerRune⟩

/-- The two result slices start as `nil` and grow by `append`. -/
def filterSlackAttachments (attachments : List Attachment) :
    List Attachment × List Attachment :=
  attachments.foldl
    (fun r att =>
      if P.toLower att.SourceType = "slack" then (r.1 ++ [att], r.2) else (r.1, r.2 ++ [att]))
    ([], [])

/-- The type assertion `metadata[key].(string)`: the string and `true`, or `""` and `false`
when the key is absent or its value is not a string. -/
def metaString (metadata : List (String × MetaValue)) (key : String) : String × Bool :=
  match metadata.lookup key with
  | some (MetaValue.str s) => (s, true)
  | _ => ("", false)

def extractSlackContent (metadata : Option (List (String × MetaValue))) : String :=
  match metadata with
  | none => ""
  | some md =>
    let text := metaString md "text"
    if text.2 = true ∧ text.1 ≠ "" then text.1
    else
      let message := metaString md "message"
      if message.2 = true ∧ message.1 ≠ "" then message.1
      else
        let content := metaString md "content"
        if content.2 = true ∧ content.1 ≠ "" then content.1
        else ""

def formatCommentDate (timestamp : String) : String :=
  match P.rfc3339Date timestamp with
  | none => timestamp
  | some date => date

/-- The pieces of a text between its line feeds. -/
def splitNewline : List Char → List (List Char)
  | [] => [[]]
  | c :: cs =>
    if c = Char.ofNat 10 then [] :: splitNewline cs
    else
      match splitNewline cs with
      | [] => [[c]]
      | l :: ls => (c :: l) :: ls

/-- The call `strings.Split(s, "\n")`. -/
def stringsSplitNewline (s : String) : List String := (splitNewline s.data).map String.mk

/-- The builder `sb` is the text written so far; every `sb.WriteString(x)` is `sb ++ x`, and
every `fmt.Sprintf` with `%s` and `%d` verbs is the concatenation it denotes. -/
def buildPromptInternal (issue : Issue) (comment : String) (ctx : Option IssueContext) :
    String :=
  let sb := ""
  let sb := sb ++ ("I'm starting work on Linear ticket " ++ issue.Identifier ++ ".\n\n")
  let sb := sb ++ ("## " ++ issue.Identifier ++ ": " ++ issue.Title ++ "\n\n")
  let sb :=
    if issue.Description ≠ "" then
      let sb := sb ++ "### Description\n"
      let sb := sb ++ issue.Description
      sb ++ "\n\n"
    else sb
  let sb := sb ++ "### Metadata\n"
  let sb := sb ++ ("- **Status**: " ++ issue.State.Name ++ " (moved to In Progress)\n")
  let sb := sb ++ ("- **Team**: " ++ issue.Team.Name ++ "\n")
  let sb :=
    match issue.Assignee with
    | some assignee => sb ++ ("- **Assignee**: " ++ assignee.Name ++ "\n")
    | none => sb
  let sb :=
    if issue.Labels.length > 0 then
      let labels := issue.Labels.map (fun label => label.Name)
      sb ++ ("- **Labels**: " ++ ", ".intercalate labels ++ "\n")
    else sb
  let sb :=
    if issue.BranchName ≠ "" then sb ++ ("- **Suggested branch**: `" ++ issue.BranchName ++ "`\n")
    else sb
  let sb := sb ++ ("- **Linear URL**: " ++ issue.URL ++ "\n")
  let split := filterSlackAttachments P issue.Attachments
  let slackAttachments := split.1
  let otherAttachments := split.2
  let sb :=
    if slackAttachments.length > 0 then
      slackAttachments.foldl
        (fun sb att =>
          let sb := sb ++ ("**" ++ att.Title ++ "**\n")
          let content := extractSlackContent att.Metadata
          let sb := if content ≠ "" then sb ++ ("> " ++ content ++ "\n") else sb
          let sb := if att.Subtitle ≠ "" then sb ++ ("_" ++ att.Subtitle ++ "_\n") else sb
          sb ++ ("- [View in Slack](" ++ att.URL ++ ")\n\n"))
        (sb ++ "\n### Slack Conversations\n")
    else sb
  let sb :=
    if otherAttachments.length > 0 then
      let sb := otherAttachments.foldl
        (fun sb att =>
          let sourceType := if att.SourceType = "" then "link" else att.SourceType
          sb ++ ("- [" ++ att.Title ++ "](" ++ att.URL ++ ") (" ++ sourceType ++ ")\n"))
        (sb ++ "\n### Attachments\n")
      sb ++ "\n"
    else sb
  let sb :=
    if issue.Comments.length > 0 then
      let sb := sb ++ "\n### Discussion Thread\n"
      let sb := sb ++ ("*" ++ Nat.repr issue.Comments.length ++ " comment(s) on this issue:*\n\n")
      issue.Comments.foldl
        (fun sb c =>
          let date := formatCommentDate P c.CreatedAt
          let sb := sb ++ ("**" ++ c.User.Name ++ "** (" ++ date ++ "):\n")
          let lines := stringsSplitNewline c.Body
          let sb := lines.foldl (fun sb line => sb ++ ("> " ++ line ++ "\n")) sb
          sb ++ "\n")
        sb
    else sb
  let sb := if comment ≠ "" then sb ++ ("\n### My Notes\n" ++ comment ++ "\n") else sb
  let sb := sb ++ "\n### Linear API Context\n"
  let sb := sb ++
    "If you have access to the Linear MCP server, you can use these identifiers:\n"
  let sb := sb ++ ("- **Issue ID (UUID)**: `" ++ issue.ID ++ "`\n")
  let sb := sb ++ ("- **Issue Identifier**: `" ++ issue.Identifier ++ "`\n")
  let sb := sb ++ ("- **Team ID**: `" ++ issue.Team.ID ++ "`\n")
  let sb := sb ++ ("- **Team Key**: `" ++ issue.Team.Key ++ "`\n")
  let sb :=
    match ctx with
    | some c =>
      let sb := sb ++ ("- **Organization ID**: `" ++ c.OrganizationID ++ "`\n")
      sb ++ ("- **Organization Name**: " ++ c.OrganizationName ++ "\n")
    | none => sb
  let sb := sb ++
    "\nWith Linear MCP, you can: update issue status, add comments, create sub-issues, query related issues, and more.\n"
  let sb := sb ++ "\n---\n"
  let sb := sb ++
    "Please help me implement this ticket. Start by understanding the requirements and exploring the codebase if needed.\n\n"
  let sb := sb ++
    ("**Important**: When you make the commit that resolves this issue, include `Fixes "
      ++ issue.Identifier
      ++ "` in the commit message so Linear automatically marks it as done.")
  sb

end Prompt

/-! ## Vocabulary for the prompt

The sections of the prompt, as the specification names them. -/

section PromptSections

variable (P : PromptLib)

/-- The attachment is Slack-sourced: its source type is "slack" up to letter case. -/
def isSlack (att : Attachment) : Prop := P.toLower att.SourceType = "slack"

instance (att : Attachment) : Decidable (isSlack P att) := by
  unfold isSlack
  infer_instance

def openingLine (issue : Issue) : String :=
  "I'm starting work on Linear ticket " ++ issue.Identifier ++ ".\n\n"

def headingLine (issue : Issue) : String :=
  "## " ++ issue.Identifier ++ ": " ++ issue.Title ++ "\n\n"

def descriptionSection (issue : Issue) : String :=
  "### Description\n" ++ issue.Description ++ "\n\n"

/-- Status, team, assignee if present, labels if any, suggested branch if present, URL. -/
def metadataBlock (issue : Issue) : String :=
  "### Metadata\n"
    ++ ("- **Status**: " ++ issue.State.Name ++ " (moved to In Progress)\n")
    ++ ("- **Team**: " ++ issue.Team.Name ++ "\n")
    ++ (match issue.Assignee with
        | some assignee => "- **Assignee**: " ++ assignee.Name ++ "\n"
        | none => "")
    ++ (if issue.Labels = [] then ""
        else "- **Labels**: " ++ ", ".intercalate (issue.Labels.map (fun label => label.Name))
          ++ "\n")
    ++ (if issue.BranchName = "" then ""
        else "- **Suggested branch**: `" ++ issue.BranchName ++ "`\n")
    ++ ("- **Linear URL**: " ++ issue.URL ++ "\n")

/-- One Slack conversation: title, quoted content if any, subtitle if any, link. -/
def slackEntry (att : Attachment) : String :=
  ("**" ++ att.Title ++ "**\n")
    ++ (if extractSlackContent att.Metadata = "" then ""
        else "> " ++ extractSlackContent att.Metadata ++ "\n")
    ++ (if att.Subtitle = "" then "" else "_" ++ att.Subtitle ++ "_\n")
    ++ ("- [View in Slack](" ++ att.URL ++ ")\n\n")

def slackSection (issue : Issue) : String :=
  "\n### Slack Conversations\n"
    ++ String.join ((issue.Attachments.filter (fun att => isSlack P att)).map slackEntry)

/-- The label of an attachment in the Attachments section. -/
def sourceLabel (att : Attachment) : String :=
  if att.SourceType = "" then "link" else att.SourceType

def attachmentLine (att : Attachment) : String :=
  "- [" ++ att.Title ++ "](" ++ att.URL ++ ") (" ++ sourceLabel att ++ ")\n"

def attachmentsSection (issue : Issue) : String :=
  "\n### Attachments\n"
    ++ String.join ((issue.Attachments.filter (fun att => ¬ isSlack P att)).map attachmentLine)
    ++ "\n"

/-- One comment of the thread: author and date, then the body quoted line by line. -/
def commentEntry (c : Comment) : String :=
  ("**" ++ c.User.Name ++ "** (" ++ formatCommentDate P c.CreatedAt ++ "):\n")
    ++ String.join ((stringsSplitNewline c.Body).map (fun line => "> " ++ line ++ "\n"))
    ++ "\n"

def discussionSection (issue : Issue) : String :=
  "\n### Discussion Thread\n"
    ++ ("*" ++ Nat.repr issue.Comments.length ++ " comment(s) on this issue:*\n\n")
    ++ String.join (issue.Comments.map (commentEntry P))

def notesSection (comment : String) : String := "\n### My Notes\n" ++ comment ++ "\n"

/-- The two organization lines of the context block. -/
def organizationLines (c : IssueContext) : String :=
  ("- **Organization ID**: `" ++ c.OrganizationID ++ "`\n")
    ++ ("- **Organization Name**: " ++ c.OrganizationName ++ "\n")

/-- The heading of the context block and its four identifier lines. -/
def identifierLines (issue : Issue) : String :=
  "\n### Linear API Context\n"
    ++ "If you have access to the Linear MCP server, you can use these identifiers:\n"
    ++ ("- **Issue ID (UUID)**: `" ++ issue.ID ++ "`\n")
    ++ ("- **Issue Identifier**: `" ++ issue.Identifier ++ "`\n")
    ++ ("- **Team ID**: `" ++ issue.Team.ID ++ "`\n")
    ++ ("- **Team Key**: `" ++ issue.Team.Key ++ "`\n")

/-- The sentence that ends the context block. -/
def mcpSentence : String :=
  "\nWith Linear MCP, you can: update issue status, add comments, create sub-issues, query related issues, and more.\n"

def contextBlock (issue : Issue) (ctx : Option IssueContext) : String :=
  identifierLines issue
    ++ (match ctx with
        | some c => organizationLines c
        | none => "")
    ++ mcpSentence

/-- The last sentence of the prompt. -/
def commitHint (issue : Issue) : String :=
  "**Important**: When you make the commit that resolves this issue, include `Fixes "
    ++ issue.Identifier
    ++ "` in the commit message so Linear automatically marks it as done."

def closingInstruction (issue : Issue) : String :=
  "\n---\n"
    ++ "Please help me implement this ticket. Start by understanding the requirements and exploring the codebase if needed.\n\n"
    ++ commitHint issue

/-- The sections of the prompt in their order, each optional one under its condition. -/
def promptSections (issue : Issue) (comment : String) (ctx : Option IssueContext) :
    List String :=
  [openingLine issue,
   headingLine issue,
   if issue.Description = "" then "" else descriptionSection issue,
   metadataBlock issue,
   if ∃ att ∈ issue.Attachments, isSlack P att then slackSection P issue else "",
   if ∃ att ∈ issue.Attachments, ¬ isSlack P att then attachmentsSection P issue else "",
   if issue.Comments = [] then "" else discussionSection P issue,
   if comment = "" then "" else notesSection comment,
   contextBlock issue ctx,
   closingInstruction issue]

/-- An issue with an identifier and a title and nothing else. -/
def exCrash : Issue := { Identifier := "ENG-42", Title := "Fix crash" }

/-- A date function for the examples: a timestamp of the form `YYYY-MM-DDThh:mm:ssZ` gives its
first ten characters, any other text does not parse.  Calendar ranges are not checked. -/
def exDate (ts : String) : Option String :=
  if ts.data.map (fun c => if c.isDigit then '0' else c) = "0000-00-00T00:00:00Z".data then
    some ⟨ts.data.take 10⟩
  else none

/-- Library code for the examples: lower-casing of the ASCII letters, and `exDate`. -/
def exPromptLib : PromptLib := { toLowerRune := Char.toLower, rfc3339Date := exDate }

/-- Four attachments: two Slack-sourced (in different letter case), one from GitHub, one with
no source type. -/
def exAttachments : List Attachment :=
  [{ Title := "thread", URL := "u1", SourceType := "slack",
     Metadata := some [("text", MetaValue.str "hello")] },
   { Title := "pr", URL := "u2", SourceType := "github" },
   { Title := "doc", URL := "u3", SourceType := "" },
   { Title := "chat", URL := "u4", SourceType := "Slack", Subtitle := "general" }]

/-- An issue with a description, an assignee, two labels, the four attachments and two
comments, the second with a body of two lines and a timestamp that does not parse. -/
def exFull : Issue :=
  { ID := "uuid-7", Identifier := "ENG-7", Title := "Add login", Description := "Users log in.",
    BranchName := "eng-7-add-login", URL := "https://linear.app/i/ENG-7",
    State := { ID := "s1", Name := "Todo", Type' := "unstarted" },
    Assignee := some { ID := "u1", Name := "Ada" },
    Labels := [{ ID := "l1", Name := "bug" }, { ID := "l2", Name := "auth" }],
    Team := { ID := "t1", Name := "Eng", Key := "ENG" },
    Comments := [{ ID := "c1", Body := "first", CreatedAt := "2024-03-05T10:00:00Z",
                   User := { Name := "Bob" } },
                 { ID := "c2", Body := "a\nb", CreatedAt := "yesterday",
                   User := { Name := "Cy" } }],
    Attachments := exAttachments }

end PromptSections

/-! ## The StartWork view (`internal/tui/views/startwork.go`) -/

/-- `focusIndex`: 0 is the comment, 1 "use branch", 2 "plan mode", 3 the start button, 4 the
checkout-only button. -/
structure StartWorkModel (TI : Type) where
  issue : Issue := {}
  commentInput : TI
  useBranchName : Bool := false
  planMode : Bool := false
  focusIndex : Int := 0
  err : Option String := none

section StartWork

variable {TI : Type} (L : Lib TI)

def NewStartWorkModel (issue : Issue) : StartWorkModel TI :=
  { issue := issue
    commentInput := L.tiFocus (L.tiNew "Add a comment (optional, syncs to Linear)" 500 60)
    useBranchName := true
    planMode := true
    focusIndex := 0 }

/-- `%` is Go's remainder, which truncates towards zero. -/
def StartWorkModel.Update (m : StartWorkModel TI) (msg : Msg) :
    StartWorkModel TI × Option Cmd :=
  match msg with
  | Msg.key k =>
    if m.focusIndex = 0 then
      if k.str = "tab" ∨ k.str = "down" then
        ({ m with focusIndex := 1, commentInput := L.tiBlur m.commentInput }, none)
      else if k.str = "esc" then
        (m, some (Cmd.emit (Msg.switchToDetail m.issue)))
      else
        let r := L.tiUpdate m.commentInput k
        ({ m with commentInput := r.1 }, r.2)
    else if k.str = "tab" ∨ k.str = "down" then
      let m := { m with focusIndex := Int.tmod (m.focusIndex + 1) 5 }
      let m := if m.focusIndex = 0 then { m with commentInput := L.tiFocus m.commentInput }
        else m
      (m, none)
    else if k.str = "shift+tab" ∨ k.str = "up" then
      let m := { m with focusIndex := m.focusIndex - 1 }
      let m := if m.focusIndex < 0 then { m with focusIndex := 4 } else m
      let m := if m.focusIndex = 0 then { m with commentInput := L.tiFocus m.commentInput }
        else m
      (m, none)
    else if k.str = "enter" ∨ k.str = " " then
      if m.focusIndex = 1 then ({ m with useBranchName := !m.useBranchName }, none)
      else if m.focusIndex = 2 then ({ m with planMode := !m.planMode }, none)
      else if m.focusIndex = 3 then
        (m, some (Cmd.emit (Msg.startClaude
          { Issue := m.issue, Comment := L.tiValue m.commentInput,
            UseBranch := m.useBranchName, PlanMode := m.planMode })))
      else if m.focusIndex = 4 then
        (m, some (Cmd.emit (Msg.startClaude
          { Issue := m.issue, Comment := L.tiValue m.commentInput,
            UseBranch := true, CheckoutOnly := true })))
      else (m, none)
    else if k.str = "esc" then
      (m, some (Cmd.emit (Msg.switchToDetail m.issue)))
    else (m, none)
  | _ => (m, none)

end StartWork

/-! ## The Settings view (`internal/tui/views/settings.go`) -/

structure SettingsModel where
  cfg : Config := {}
  workspace : Option Workspace := none
  providers : List String := []
  currentProvider : String := ""
  providerCursor : Int := 0
  editingProvider : Bool := false
  saved : Bool := false
  err : Option String := none

/-- Index of the first provider equal to the current one (the loop of the `esc` key). -/
def findProvider (current : String) : List String → Option Nat
  | [] => none
  | p :: ps => if p = current then some 0 else (findProvider current ps).map (· + 1)

/-- The key handling in provider selection; `none` is a panic (index out of range). -/
def SettingsModel.handleProviderInput (m : SettingsModel) (msg : KeyMsg) :
    Option (SettingsModel × Option Cmd) :=
  if msg.str = "up" ∨ msg.str = "k" then
    some (if m.providerCursor > 0 then { m with providerCursor := m.providerCursor - 1 } else m,
      none)
  else if msg.str = "down" ∨ msg.str = "j" then
    some (if m.providerCursor < (m.providers.length : Int) - 1 then
        { m with providerCursor := m.providerCursor + 1 } else m, none)
  else if msg.str = "enter" then
    if m.providers.length > 0 then
      if m.providerCursor < 0 then none
      else
        match m.providers[m.providerCursor.toNat]? with
        | some selectedProvider =>
          some ({ m with currentProvider := selectedProvider, editingProvider := false },
            some (Cmd.saveSettings selectedProvider))
        | none => none
    else some ({ m with editingProvider := false }, none)
  else if msg.str = "esc" then
    let m := match findProvider m.currentProvider m.providers with
      | some i => { m with providerCursor := i }
      | none => m
    some ({ m with editingProvider := false }, none)
  else some (m, none)

def SettingsModel.Update (m : SettingsModel) (msg : Msg) :
    Option (SettingsModel × Option Cmd) :=
  match msg with
  | Msg.key k =>
    if m.editingProvider then m.handleProviderInput k
    else if k.str = "esc" ∨ k.str = "q" then some (m, some (Cmd.emit Msg.switchToList))
    else if k.str = "p" then some ({ m with editingProvider := true, saved := false }, none)
    else some (m, none)
  | Msg.settingsSaved err =>
    match err with
    | some e => some ({ m with err := some e }, none)
    | none => some ({ m with saved := true, err := none }, none)
  | _ => some (m, none)

/-! ## What `main` reads from the final controller state -/

def RootModel.ShouldStartClaude {TI SV : Type} (m : RootModel TI SV) : Option StartClaudeMsg :=
  m.startClaude

def RootModel.ShouldAddNewWorkspace {TI SV : Type} (m : RootModel TI SV) : Bool :=
  m.addNewWorkspace

/-! ## The team states in display order (`Client.GetTeamStates`, `internal/linear/queries.go`) -/

/-- The body of the inner loop of the closure `sort`:
`if states[i].Position > states[j].Position { states[i], states[j] = states[j], states[i] }`. -/
def swapIfGreater (states : List State) (i j : Nat) : List State :=
  match states[i]?, states[j]? with
  | some a, some b => if a.Position > b.Position then (states.set i b).set j a else states
  | _, _ => states

/-- The inner loop `for j := i + 1; j < len(states); j++`. -/
def sortInner (i : Nat) (states : List State) : List State :=
  (List.range' (i + 1) (states.length - (i + 1))).foldl (fun s j => swapIfGreater s i j) states

/-- The closure `sort` of `GetTeamStates`: the outer loop `for i := 0; i < len(states)-1; i++`
around the inner loop.  The slice is sorted in place; its length never changes. -/
def GetTeamStates.sort (states : List State) : List State :=
  (List.range (states.length - 1)).foldl (fun s i => sortInner i s) states

/-- The loop that distributes the nodes over `activeStates`, `completedStates` and
`canceledStates`, which start as `nil` and grow by `append`. -/
def GetTeamStates.bands (nodes : List State) : List State × List State × List State :=
  nodes.foldl
    (fun r node =>
      if node.Type' = "canceled" then (r.1, r.2.1, r.2.2 ++ [node])
      else if node.Type' = "completed" then (r.1, r.2.1 ++ [node], r.2.2)
      else (r.1 ++ [node], r.2.1, r.2.2))
    ([], [], [])

/-- `GetTeamStates` runs the same team-states query as `getAllTeamStates`. -/
def GetTeamStates (T : Tracker) (teamID : String) : Except String (List State) :=
  match T.allTeamStates teamID with
  | .error e => .error e
  | .ok nodes =>
    let b := GetTeamStates.bands nodes
    .ok (GetTeamStates.sort b.1 ++ GetTeamStates.sort b.2.1 ++ GetTeamStates.sort b.2.2)

/-- Three states out of display order, for the examples. -/
def exNodes : List State :=
  [{ ID := "c", Name := "Canceled", Type' := "canceled", Position := 5 },
   { ID := "p", Name := "In Progress", Type' := "started", Position := 2 },
   { ID := "d", Name := "Done", Type' := "completed", Position := 3 },
   { ID := "t", Name := "Todo", Type' := "unstarted", Position := 1 },
   { ID := "b", Name := "Backlog", Type' := "backlog", Position := 0 }]

/-! ## The hand-off to the agent (`main.go`) -/

/-- The two loops of `GetInProgressStateID` and its final `return ""`. -/
def inProgressStateID (states : List State) : String :=
  match firstStateID (fun state => state.Type' = "started") states with
  | some id => id
  | none =>
    match firstStateID (fun state => state.Name = "In Progress") states with
    | some id => id
    | none => ""

def GetInProgressStateID (T : Tracker) (teamID : String) : String × Option String :=
  match GetTeamStates T teamID with
  | .error e => ("", some e)
  | .ok states => (inProgressStateID states, none)

/-- The tracker as the whole session sees it: besides the team states and the state update,
the outcome of `CreateComment` (`(*Comment, error)`), of `GetIssueWithContext` and of
`GetWorkspaceInfo` (organization id and name). -/
structure Client extends Tracker where
  createComment : String → String → Except String (Option Comment)
  issueWithContext : String → Except String Issue
  workspaceInfo : Except String (String × String)

/-- What the session does outside its own state: the five requests to the tracker (the
team-states query, the state update, the comment creation, the issue-context query, the
viewer query of `GetWorkspaceInfo`), `checkoutBranch`, the call of the provider's `Exec`, and
`os.Exit`. -/
inductive Action where
  | teamStates (teamID : String)
  | updateIssueState (issueID stateID : String)
  | createComment (issueID body : String)
  | issueWithContext (issueID : String)
  | workspaceInfo
  | checkoutBranch (branchName : String)
  | exec (providerID : String) (issue : Issue) (comment : String)
      (ctx : Option IssueContext) (planMode : Bool)
  | exit (code : Nat)
deriving DecidableEq, Repr

/-- The action is a request to the tracker. -/
def Action.isTrackerCall : Action → Bool
  | Action.teamStates _ => true
  | Action.updateIssueState _ _ => true
  | Action.createComment _ _ => true
  | Action.issueWithContext _ => true
  | Action.workspaceInfo => true
  | _ => false

/-- The action is the invocation of the agent. -/
def Action.isExec : Action → Bool
  | Action.exec _ _ _ _ _ => true
  | _ => false

/-- Running the command `RootModel.createComment` returns: the message it produces and what
it does. -/
def createComment (C : Client) (issueID body : String) : Msg × List Action :=
  match C.createComment issueID body with
  | .error e => (Msg.commentCreated none (some e), [Action.createComment issueID body])
  | .ok comment => (Msg.commentCreated comment none, [Action.createComment issueID body])

/-- What `prepareLinearIssue` does, in order; printing is not part of the model. -/
def prepareLinearIssue (C : Client) (startMsg : StartClaudeMsg) : List Action :=
  let r := GetInProgressStateID C.toTracker startMsg.Issue.Team.ID
  let move :=
    match r.2 with
    | some _ => []
    | none =>
      if r.1 ≠ "" then [Action.updateIssueState startMsg.Issue.ID r.1] else []
  let comment :=
    if startMsg.Comment ≠ "" then [Action.createComment startMsg.Issue.ID startMsg.Comment]
    else []
  let checkout :=
    if startMsg.UseBranch = true ∧ startMsg.Issue.BranchName ≠ "" then
      [Action.checkoutBranch startMsg.Issue.BranchName]
    else []
  [Action.teamStates startMsg.Issue.Team.ID] ++ move ++ comment ++ checkout

def Config.GetProvider (c : Config) : String :=
  if c.Provider = "" then "claude" else c.Provider

/-- The providers `main` registers. -/
def registeredProviders : List String := ["claude", "echo"]

/-- What `main` does once `p.Run()` has returned the final controller state, in order.  `none`
is the add-workspace flow, which restarts the interface and is not part of the model.  What
follows the call of `Exec` (it may replace the process) is not part of the model either. -/
def mainAfterRun {TI SV : Type} (C : Client) (cfg : Config) (rootModel : RootModel TI SV) :
    Option (List Action) :=
  if rootModel.ShouldAddNewWorkspace = true then none
  else
    match rootModel.ShouldStartClaude with
    | some startMsg =>
      if startMsg.CheckoutOnly = true then
        if startMsg.Issue.BranchName ≠ "" then
          some [Action.checkoutBranch startMsg.Issue.BranchName]
        else some []
      else
        let issueWithContext :=
          match C.issueWithContext startMsg.Issue.ID with
          | .error _ => startMsg.Issue
          | .ok issue => issue
        let issueCtx : Option IssueContext :=
          match C.workspaceInfo with
          | .ok info => some { OrganizationID := info.1, OrganizationName := info.2 }
          | .error _ => none
        let providerID := cfg.GetProvider
        some ([Action.issueWithContext startMsg.Issue.ID, Action.workspaceInfo]
          ++ prepareLinearIssue C startMsg
          ++ (if providerID ∈ registeredProviders then
                [Action.exec providerID issueWithContext startMsg.Comment issueCtx
                  startMsg.PlanMode]
              else [Action.exit 1]))
    | none => some []

section Session

variable {TI SV : Type} (L : Lib TI) (V : Views SV) (E : Env)

/-- The session from the arrival of a launch request at the controller to the end of `main`.
The controller handles the request.  When it returns the create-comment command, the runtime
runs the command and delivers its message to the controller.  When the controller returns
`tea.Quit`, `p.Run()` returns the controller state and `main` goes on with it.  The result
is what the session does, in order; it is `none` when the controller panics or does not quit
on these messages, and for the add-workspace flow. -/
def launchSession (C : Client) (cfg : Config) (m : RootModel TI SV) (s : StartClaudeMsg) :
    Option (List Action) :=
  match m.Update L V E (Msg.startClaude s) with
  | some (m1, some Cmd.quit) => mainAfterRun C cfg m1
  | some (m1, some (Cmd.createComment issueID body)) =>
    let r := createComment C issueID body
    match m1.Update L V E r.1 with
    | some (m2, some Cmd.quit) => (mainAfterRun C cfg m2).map (fun actions => r.2 ++ actions)
    | _ => none
  | _ => none

end Session

/-- A tracker for the examples: the team has the states `exNodes`, every request succeeds. -/
def exClient : Client :=
  { allTeamStates := fun _ => .ok exNodes
    updateIssueState := fun _ _ => none
    createComment := fun _ body => .ok (some { ID := "c9", Body := body })
    issueWithContext := fun _ => .ok exFull
    workspaceInfo := .ok ("o1", "Org") }

/-- The checkout-only launch request the StartWork view sends for the issue `exFull` when the
comment field holds "note". -/
def exCheckoutOnly : StartClaudeMsg :=
  { Issue := exFull, Comment := "note", UseBranch := true, CheckoutOnly := true }

/-- The launch request of the start button for the issue `exFull` with the comment "note". -/
def exLaunch : StartClaudeMsg :=
  { Issue := exFull, Comment := "note", UseBranch := true, PlanMode := true }

/-! ## Vocabulary for the order of the team states -/

/-- The state at index `i`, if any, has a position not above that of the state at index `k`,
if any. -/
def LeAt (s : List State) (i k : Nat) : Prop :=
  ∀ x y, s[i]? = some x → s[k]? = some y → x.Position ≤ y.Position

/-- The list is in non-decreasing order of position. -/
def SortedByPosition (s : List State) : Prop :=
  s.Pairwise (fun x y => x.Position ≤ y.Position)

/-! # Theorems -/

/-! ## Buckets -/

theorem Buckets.get_append (b : Buckets) (k k' : String) (x : Issue) :
    (b.append k x).get k' = if k' = k then b.get k ++ [x] else b.get k' := by
  induction b with
  | nil =>
    by_cases h : k' = k
    · simp [Buckets.append, Buckets.get, h]
    · have h' : ¬ k = k' := fun e => h e.symm
      simp [Buckets.append, Buckets.get, h, h']
  | cons kv rest ih =>
    obtain ⟨k0, v⟩ := kv
    by_cases h0 : k0 = k
    · subst h0
      by_cases h : k' = k0
      · simp [Buckets.append, Buckets.get, h]
      · have h' : ¬ k0 = k' := fun e => h e.symm
        simp [Buckets.append, Buckets.get, h, h']
    · by_cases h1 : k0 = k'
      · subst h1
        simp [Buckets.append, Buckets.get, h0]
      · simp [Buckets.append, Buckets.get, h0, h1, ih]

theorem Buckets.keys_append (b : Buckets) (k : String) (x : Issue) :
    (b.append k x).keys = if k ∈ b.keys then b.keys else b.keys ++ [k] := by
  induction b with
  | nil => simp [Buckets.append, Buckets.keys]
  | cons kv rest ih =>
    obtain ⟨k0, v⟩ := kv
    by_cases h0 : k0 = k
    · subst h0
      simp [Buckets.append, Buckets.keys]
    · have h0' : ¬ k = k0 := fun e => h0 e.symm
      simp only [Buckets.keys] at ih
      by_cases hk : k ∈ rest.map Prod.fst
      · simp [Buckets.append, Buckets.keys, h0, h0', ih, hk]
      · simp [Buckets.append, Buckets.keys, h0, h0', ih, hk]

theorem Buckets.get_of_not_mem_keys (b : Buckets) (k : String) (h : k ∉ b.keys) :
    b.get k = [] := by
  induction b with
  | nil => rfl
  | cons kv rest ih =>
    obtain ⟨k0, v⟩ := kv
    simp only [Buckets.keys, List.map_cons, List.mem_cons, not_or] at h
    have h0 : ¬ k0 = k := fun e => h.1 e.symm
    simp only [Buckets.get, h0, if_false]
    exact ih h.2

theorem Buckets.get_of_mem (b : Buckets) (kv : String × List Issue) (hn : b.keys.Nodup)
    (h : kv ∈ b) : b.get kv.1 = kv.2 := by
  induction b with
  | nil => cases h
  | cons kv0 rest ih =>
    obtain ⟨k0, v⟩ := kv0
    simp only [Buckets.keys, List.map_cons, List.nodup_cons] at hn
    rcases List.mem_cons.1 h with h | h
    · subst h
      simp [Buckets.get]
    · have hk : kv.1 ∈ rest.map Prod.fst := List.mem_map_of_mem _ h
      have h0 : ¬ k0 = kv.1 := fun e => hn.1 (e ▸ hk)
      simp only [Buckets.get, h0, if_false]
      exact ih hn.2 h

theorem Buckets.get_map (b : Buckets) (f : List Issue → List Issue) (k : String) :
    Buckets.get (b.map (fun kv => (kv.1, f kv.2))) k
      = if k ∈ b.keys then f (b.get k) else [] := by
  induction b with
  | nil => simp [Buckets.get, Buckets.keys]
  | cons kv rest ih =>
    obtain ⟨k0, v⟩ := kv
    by_cases h0 : k0 = k
    · subst h0
      simp [Buckets.get, Buckets.keys]
    · have h0' : ¬ k = k0 := fun e => h0 e.symm
      simp only [Buckets.keys] at ih
      simp only [Buckets.get, Buckets.keys, List.map_cons, h0, if_false, ih, List.mem_cons,
        h0', false_or]

theorem Buckets.keys_map (b : Buckets) (f : List Issue → List Issue) :
    Buckets.keys (b.map (fun kv => (kv.1, f kv.2))) = b.keys := by
  simp [Buckets.keys, List.map_map, Function.comp_def]

/-- The grouping loop, started from the bucket map `b`. -/
theorem group_get (l : List Issue) (b : Buckets) (k : String) :
    (l.foldl (fun b issue => b.append issue.State.ID issue) b).get k
      = b.get k ++ l.filter (fun x => x.State.ID = k) := by
  induction l generalizing b with
  | nil => simp
  | cons x xs ih =>
    rw [List.foldl_cons, ih, Buckets.get_append]
    by_cases h : k = x.State.ID
    · subst h
      simp [List.filter_cons]
    · have h' : ¬ x.State.ID = k := fun e => h e.symm
      simp [List.filter_cons, h, h']

theorem group_keys_nodup (l : List Issue) (b : Buckets) (h : b.keys.Nodup) :
    (l.foldl (fun b issue => b.append issue.State.ID issue) b).keys.Nodup := by
  induction l generalizing b with
  | nil => simpa using h
  | cons x xs ih =>
    rw [List.foldl_cons]
    apply ih
    rw [Buckets.keys_append]
    by_cases hk : x.State.ID ∈ b.keys
    · simpa [hk] using h
    · simp only [hk, if_false]
      exact List.Nodup.append h (List.nodup_singleton _) (by simpa using hk)

theorem group_mem_keys (l : List Issue) (b : Buckets) (k : String) :
    k ∈ (l.foldl (fun b issue => b.append issue.State.ID issue) b).keys
      ↔ k ∈ b.keys ∨ ∃ x ∈ l, x.State.ID = k := by
  induction l generalizing b with
  | nil => simp
  | cons x xs ih =>
    rw [List.foldl_cons, ih, Buckets.keys_append]
    by_cases hk : x.State.ID ∈ b.keys
    · simp only [hk, if_true, List.mem_cons, exists_eq_or_imp]
      constructor
      · rintro (h | h)
        · exact Or.inl h
        · exact Or.inr (Or.inr h)
      · rintro (h | h | h)
        · exact Or.inl h
        · exact Or.inl (h ▸ hk)
        · exact Or.inr h
    · simp only [hk, if_false, List.mem_append, List.mem_singleton, List.mem_cons,
        exists_eq_or_imp, List.not_mem_nil, or_false]
      constructor
      · rintro ((h | h) | h)
        · exact Or.inl h
        · exact Or.inr (Or.inl h.symm)
        · exact Or.inr (Or.inr h)
      · rintro (h | h | h)
        · exact Or.inl (Or.inl h)
        · exact Or.inl (Or.inr h.symm)
        · exact Or.inr h

section GroupFilter

variable {TI : Type} (L : Lib TI)

theorem priorityLess_eq (a b : Issue) :
    priorityLess a b = decide (effectivePriority a < effectivePriority b) := rfl

theorem priorityLess_strictWeakOrder : StrictWeakOrder priorityLess := by
  refine ⟨?_, ?_, ?_⟩
  · intro a
    simp [priorityLess_eq]
  · intro a b c h1 h2
    simp only [priorityLess_eq, decide_eq_true_eq] at *
    omega
  · intro a b c h1 h2
    simp only [priorityLess_eq, decide_eq_false_iff_not] at *
    omega

@[simp] theorem applyFilter_heap (m : ListModel TI) : (applyFilter L m).heap = m.heap := by
  unfold applyFilter; dsimp only; split_ifs <;> rfl

@[simp] theorem applyFilter_issues (m : ListModel TI) :
    (applyFilter L m).issues = m.issues := by
  unfold applyFilter; dsimp only; split_ifs <;> rfl

@[simp] theorem applyFilter_myIssues (m : ListModel TI) :
    (applyFilter L m).myIssues = m.myIssues := by
  unfold applyFilter; dsimp only; split_ifs <;> rfl

@[simp] theorem applyFilter_allIssues (m : ListModel TI) :
    (applyFilter L m).allIssues = m.allIssues := by
  unfold applyFilter; dsimp only; split_ifs <;> rfl

@[simp] theorem applyFilter_issuesByState (m : ListModel TI) :
    (applyFilter L m).issuesByState = m.issuesByState := by
  unfold applyFilter; dsimp only; split_ifs <;> rfl

@[simp] theorem applyFilter_states (m : ListModel TI) :
    (applyFilter L m).states = m.states := by
  unfold applyFilter; dsimp only; split_ifs <;> rfl

@[simp] theorem applyFilter_activeState (m : ListModel TI) :
    (applyFilter L m).activeState = m.activeState := by
  unfold applyFilter; dsimp only; split_ifs <;> rfl

@[simp] theorem applyFilter_filterInput (m : ListModel TI) :
    (applyFilter L m).filterInput = m.filterInput := by
  unfold applyFilter; dsimp only; split_ifs <;> rfl

@[simp] theorem applyFilter_editMode (m : ListModel TI) :
    (applyFilter L m).editMode = m.editMode := by
  unfold applyFilter; dsimp only; split_ifs <;> rfl

@[simp] theorem applyFilter_editIssue (m : ListModel TI) :
    (applyFilter L m).editIssue = m.editIssue := by
  unfold applyFilter; dsimp only; split_ifs <;> rfl

@[simp] theorem applyFilter_err (m : ListModel TI) : (applyFilter L m).err = m.err := by
  unfold applyFilter; dsimp only; split_ifs <;> rfl

@[simp] theorem applyFilter_showAllIssues (m : ListModel TI) :
    (applyFilter L m).showAllIssues = m.showAllIssues := by
  unfold applyFilter; dsimp only; split_ifs <;> rfl

@[simp] theorem applyFilter_currentBranch (m : ListModel TI) :
    (applyFilter L m).currentBranch = m.currentBranch := by
  unfold applyFilter; dsimp only; split_ifs <;> rfl

@[simp] theorem groupIssuesByState_heap (m : ListModel TI) :
    (groupIssuesByState L m).heap = m.heap := rfl

@[simp] theorem groupIssuesByState_issues (m : ListModel TI) :
    (groupIssuesByState L m).issues = m.issues := rfl

@[simp] theorem groupIssuesByState_myIssues (m : ListModel TI) :
    (groupIssuesByState L m).myIssues = m.myIssues := rfl

@[simp] theorem groupIssuesByState_allIssues (m : ListModel TI) :
    (groupIssuesByState L m).allIssues = m.allIssues := rfl

/-- Each bucket after regrouping is the sorted list of the issues of its state. -/
theorem groupIssuesByState_get (m : ListModel TI) (k : String) :
    (groupIssuesByState L m).issuesByState.get k
      = if (∃ x ∈ m.heap.read m.issues, x.State.ID = k)
        then L.sortSlice priorityLess ((m.heap.read m.issues).filter (fun x => x.State.ID = k))
        else [] := by
  unfold groupIssuesByState
  simp only [Buckets.get_map, group_get, group_mem_keys]
  simp [Buckets.get, Buckets.keys]

theorem partition_group (m : ListModel TI) :
    Partition (groupIssuesByState L m).issuesByState (m.heap.read m.issues) := by
  have hkeys : (groupIssuesByState L m).issuesByState.keys
      = ((m.heap.read m.issues).foldl
          (fun (b : Buckets) issue => b.append issue.State.ID issue) []).keys := by
    unfold groupIssuesByState
    simp only [Buckets.keys_map]
  have hnd : (groupIssuesByState L m).issuesByState.keys.Nodup := by
    rw [hkeys]
    exact group_keys_nodup _ _ (by simp [Buckets.keys])
  have hget : ∀ k, ((groupIssuesByState L m).issuesByState.get k).Perm
      ((m.heap.read m.issues).filter (fun x => x.State.ID = k)) := by
    intro k
    rw [groupIssuesByState_get]
    split_ifs with h
    · exact L.sortSlice_perm _ _
    · have : (m.heap.read m.issues).filter (fun x => x.State.ID = k) = [] := by
        rw [List.filter_eq_nil_iff]
        intro x hx hxk
        exact h ⟨x, hx, by simpa using hxk⟩
      rw [this]
  refine ⟨hnd, ?_, ?_, hget⟩
  · intro x hx
    rw [hkeys, group_mem_keys]
    exact Or.inr ⟨x, hx, rfl⟩
  · intro kv hkv
    have hg := Buckets.get_of_mem _ kv hnd hkv
    have hp := hget kv.1
    rw [hg] at hp
    have hk : kv.1 ∈ (groupIssuesByState L m).issuesByState.keys :=
      List.mem_map_of_mem _ hkv
    rw [hkeys, group_mem_keys] at hk
    rcases hk with hk | ⟨x, hx, hxk⟩
    · simp [Buckets.keys] at hk
    · constructor
      · intro he
        rw [he] at hp
        have : x ∈ (m.heap.read m.issues).filter (fun x => x.State.ID = kv.1) := by
          simp [List.mem_filter, hx, hxk]
        rw [← hp.nil_eq] at this
        cases this
      · intro y hy
        have := List.mem_filter.1 (hp.subset hy)
        simpa using this.2

theorem partitioned_applyFilter_group (m : ListModel TI) :
    Partitioned (applyFilter L (groupIssuesByState L m)) := by
  unfold Partitioned
  simp only [applyFilter_heap, applyFilter_issues, applyFilter_issuesByState,
    groupIssuesByState_heap, groupIssuesByState_issues]
  exact partition_group L m

end GroupFilter

/-! ## Heap lemmas -/

theorem Heap.array_eq (h : Heap) (a : Nat) : h.array a = (h[a]?).getD [] := by
  simp [Heap.array, List.getD_eq_getElem?_getD]

theorem Heap.array_append_of_lt (h : Heap) (xs : List Issue) (a : Nat) (ha : a < h.length) :
    Heap.array (h ++ [xs]) a = h.array a := by
  simp [Heap.array_eq, List.getElem?_append_left ha]

theorem Heap.array_append_length (h : Heap) (xs : List Issue) :
    Heap.array (h ++ [xs]) h.length = xs := by
  simp [Heap.array_eq]

theorem Heap.array_set_ne (h : Heap) (a b : Nat) (xs : List Issue) (hab : a ≠ b) :
    Heap.array (h.set a xs) b = h.array b := by
  simp [Heap.array_eq, List.getElem?_set_ne hab]

theorem Heap.array_set_eq (h : Heap) (a : Nat) (xs : List Issue) (ha : a < h.length) :
    Heap.array (h.set a xs) a = xs := by
  simp [Heap.array_eq, List.getElem?_set_self, ha]

/-- A slice made by `alloc` shows exactly the allocated issues. -/
theorem Heap.read_alloc (h : Heap) (xs : List Issue) :
    (h.alloc xs).1.read (h.alloc xs).2 = xs := by
  simp [Heap.alloc, Heap.read, Heap.array_append_length]

/-- Allocation does not disturb the slices that refer to allocated arrays. -/
theorem Heap.read_alloc_of_lt (h : Heap) (xs : List Issue) (u : Slice) (hu : u.arr < h.length) :
    (h.alloc xs).1.read u = h.read u := by
  simp [Heap.alloc, Heap.read, Heap.array_append_of_lt _ _ _ hu]

/-- The call `append(s, t...)` leaves what a slice `u` shows untouched when `u` lives in another
array than `s`, or when `s` has no spare capacity. -/
theorem Heap.read_append (h : Heap) (s t u : Slice) (hu : u.arr < h.length)
    (hs : u.arr ≠ s.arr ∨ s.cap ≤ s.len) : (h.append s t).1.read u = h.read u := by
  unfold Heap.append
  dsimp only
  split_ifs with h1 h2
  · rfl
  · have hne : s.arr ≠ u.arr := by
      rcases hs with hs | hs
      · exact fun e => hs e.symm
      · omega
    simp [Heap.read, Heap.array_set_ne _ _ _ _ hne]
  · simp [Heap.read, Heap.array_append_of_lt _ _ _ hu]

section Grouping

variable {TI : Type} (L : Lib TI)

@[simp] theorem findCurrentIssue_issuesByState (m : ListModel TI) :
    (findCurrentIssue m).issuesByState = m.issuesByState := by
  unfold findCurrentIssue
  split_ifs
  · rfl
  · dsimp only
    split <;> rfl

@[simp] theorem findCurrentIssue_issues (m : ListModel TI) :
    (findCurrentIssue m).issues = m.issues := by
  unfold findCurrentIssue
  split_ifs
  · rfl
  · dsimp only
    split <;> rfl

theorem findCurrentIssue_heap (m : ListModel TI) :
    (findCurrentIssue m).heap = m.heap ∨
    (findCurrentIssue m).heap = (m.heap.append m.myIssues m.allIssues).1 := by
  unfold findCurrentIssue
  split_ifs
  · exact Or.inl rfl
  · dsimp only
    split <;> exact Or.inr rfl

theorem findCurrentIssue_read (m : ListModel TI) (u : Slice) (hu : u.arr < m.heap.length)
    (hs : u.arr ≠ m.myIssues.arr ∨ m.myIssues.cap ≤ m.myIssues.len) :
    (findCurrentIssue m).heap.read u = m.heap.read u := by
  rcases findCurrentIssue_heap m with h | h
  · rw [h]
  · rw [h]
    exact Heap.read_append _ _ _ _ hu hs

theorem partitioned_SetMyIssues (m : ListModel TI) (xs : List Issue)
    (h : m.showAllIssues = false) : Partitioned (SetMyIssues L m xs) := by
  unfold SetMyIssues
  simp only [h, Bool.not_false, if_true]
  unfold Partitioned
  rw [findCurrentIssue_issuesByState, findCurrentIssue_issues, findCurrentIssue_read]
  · exact partitioned_applyFilter_group L _
  · simp [Heap.alloc]
  · right
    simp only [applyFilter_myIssues, Heap.alloc]
    exact Nat.le_refl _

theorem partitioned_SetAllIssues (m : ListModel TI) (xs : List Issue)
    (h : m.showAllIssues = true) (ha : m.myIssues.Allocated m.heap) :
    Partitioned (SetAllIssues L m xs) := by
  unfold SetAllIssues
  simp only [h, if_true]
  unfold Partitioned
  rw [findCurrentIssue_issuesByState, findCurrentIssue_issues, findCurrentIssue_read]
  · exact partitioned_applyFilter_group L _
  · simp [Heap.alloc]
  · simp only [applyFilter_myIssues, applyFilter_issues, Heap.alloc]
    rcases ha with ha | ha
    · left
      show m.heap.length ≠ m.myIssues.arr
      omega
    · right
      show m.myIssues.cap ≤ m.myIssues.len
      omega

end Grouping

/-! ## Grouping: C5, C6, C7 -/

section GroupingClaims

variable {TI : Type} (L : Lib TI)

/-- C5: whenever the displayed issue set changes (regrouping itself, show-all toggle,
completed title, priority and state updates, removal, and the two loads), the recomputed
bucket map partitions the displayed set by state id: the keys are distinct, every issue's state
id is a key, every bucket is non-empty and holds only issues of its key, and the bucket of a
state id is a permutation of the issues of the set with that state id. -/
theorem bucket_map_partitions_displayed_set (m : ListModel TI) :
    Partitioned (groupIssuesByState L m) ∧
    (groupIssuesByState L m).heap.read (groupIssuesByState L m).issues = m.heap.read m.issues ∧
    Partitioned (ToggleShowAll L m) ∧
    (∀ issueID newTitle, Partitioned (updateIssueTitle L m issueID newTitle)) ∧
    (∀ issueID newPriority, Partitioned (updateIssuePriority L m issueID newPriority)) ∧
    (∀ issueID newStateID, Partitioned (updateIssueState L m issueID newStateID)) ∧
    (∀ issueID, Partitioned (removeIssue L m issueID)) ∧
    (∀ issues, m.showAllIssues = false → Partitioned (SetMyIssues L m issues)) ∧
    (∀ issues, m.showAllIssues = true → m.myIssues.Allocated m.heap →
      Partitioned (SetAllIssues L m issues)) := by
  refine ⟨partition_group L m, rfl, partitioned_applyFilter_group L _,
    fun _ _ => partitioned_applyFilter_group L _,
    fun _ _ => partitioned_applyFilter_group L _, ?_,
    fun _ => partitioned_applyFilter_group L _,
    fun xs h => partitioned_SetMyIssues L m xs h,
    fun xs h ha => partitioned_SetAllIssues L m xs h ha⟩
  intro issueID newStateID
  unfold updateIssueState
  split
  · exact partitioned_applyFilter_group L _
  · exact partitioned_applyFilter_group L _

theorem bucket_map_partitions_displayed_set_witness :
    (NewListModel refLib).showAllIssues = false ∧
    (ToggleShowAll refLib (NewListModel refLib)).showAllIssues = true ∧
    Partitioned (SetMyIssues refLib (NewListModel refLib) exIssues) ∧
    Partitioned (SetAllIssues refLib (ToggleShowAll refLib (NewListModel refLib)) exIssues) :=
  ⟨rfl, rfl,
    (bucket_map_partitions_displayed_set refLib (NewListModel refLib)).2.2.2.2.2.2.2.1
      exIssues rfl,
    (bucket_map_partitions_displayed_set refLib
      (ToggleShowAll refLib (NewListModel refLib))).2.2.2.2.2.2.2.2 exIssues rfl (Or.inr rfl)⟩

/-- C6: every bucket produced by `groupIssuesByState` is in non-decreasing order of effective
priority (99 for priority 0, the priority otherwise); in particular no issue without priority
stands before an issue whose priority is one of 1..4. -/
theorem buckets_sorted_by_effective_priority (m : ListModel TI) (k : String) :
    ((groupIssuesByState L m).issuesByState.get k).Pairwise
      (fun a b => effectivePriority a ≤ effectivePriority b) ∧
    ((groupIssuesByState L m).issuesByState.get k).Pairwise
      (fun a b => ¬ (a.Priority = 0 ∧ 1 ≤ b.Priority ∧ b.Priority ≤ 4)) := by
  have hs : ((groupIssuesByState L m).issuesByState.get k).Pairwise
      (fun a b => effectivePriority a ≤ effectivePriority b) := by
    rw [groupIssuesByState_get]
    split_ifs
    · refine (L.sortSlice_sorted priorityLess _ priorityLess_strictWeakOrder).imp ?_
      intro a b hab
      simpa [priorityLess_eq] using hab
    · exact List.Pairwise.nil
  refine ⟨hs, hs.imp ?_⟩
  intro a b hab ⟨ha, hb1, hb4⟩
  unfold effectivePriority at hab
  rw [if_pos ha] at hab
  split_ifs at hab <;> omega

end GroupingClaims

/-! ## Stability: C7 -/

section Stability

variable {TI : Type} (L : Lib TI)

theorem equal_priority_pairwise (l : List Issue) (p : Int) :
    (l.filter (fun x => effectivePriority x = p)).Pairwise
      (fun a b => priorityLess b a = false) := by
  rw [List.pairwise_iff_forall_sublist]
  intro a b hab
  have ha : a ∈ l.filter (fun x => effectivePriority x = p) := hab.subset (by simp)
  have hb : b ∈ l.filter (fun x => effectivePriority x = p) := hab.subset (by simp)
  simp only [List.mem_filter, decide_eq_true_eq] at ha hb
  simp [priorityLess_eq, ha.2, hb.2]

/-- Insertion sort keeps issues of equal effective priority in their order. -/
theorem stableSort_refLib : StableSort refLib := by
  intro l p
  have hsub : List.Sublist (l.filter (fun x => effectivePriority x = p))
      (l.insertionSort (fun a b => priorityLess b a = false)) :=
    List.sublist_insertionSort (equal_priority_pairwise l p) (List.filter_sublist _)
  have hsub2 := hsub.filter (fun x => effectivePriority x = p)
  rw [List.filter_filter] at hsub2
  simp only [Bool.and_self] at hsub2
  have hperm : ((refLib.sortSlice priorityLess l).filter
      (fun x => effectivePriority x = p)).Perm (l.filter (fun x => effectivePriority x = p)) :=
    (refLib.sortSlice_perm priorityLess l).filter _
  exact (hsub2.eq_of_length hperm.length_eq.symm).symm

theorem stableBuckets_of_stableSort (m : ListModel TI) (h : StableSort L) :
    StableBuckets L m := by
  intro k p
  rw [groupIssuesByState_get]
  split_ifs with hk
  · exact h _ p
  · have : (m.heap.read m.issues).filter (fun x => x.State.ID = k) = [] := by
      rw [List.filter_eq_nil_iff]
      intro x hx hxk
      exact hk ⟨x, hx, by simpa using hxk⟩
    rw [this]

/-- C7, as amended: within a bucket the issues of one effective priority are exactly the
issues of the displayed set with that state id and that effective priority, each as often as
in the set; they stand in the order of the set whenever the library sort keeps equal elements
in order, which `sort.Slice` does not promise. -/
theorem bucket_equal_priority_issues (m : ListModel TI) (k : String) (p : Int) :
    (((groupIssuesByState L m).issuesByState.get k).filter
        (fun x => effectivePriority x = p)).Perm
      (((m.heap.read m.issues).filter (fun x => x.State.ID = k)).filter
        (fun x => effectivePriority x = p)) ∧
    (StableSort L → StableBuckets L m) :=
  ⟨((partition_group L m).2.2.2 k).filter _, stableBuckets_of_stableSort L m⟩

theorem bucket_equal_priority_issues_witness :
    StableSort refLib ∧
    StableBuckets refLib (SetMyIssues refLib (NewListModel refLib) exThirteen) :=
  ⟨stableSort_refLib,
    (bucket_equal_priority_issues refLib
      (SetMyIssues refLib (NewListModel refLib) exThirteen) "s1" 1).2 stableSort_refLib⟩

/-- C7 fails: thirteen issues of one state, the first of priority 2 and the others of
priority 1, sorted by a library sort that moves its pivot (the seventh issue) to the front
before it sorts; the seventh issue ends up before the second, which has the same priority. -/
theorem bucket_sort_not_stable :
    ¬ StableBuckets pivotLib (SetMyIssues pivotLib (NewListModel pivotLib) exThirteen) := by
  intro h
  have h1 := congrArg (List.map (fun x => x.ID)) (h "s1" 1)
  revert h1
  decide

end Stability

/-! ## Filtering: C8 -/

section Filtering

variable {TI : Type} (L : Lib TI)

theorem filterLoop_eq (p : Issue → Bool) (l init : List Issue) :
    l.foldl (fun acc issue => if p issue then acc ++ [issue] else acc) init
      = init ++ l.filter p := by
  induction l generalizing init with
  | nil => simp
  | cons x xs ih =>
    rw [List.foldl_cons, ih]
    by_cases h : p x
    · simp [h, List.filter_cons]
    · simp [h, List.filter_cons]

theorem matchesFilter_empty (issue : Issue) : matchesFilter L "" issue = true := by
  simp [matchesFilter, stringsContains]

theorem toLower_empty : L.toLower "" = "" := rfl

/-- The filtered list that `applyFilter` computes from the bucket and the filter text. -/
theorem applyFilter_filtered_eq (m : ListModel TI) :
    (applyFilter L m).filtered
      = (currentStateIssues m).filter
          (matchesFilter L (L.toLower (L.tiValue m.filterInput))) := by
  unfold applyFilter
  dsimp only
  split_ifs with h1 h2
  · rw [h1]
    symm
    rw [List.filter_eq_self]
    intro a _
    exact matchesFilter_empty L a
  · simp [filterLoop_eq]
  · simp [filterLoop_eq]

theorem currentStateIssues_eq (m : ListModel TI) :
    currentStateIssues m
      = match m.states[m.activeState]? with
        | some st => m.issuesByState.get st.ID
        | none => [] := by
  unfold currentStateIssues
  split_ifs with h
  · have : m.states[m.activeState]? = none := by
      rw [List.getElem?_eq_none_iff]
      omega
    rw [this]
  · rfl

/-- C8: after `applyFilter` the filtered list is the active tab's bucket restricted, in bucket
order, to the issues whose lower-cased title, identifier or description contains the
lower-cased filter text; it is a subsequence of the bucket, it is the whole bucket when the
filter text is empty, and the active tab's bucket is the bucket of the state at the tab
index (empty when there is no such state). -/
theorem applyFilter_filtered (m : ListModel TI) :
    (applyFilter L m).filtered
      = (currentStateIssues m).filter (fun issue =>
          stringsContains (L.toLower issue.Title) (L.toLower (L.tiValue m.filterInput)) ||
          stringsContains (L.toLower issue.Identifier) (L.toLower (L.tiValue m.filterInput)) ||
          stringsContains (L.toLower issue.Description) (L.toLower (L.tiValue m.filterInput))) ∧
    List.Sublist (applyFilter L m).filtered (currentStateIssues m) ∧
    (L.tiValue m.filterInput = "" → (applyFilter L m).filtered = currentStateIssues m) ∧
    currentStateIssues m
      = (match m.states[m.activeState]? with
        | some st => m.issuesByState.get st.ID
        | none => []) := by
  refine ⟨applyFilter_filtered_eq L m, ?_, ?_, currentStateIssues_eq m⟩
  · rw [applyFilter_filtered_eq]
    exact List.filter_sublist _
  · intro h
    rw [applyFilter_filtered_eq, h, toLower_empty, List.filter_eq_self]
    intro a _
    exact matchesFilter_empty L a

theorem applyFilter_filtered_witness :
    refLib.tiValue (SetMyIssues refLib (SetStates refLib (NewListModel refLib)
        [exTodo, exDone]) exIssues).filterInput = "" ∧
    (applyFilter refLib (SetMyIssues refLib (SetStates refLib (NewListModel refLib)
        [exTodo, exDone]) exIssues)).filtered
      = currentStateIssues (SetMyIssues refLib (SetStates refLib (NewListModel refLib)
        [exTodo, exDone]) exIssues) :=
  ⟨rfl, (applyFilter_filtered refLib _).2.2.1 rfl⟩

end Filtering

/-! ## The two-phase update protocol: C1, C2 -/

section TwoPhase

variable {TI SV : Type} (L : Lib TI) (V : Views SV) (E : Env)

theorem ListModel.Update_title (m : ListModel TI) (issueID newTitle : String)
    (err : Option String) (c : Bool) :
    m.Update L (Msg.issueTitleUpdated issueID newTitle err c)
      = some ({ (match err with
                  | some e => { m with err := some e }
                  | none => updateIssueTitle L m issueID newTitle) with
                editMode := EditModeNone, editIssue := none }, none) := rfl

theorem ListModel.Update_priority (m : ListModel TI) (issueID : String) (newPriority : Int)
    (err : Option String) (c : Bool) :
    m.Update L (Msg.issuePriorityUpdated issueID newPriority err c)
      = some ({ (match err with
                  | some e => { m with err := some e }
                  | none => updateIssuePriority L m issueID newPriority) with
                editMode := EditModeNone, editIssue := none }, none) := rfl

theorem ListModel.Update_state (m : ListModel TI) (issueID newStateID : String)
    (err : Option String) (c : Bool) :
    m.Update L (Msg.issueStateUpdated issueID newStateID err c)
      = some ({ (match err with
                  | some e => { m with err := some e }
                  | none => updateIssueState L m issueID newStateID) with
                editMode := EditModeNone, editIssue := none }, none) := rfl

/-- C1: for a title, priority or state update event with `Completed=false` the controller
returns exactly one effect, the tracker update for the same issue id and the same requested
value, and leaves its whole state, the list view included, unchanged; for the same event with
`Completed=true` it returns no effect and its new list view is what the list view's own
`Update` makes of the event, everything else unchanged. -/
theorem update_event_two_phases (m : RootModel TI SV) :
    (∀ issueID newTitle err,
      m.Update L V E (Msg.issueTitleUpdated issueID newTitle err false)
        = some (m, some (Cmd.updateIssueTitle issueID newTitle))) ∧
    (∀ issueID newPriority err,
      m.Update L V E (Msg.issuePriorityUpdated issueID newPriority err false)
        = some (m, some (Cmd.updateIssuePriority issueID newPriority))) ∧
    (∀ issueID newStateID err,
      m.Update L V E (Msg.issueStateUpdated issueID newStateID err false)
        = some (m, some (Cmd.updateIssueStateByID issueID newStateID))) ∧
    (∀ issueID newTitle err, ∃ list cmd,
      m.list.Update L (Msg.issueTitleUpdated issueID newTitle err true) = some (list, cmd) ∧
      m.Update L V E (Msg.issueTitleUpdated issueID newTitle err true)
        = some ({ m with list := list }, none)) ∧
    (∀ issueID newPriority err, ∃ list cmd,
      m.list.Update L (Msg.issuePriorityUpdated issueID newPriority err true)
        = some (list, cmd) ∧
      m.Update L V E (Msg.issuePriorityUpdated issueID newPriority err true)
        = some ({ m with list := list }, none)) ∧
    (∀ issueID newStateID err, ∃ list cmd,
      m.list.Update L (Msg.issueStateUpdated issueID newStateID err true) = some (list, cmd) ∧
      m.Update L V E (Msg.issueStateUpdated issueID newStateID err true)
        = some ({ m with list := list }, none)) := by
  refine ⟨fun _ _ _ => rfl, fun _ _ _ => rfl, fun _ _ _ => rfl, ?_, ?_, ?_⟩
  · intro issueID newTitle err
    refine ⟨_, _, ListModel.Update_title L m.list issueID newTitle err true, ?_⟩
    simp only [RootModel.Update, updateList, ListModel.Update_title]
    rfl
  · intro issueID newPriority err
    refine ⟨_, _, ListModel.Update_priority L m.list issueID newPriority err true, ?_⟩
    simp only [RootModel.Update, updateList, ListModel.Update_priority]
    rfl
  · intro issueID newStateID err
    refine ⟨_, _, ListModel.Update_state L m.list issueID newStateID err true, ?_⟩
    simp only [RootModel.Update, updateList, ListModel.Update_state]
    rfl

/-- C2: a completed title, priority or state update event delivered to the list view always
leaves the edit sub-mode `None` and the edit target cleared, whether it carries an error or
not; when it carries an error, the result is the old state with just the error recorded and
the edit sub-mode cleared, so the displayed set, "my issues" and "all issues" are unchanged. -/
theorem completed_update_clears_edit_mode (m : ListModel TI) :
    (∀ issueID newTitle err, ∃ m',
      m.Update L (Msg.issueTitleUpdated issueID newTitle err true) = some (m', none) ∧
      m'.editMode = EditModeNone ∧ m'.editIssue = none) ∧
    (∀ issueID newPriority err, ∃ m',
      m.Update L (Msg.issuePriorityUpdated issueID newPriority err true) = some (m', none) ∧
      m'.editMode = EditModeNone ∧ m'.editIssue = none) ∧
    (∀ issueID newStateID err, ∃ m',
      m.Update L (Msg.issueStateUpdated issueID newStateID err true) = some (m', none) ∧
      m'.editMode = EditModeNone ∧ m'.editIssue = none) ∧
    (∀ issueID newTitle e, ∃ m',
      m.Update L (Msg.issueTitleUpdated issueID newTitle (some e) true) = some (m', none) ∧
      m' = { m with err := some e, editMode := EditModeNone, editIssue := none } ∧
      m'.err = some e ∧ m'.heap.read m'.issues = m.heap.read m.issues ∧
      m'.heap.read m'.myIssues = m.heap.read m.myIssues ∧
      m'.heap.read m'.allIssues = m.heap.read m.allIssues) ∧
    (∀ issueID newPriority e, ∃ m',
      m.Update L (Msg.issuePriorityUpdated issueID newPriority (some e) true)
        = some (m', none) ∧
      m' = { m with err := some e, editMode := EditModeNone, editIssue := none } ∧
      m'.err = some e ∧ m'.heap.read m'.issues = m.heap.read m.issues ∧
      m'.heap.read m'.myIssues = m.heap.read m.myIssues ∧
      m'.heap.read m'.allIssues = m.heap.read m.allIssues) ∧
    (∀ issueID newStateID e, ∃ m',
      m.Update L (Msg.issueStateUpdated issueID newStateID (some e) true) = some (m', none) ∧
      m' = { m with err := some e, editMode := EditModeNone, editIssue := none } ∧
      m'.err = some e ∧ m'.heap.read m'.issues = m.heap.read m.issues ∧
      m'.heap.read m'.myIssues = m.heap.read m.myIssues ∧
      m'.heap.read m'.allIssues = m.heap.read m.allIssues) :=
  ⟨fun _ _ _ => ⟨_, rfl, rfl, rfl⟩, fun _ _ _ => ⟨_, rfl, rfl, rfl⟩,
    fun _ _ _ => ⟨_, rfl, rfl, rfl⟩,
    fun _ _ _ => ⟨_, rfl, rfl, rfl, rfl, rfl, rfl⟩,
    fun _ _ _ => ⟨_, rfl, rfl, rfl, rfl, rfl, rfl⟩,
    fun _ _ _ => ⟨_, rfl, rfl, rfl, rfl, rfl, rfl⟩⟩

end TwoPhase

/-! ## In-place field updates: C3 -/

section FieldUpdates

theorem findID_lt (issueID : String) (l : List Issue) (i : Nat)
    (h : findID issueID l = some i) : i < l.length := by
  induction l generalizing i with
  | nil => simp [findID] at h
  | cons x xs ih =>
    unfold findID at h
    split_ifs at h with hx
    · simp only [Option.some.injEq] at h
      subst h
      simp
    · cases hf : findID issueID xs with
      | none => simp [hf] at h
      | some j =>
        simp only [hf, Option.map_some', Option.some.injEq] at h
        subst h
        have := ih j hf
        simp only [List.length_cons]
        omega

/-- Writing `f` of the cell the search finds is `setFirst` on the searched prefix. -/
theorem set_findID (issueID : String) (f : Issue → Issue) (a : List Issue) (n i : Nat)
    (x : Issue) (h : findID issueID (a.take n) = some i) (hx : a[i]? = some x) :
    a.set i (f x) = setFirst issueID f (a.take n) ++ a.drop n := by
  induction a generalizing n i with
  | nil => simp at hx
  | cons y ys ih =>
    cases n with
    | zero => simp [findID] at h
    | succ n =>
      simp only [List.take_succ_cons, findID] at h
      split_ifs at h with hy
      · simp only [Option.some.injEq] at h
        subst h
        simp only [List.getElem?_cons_zero, Option.some.injEq] at hx
        subst hx
        simp [setFirst, hy]
      · cases hf : findID issueID (ys.take n) with
        | none => simp [hf] at h
        | some j =>
          simp only [hf, Option.map_some', Option.some.injEq] at h
          subst h
          simp only [List.getElem?_cons_succ] at hx
          simp [setFirst, hy, ih n j hf hx]

theorem setFirst_of_findID_none (issueID : String) (f : Issue → Issue) (l : List Issue)
    (h : findID issueID l = none) : setFirst issueID f l = l := by
  induction l with
  | nil => rfl
  | cons y ys ih =>
    unfold findID at h
    split_ifs at h with hy
    cases hf : findID issueID ys with
    | none => simp [setFirst, hy, ih hf]
    | some j => simp [hf] at h

theorem setFirst_length (issueID : String) (f : Issue → Issue) (l : List Issue) :
    (setFirst issueID f l).length = l.length := by
  induction l with
  | nil => rfl
  | cons y ys ih =>
    unfold setFirst
    split_ifs <;> simp [ih]

/-- The backing arrays after the in-place update loop. -/
theorem Heap.updateFirst_array (h : Heap) (s : Slice) (issueID : String) (f : Issue → Issue)
    (a : Nat) :
    (h.updateFirst s issueID f).array a
      = if a = s.arr then setFirst issueID f (h.read s) ++ (h.array a).drop s.len
        else h.array a := by
  unfold Heap.updateFirst
  cases hf : findID issueID (h.read s) with
  | none =>
    simp only
    split_ifs with ha
    · subst ha
      rw [setFirst_of_findID_none _ _ _ hf, Heap.read, List.take_append_drop]
    · rfl
  | some i =>
    simp only
    have hi := findID_lt _ _ _ hf
    have hi' : i < (h.array s.arr).length := by
      simp only [Heap.read, List.length_take] at hi
      omega
    have hget : (h.array s.arr)[i]? = some ((h.array s.arr)[i]) := List.getElem?_eq_getElem hi'
    rw [hget]
    simp only
    have hlen : s.arr < h.length := by
      by_contra hc
      have : h.array s.arr = [] := by
        simp [Heap.array_eq, List.getElem?_eq_none (Nat.le_of_not_lt hc)]
      rw [this] at hi'
      simp at hi'
    split_ifs with ha
    · subst ha
      rw [Heap.array_set_eq _ _ _ hlen]
      exact set_findID issueID f _ s.len i _ hf hget
    · exact Heap.array_set_ne _ _ _ _ (fun e => ha e.symm)

/-- The updated slice itself shows `setFirst` of what it showed. -/
theorem Heap.updateFirst_read_self (h : Heap) (s : Slice) (issueID : String)
    (f : Issue → Issue) :
    (h.updateFirst s issueID f).read s = setFirst issueID f (h.read s) := by
  rw [Heap.read, Heap.updateFirst_array, if_pos rfl]
  have hl := setFirst_length issueID f (h.read s)
  rw [List.take_append_eq_append_take, hl]
  have h1 : (h.read s).length ≤ s.len := by simp [Heap.read]
  rw [List.take_of_length_le (by omega)]
  by_cases h2 : s.len ≤ (h.array s.arr).length
  · have : (h.read s).length = s.len := by simp [Heap.read, h2]
    simp [this]
  · have : List.drop s.len (h.array s.arr) = [] := by
      rw [List.drop_eq_nil_iff]
      omega
    simp [this]

end FieldUpdates

section FieldUpdateLemmas

variable (issueID : String) (f : Issue → Issue)

theorem take_setFirst (l : List Issue) (n : Nat) :
    (setFirst issueID f l).take n = setFirst issueID f (l.take n) := by
  induction l generalizing n with
  | nil => simp [setFirst]
  | cons x xs ih =>
    cases n with
    | zero => simp [setFirst]
    | succ n =>
      unfold setFirst
      split_ifs with hx
      · simp [setFirst, hx]
      · simp [setFirst, hx, ih]

theorem setFirst_idem (hf : FieldUpdate f) (l : List Issue) :
    setFirst issueID f (setFirst issueID f l) = setFirst issueID f l := by
  induction l with
  | nil => rfl
  | cons x xs ih =>
    by_cases hx : x.ID = issueID
    · have hfx : (f x).ID = issueID := by rw [hf.1, hx]
      simp [setFirst, hx, hfx, hf.2]
    · simp [setFirst, hx, ih]

theorem setFirst_append (l1 l2 : List Issue) :
    setFirst issueID f (l1 ++ l2) = setFirst issueID f l1 ++ l2 ∨
    setFirst issueID f l1 = l1 := by
  induction l1 with
  | nil => right; rfl
  | cons x xs ih =>
    by_cases hx : x.ID = issueID
    · left
      simp [setFirst, hx]
    · rcases ih with ih | ih
      · left
        simp [setFirst, hx, ih]
      · right
        simp [setFirst, hx, ih]

/-- An in-place update through a slice leaves every backing array as it was, or with `f`
applied to its first issue of the given id. -/
theorem Heap.updateFirst_array_cases (h : Heap) (s : Slice) (a : Nat) :
    (h.updateFirst s issueID f).array a = h.array a ∨
    (h.updateFirst s issueID f).array a = setFirst issueID f (h.array a) := by
  rw [Heap.updateFirst_array]
  split_ifs with ha
  · subst ha
    have h0 : h.array s.arr = (h.array s.arr).take s.len ++ (h.array s.arr).drop s.len :=
      (List.take_append_drop _ _).symm
    rcases setFirst_append issueID f ((h.array s.arr).take s.len)
        ((h.array s.arr).drop s.len) with h1 | h1
    · right
      rw [← h0] at h1
      rw [h1, Heap.read]
    · left
      rw [Heap.read, h1, ← h0]
  · left
    rfl

/-- Every slice shows, after an in-place update through any slice, what it showed or that
with `f` applied to its first issue of the given id. -/
theorem Heap.updateFirst_read_cases (h : Heap) (s u : Slice) :
    (h.updateFirst s issueID f).read u = h.read u ∨
    (h.updateFirst s issueID f).read u = setFirst issueID f (h.read u) := by
  unfold Heap.read
  rcases Heap.updateFirst_array_cases issueID f h s u.arr with h1 | h1
  · left
    rw [h1]
  · right
    rw [h1, take_setFirst]

/-- The three update loops, run one after the other over slices that may share arrays, leave
in every one of the three slices `f` applied to its first issue of the given id. -/
theorem three_updates_setFirst (hf : FieldUpdate f) (h : Heap) (a b c : Slice) :
    (((h.updateFirst a issueID f).updateFirst b issueID f).updateFirst c issueID f).read a
        = setFirst issueID f (h.read a) ∧
    (((h.updateFirst a issueID f).updateFirst b issueID f).updateFirst c issueID f).read b
        = setFirst issueID f (h.read b) ∧
    (((h.updateFirst a issueID f).updateFirst b issueID f).updateFirst c issueID f).read c
        = setFirst issueID f (h.read c) := by
  have keep : ∀ (h' : Heap) (s u : Slice) (l0 : List Issue),
      h'.read u = setFirst issueID f l0 →
      (h'.updateFirst s issueID f).read u = setFirst issueID f l0 := by
    intro h' s u l0 hd
    rcases Heap.updateFirst_read_cases issueID f h' s u with h1 | h1
    · rw [h1, hd]
    · rw [h1, hd, setFirst_idem issueID f hf]
  have own : ∀ (h' : Heap) (u : Slice) (l0 : List Issue),
      (h'.read u = l0 ∨ h'.read u = setFirst issueID f l0) →
      (h'.updateFirst u issueID f).read u = setFirst issueID f l0 := by
    intro h' u l0 hd
    rw [Heap.updateFirst_read_self]
    rcases hd with hd | hd
    · rw [hd]
    · rw [hd, setFirst_idem issueID f hf]
  refine ⟨?_, ?_, ?_⟩
  · exact keep _ c a _ (keep _ b a _ (own h a _ (Or.inl rfl)))
  · exact keep _ c b _ (own _ b _ (Heap.updateFirst_read_cases issueID f h a b))
  · apply own
    rcases Heap.updateFirst_read_cases issueID f h a c with h1 | h1
    · rcases Heap.updateFirst_read_cases issueID f (h.updateFirst a issueID f) b c
        with h2 | h2
      · left
        rw [h2, h1]
      · right
        rw [h2, h1]
    · right
      exact keep _ b c _ h1

theorem setByID_of_no_id {l : List Issue} (hn : ∀ x ∈ l, x.ID ≠ issueID) :
    setByID issueID f l = l := by
  unfold setByID
  conv_rhs => rw [← List.map_id l]
  apply List.map_congr_left
  intro x hx
  simp [hn x hx]

/-- In a collection with distinct ids the first issue of an id is the only one. -/
theorem setFirst_eq_setByID (l : List Issue) (hu : UniqueIDs l) :
    setFirst issueID f l = setByID issueID f l := by
  induction l with
  | nil => rfl
  | cons x xs ih =>
    unfold UniqueIDs at hu
    simp only [List.map_cons, List.nodup_cons, List.mem_map, not_exists, not_and] at hu
    by_cases hx : x.ID = issueID
    · have hn : ∀ z ∈ xs, z.ID ≠ issueID := fun z hz e => hu.1 z hz (e.trans hx.symm)
      simp only [setFirst, hx, if_true, setByID, List.map_cons]
      congr 1
      exact (setByID_of_no_id issueID f hn).symm
    · simp only [setFirst, hx, if_false, setByID, List.map_cons]
      congr 1
      exact ih hu.2

end FieldUpdateLemmas

section FieldUpdateClaims

variable {TI : Type} (L : Lib TI)

/-- C3: a successful completed title update (priority update; state update to an id whose
first state in the states list is `st`) for issue id `issueID` puts the new title (priority,
state `st`) on the first issue of that id in the displayed set, in "my issues" and in "all
issues", and leaves every other issue and every other field of that issue unchanged, whatever
the cursor and the active tab; in a collection with distinct ids that is the one issue of that
id. -/
theorem completed_update_reaches_all_collections (m : ListModel TI) (issueID : String) :
    (∀ newTitle, ∃ m',
      m.Update L (Msg.issueTitleUpdated issueID newTitle none true) = some (m', none) ∧
      UpdatedEverywhere m m' issueID (fun x => { x with Title := newTitle })) ∧
    (∀ newPriority, ∃ m',
      m.Update L (Msg.issuePriorityUpdated issueID newPriority none true) = some (m', none) ∧
      UpdatedEverywhere m m' issueID (fun x => { x with Priority := newPriority })) ∧
    (∀ newStateID st, m.states.find? (fun state => state.ID = newStateID) = some st →
      ∃ m', m.Update L (Msg.issueStateUpdated issueID newStateID none true) = some (m', none) ∧
      UpdatedEverywhere m m' issueID (fun x => { x with State := st })) := by
  have key : ∀ (f : Issue → Issue), FieldUpdate f →
      UpdatedByID issueID f (m.heap.read m.issues)
        ((((m.heap.updateFirst m.issues issueID f).updateFirst m.myIssues issueID f).updateFirst
          m.allIssues issueID f).read m.issues) ∧
      UpdatedByID issueID f (m.heap.read m.myIssues)
        ((((m.heap.updateFirst m.issues issueID f).updateFirst m.myIssues issueID f).updateFirst
          m.allIssues issueID f).read m.myIssues) ∧
      UpdatedByID issueID f (m.heap.read m.allIssues)
        ((((m.heap.updateFirst m.issues issueID f).updateFirst m.myIssues issueID f).updateFirst
          m.allIssues issueID f).read m.allIssues) := by
    intro f hf
    obtain ⟨h1, h2, h3⟩ :=
      three_updates_setFirst issueID f hf m.heap m.issues m.myIssues m.allIssues
    exact ⟨⟨h1, fun hu => h1.trans (setFirst_eq_setByID issueID f _ hu)⟩,
      ⟨h2, fun hu => h2.trans (setFirst_eq_setByID issueID f _ hu)⟩,
      ⟨h3, fun hu => h3.trans (setFirst_eq_setByID issueID f _ hu)⟩⟩
  refine ⟨fun newTitle => ⟨_, rfl, ?_⟩, fun newPriority => ⟨_, rfl, ?_⟩,
    fun newStateID st hst => ⟨_, rfl, ?_⟩⟩
  · have h := key (fun x => { x with Title := newTitle }) ⟨fun _ => rfl, fun _ => rfl⟩
    simp only [UpdatedEverywhere, updateIssueTitle, applyFilter_heap, applyFilter_issues,
      applyFilter_myIssues, applyFilter_allIssues, groupIssuesByState_heap,
      groupIssuesByState_issues, groupIssuesByState_myIssues, groupIssuesByState_allIssues]
    exact h
  · have h := key (fun x => { x with Priority := newPriority }) ⟨fun _ => rfl, fun _ => rfl⟩
    simp only [UpdatedEverywhere, updateIssuePriority, applyFilter_heap, applyFilter_issues,
      applyFilter_myIssues, applyFilter_allIssues, groupIssuesByState_heap,
      groupIssuesByState_issues, groupIssuesByState_myIssues, groupIssuesByState_allIssues]
    exact h
  · have h := key (fun x => { x with State := st }) ⟨fun _ => rfl, fun _ => rfl⟩
    simp only [UpdatedEverywhere, updateIssueState, hst, applyFilter_heap, applyFilter_issues,
      applyFilter_myIssues, applyFilter_allIssues, groupIssuesByState_heap,
      groupIssuesByState_issues, groupIssuesByState_myIssues, groupIssuesByState_allIssues]
    exact h

theorem completed_update_reaches_all_collections_witness :
    exLoaded.states.find? (fun state => state.ID = "s2") = some exDone ∧
    UniqueIDs (exLoaded.heap.read exLoaded.issues) ∧
    ∃ m', exLoaded.Update refLib (Msg.issueStateUpdated "b" "s2" none true) = some (m', none) ∧
      m'.heap.read m'.issues
        = setByID "b" (fun x => { x with State := exDone }) (exLoaded.heap.read exLoaded.issues) := by
  refine ⟨rfl, by unfold UniqueIDs; decide, ?_⟩
  obtain ⟨m', h1, h2⟩ :=
    (completed_update_reaches_all_collections refLib exLoaded "b").2.2 "s2" exDone rfl
  exact ⟨m', h1, h2.1.2 (by unfold UniqueIDs; decide)⟩

end FieldUpdateClaims

/-! ## The cursor invariant: C9 -/

section Cursor

variable {TI : Type} (L : Lib TI)

theorem cursorOk_iff (m : ListModel TI) :
    CursorOk m ↔ (m.cursor < m.filtered.length ∨ (m.cursor = 0 ∧ m.filtered.length = 0)) := by
  unfold CursorOk
  constructor
  · rintro ⟨h1, h2⟩
    by_cases h : m.filtered = []
    · right
      exact ⟨h2 h, by simp [h]⟩
    · left
      exact h1 h
  · rintro (h | ⟨h1, h2⟩)
    · refine ⟨fun _ => h, fun he => ?_⟩
      rw [he] at h
      simp at h
    · refine ⟨fun hne => ?_, fun _ => h1⟩
      exact absurd (List.length_eq_zero.1 h2) hne

theorem currentStateIssues_congr (m m' : ListModel TI) (h1 : m'.states = m.states)
    (h2 : m'.activeState = m.activeState) (h3 : m'.issuesByState = m.issuesByState) :
    currentStateIssues m' = currentStateIssues m := by
  unfold currentStateIssues
  rw [h1, h2, h3]

/-- A step that keeps the filtered list, the cursor and everything the filtered list is derived
from keeps the invariant. -/
theorem inv_of_frame (m m' : ListModel TI) (hc : Coherent L m)
    (h1 : m'.states = m.states) (h2 : m'.activeState = m.activeState)
    (h3 : m'.issuesByState = m.issuesByState)
    (h4 : L.tiValue m'.filterInput = L.tiValue m.filterInput)
    (h5 : m'.filtered = m.filtered) (h6 : m'.cursor = m.cursor) :
    Coherent L m' ∧ (CursorOk m → CursorOk m') := by
  constructor
  · unfold Coherent at *
    rw [h5, h4, currentStateIssues_congr m m' h1 h2 h3]
    exact hc
  · intro hk
    unfold CursorOk at *
    rw [h5, h6]
    exact hk

theorem coherent_applyFilter (m : ListModel TI) : Coherent L (applyFilter L m) := by
  unfold Coherent
  rw [applyFilter_filtered_eq, applyFilter_filterInput,
    currentStateIssues_congr m (applyFilter L m) (applyFilter_states L m)
      (applyFilter_activeState L m) (applyFilter_issuesByState L m)]

theorem applyFilter_cursor (m : ListModel TI) :
    (applyFilter L m).cursor
      = if L.toLower (L.tiValue m.filterInput) = "" then m.cursor
        else if m.cursor ≥ (applyFilter L m).filtered.length
          then max 0 ((applyFilter L m).filtered.length - 1)
        else m.cursor := by
  unfold applyFilter
  dsimp only
  split_ifs <;> rfl

/-- With the cursor at `0`, `applyFilter` always leaves it valid. -/
theorem cursorOk_applyFilter_zero (m : ListModel TI) (h : m.cursor = 0) :
    CursorOk (applyFilter L m) := by
  rw [cursorOk_iff, applyFilter_cursor]
  split_ifs <;> omega

/-- When the old filtered list is no longer than the bucket, `applyFilter` keeps a valid cursor
valid. -/
theorem cursorOk_applyFilter (m : ListModel TI) (hk : CursorOk m)
    (hlen : m.filtered.length ≤ (currentStateIssues m).length) :
    CursorOk (applyFilter L m) := by
  rw [cursorOk_iff] at hk ⊢
  rw [applyFilter_cursor]
  split_ifs with h1 h2
  · have : (applyFilter L m).filtered = currentStateIssues m := by
      rw [applyFilter_filtered_eq, h1, List.filter_eq_self]
      intro a _
      exact matchesFilter_empty L a
    rw [this]
    omega
  · omega
  · omega

theorem coherent_length_le (m : ListModel TI) (hc : Coherent L m) :
    m.filtered.length ≤ (currentStateIssues m).length := by
  rw [hc]
  exact List.length_filter_le _ _

end Cursor

section CursorSteps

variable {TI : Type} (L : Lib TI)

theorem inv_of_sameView (m m' : ListModel TI) (hc : Coherent L m)
    (h : SameView m m') : Coherent L m' ∧ (CursorOk m → CursorOk m') :=
  inv_of_frame L m m' hc h.1 h.2.1 h.2.2.1 (by rw [h.2.2.2.1]) h.2.2.2.2.1 h.2.2.2.2.2

theorem handleRenameInput_sameView (m : ListModel TI) (k : KeyMsg)
    (r : ListModel TI × Option Cmd) (h : handleRenameInput L m k = some r) :
    SameView m r.1 := by
  unfold handleRenameInput at h
  dsimp only at h
  repeat' split at h
  all_goals (cases h; exact ⟨rfl, rfl, rfl, rfl, rfl, rfl⟩)

theorem handlePriorityInput_sameView (m : ListModel TI) (k : KeyMsg)
    (r : ListModel TI × Option Cmd) (h : handlePriorityInput m k = some r) :
    SameView m r.1 := by
  unfold handlePriorityInput at h
  dsimp only at h
  repeat' split at h
  all_goals (cases h; exact ⟨rfl, rfl, rfl, rfl, rfl, rfl⟩)

theorem handleStatusInput_sameView (m : ListModel TI) (k : KeyMsg)
    (r : ListModel TI × Option Cmd) (h : handleStatusInput m k = some r) :
    SameView m r.1 := by
  unfold handleStatusInput at h
  dsimp only at h
  repeat' split at h
  all_goals first
    | (cases h; exact ⟨rfl, rfl, rfl, rfl, rfl, rfl⟩)
    | cases h

end CursorSteps

section CursorKeys

variable {TI : Type} (L : Lib TI)

theorem cursorOk_up (m : ListModel TI) (hk : CursorOk m) :
    CursorOk { m with cursor := m.cursor - 1 } := by
  rw [cursorOk_iff] at hk ⊢
  show m.cursor - 1 < m.filtered.length ∨ (m.cursor - 1 = 0 ∧ m.filtered.length = 0)
  omega

theorem cursorOk_down (m : ListModel TI) (h : m.cursor < m.filtered.length - 1) :
    CursorOk { m with cursor := m.cursor + 1 } := by
  rw [cursorOk_iff]
  show m.cursor + 1 < m.filtered.length ∨ (m.cursor + 1 = 0 ∧ m.filtered.length = 0)
  omega

/-- Outside the edit sub-modes and outside filter entry, a key that does not panic keeps the
filtered list derived and the cursor valid. -/
theorem handleListKey_inv (m : ListModel TI) (k : KeyMsg) (r : ListModel TI × Option Cmd)
    (hc : Coherent L m) (h : handleListKey L m k = some r) :
    Coherent L r.1 ∧ (CursorOk m → CursorOk r.1) := by
  unfold handleListKey at h
  by_cases h1 : k.str = "up" ∨ k.str = "k"
  · rw [if_pos h1] at h
    cases h
    dsimp only
    split_ifs
    · exact ⟨hc, fun hk => cursorOk_up m hk⟩
    · exact ⟨hc, fun hk => hk⟩
  rw [if_neg h1] at h
  by_cases h2 : k.str = "down" ∨ k.str = "j"
  · rw [if_pos h2] at h
    cases h
    dsimp only
    split_ifs with hlt
    · exact ⟨hc, fun _ => cursorOk_down m hlt⟩
    · exact ⟨hc, fun hk => hk⟩
  rw [if_neg h2] at h
  by_cases h3 : k.str = "left" ∨ k.str = "h"
  · rw [if_pos h3] at h
    split_ifs at h
    · cases h
      exact ⟨coherent_applyFilter L _, fun _ => cursorOk_applyFilter_zero L _ rfl⟩
    · cases h
      exact ⟨hc, fun hk => hk⟩
  rw [if_neg h3] at h
  by_cases h4 : k.str = "right" ∨ k.str = "l"
  · rw [if_pos h4] at h
    split_ifs at h
    · cases h
      exact ⟨coherent_applyFilter L _, fun _ => cursorOk_applyFilter_zero L _ rfl⟩
    · cases h
      exact ⟨hc, fun hk => hk⟩
  rw [if_neg h4] at h
  by_cases h5 : k.str = "/"
  · rw [if_pos h5] at h
    cases h
    exact inv_of_frame L m _ hc rfl rfl rfl (L.tiValue_focus _) rfl rfl
  rw [if_neg h5] at h
  by_cases h6 : k.str = "enter"
  · rw [if_pos h6] at h
    split_ifs at h
    · split at h <;> (cases h; exact ⟨hc, fun hk => hk⟩)
    · cases h
      exact ⟨hc, fun hk => hk⟩
  rw [if_neg h6] at h
  by_cases h7 : k.str = "esc"
  · rw [if_pos h7] at h
    split_ifs at h
    · cases h
      exact ⟨coherent_applyFilter L _,
        fun hk => cursorOk_applyFilter L _ hk (coherent_length_le L m hc)⟩
    · cases h
      exact ⟨hc, fun hk => hk⟩
  rw [if_neg h7] at h
  by_cases h8 : k.str = "a"
  · rw [if_pos h8] at h
    cases h
    exact ⟨coherent_applyFilter L _, fun _ => cursorOk_applyFilter_zero L _ rfl⟩
  rw [if_neg h8] at h
  by_cases h9 : k.str = "R"
  · rw [if_pos h9] at h
    split_ifs at h
    · split at h
      · cases h
        exact inv_of_sameView L m _ hc ⟨rfl, rfl, rfl, rfl, rfl, rfl⟩
      · cases h
    · cases h
      exact ⟨hc, fun hk => hk⟩
  rw [if_neg h9] at h
  by_cases h10 : k.str = "p"
  · rw [if_pos h10] at h
    split_ifs at h
    · split at h
      · cases h
        exact inv_of_sameView L m _ hc ⟨rfl, rfl, rfl, rfl, rfl, rfl⟩
      · cases h
    · cases h
      exact ⟨hc, fun hk => hk⟩
  rw [if_neg h10] at h
  by_cases h11 : k.str = "s"
  · rw [if_pos h11] at h
    split_ifs at h
    · split at h
      · split at h <;>
          (cases h; exact inv_of_sameView L m _ hc ⟨rfl, rfl, rfl, rfl, rfl, rfl⟩)
      · cases h
    · cases h
      exact ⟨hc, fun hk => hk⟩
  rw [if_neg h11] at h
  by_cases h12 : k.str = ","
  · rw [if_pos h12] at h
    cases h
    exact ⟨hc, fun hk => hk⟩
  rw [if_neg h12] at h
  cases h
  exact ⟨hc, fun hk => hk⟩
theorem Update_key_inv (m : ListModel TI) (k : KeyMsg) (r : ListModel TI × Option Cmd)
    (hc : Coherent L m) (h : m.Update L (Msg.key k) = some r) :
    Coherent L r.1 ∧ (CursorOk m → CursorOk r.1) := by
  simp only [ListModel.Update] at h
  split_ifs at h with e1 e2 e3 hf hk2
  · exact inv_of_sameView L m _ hc (handleRenameInput_sameView L m k r h)
  · exact inv_of_sameView L m _ hc (handlePriorityInput_sameView m k r h)
  · exact inv_of_sameView L m _ hc (handleStatusInput_sameView m k r h)
  · cases h
    exact inv_of_frame L m _ hc rfl rfl rfl (L.tiValue_blur _) rfl rfl
  · cases h
    exact ⟨coherent_applyFilter L _,
      fun hk => cursorOk_applyFilter L _ hk (coherent_length_le L m hc)⟩
  · exact handleListKey_inv L m k r hc h

theorem handleStatusInput_isSome (m : ListModel TI) (k : KeyMsg) (h : k.str ≠ "enter") :
    (handleStatusInput m k).isSome = true := by
  unfold handleStatusInput
  dsimp only
  rw [if_neg h]
  split_ifs <;> rfl

theorem handleRenameInput_isSome (m : ListModel TI) (k : KeyMsg) :
    (handleRenameInput L m k).isSome = true := by
  unfold handleRenameInput
  dsimp only
  repeat' split
  all_goals rfl

theorem handlePriorityInput_isSome (m : ListModel TI) (k : KeyMsg) :
    (handlePriorityInput m k).isSome = true := by
  unfold handlePriorityInput
  dsimp only
  split_ifs <;> (try split) <;> rfl

theorem handleListKey_isSome (m : ListModel TI) (k : KeyMsg) (h : k.str ∈ navKeys) :
    (handleListKey L m k).isSome = true := by
  unfold handleListKey
  simp only [navKeys, List.mem_cons, List.mem_singleton, List.not_mem_nil, or_false] at h
  rcases h with h | h | h | h | h | h | h | h | h <;> simp only [h] <;> simp <;>
    split_ifs <;> rfl

theorem Update_key_isSome (m : ListModel TI) (k : KeyMsg) (h : NavOrFilterKey m k) :
    (m.Update L (Msg.key k)).isSome = true := by
  simp only [ListModel.Update]
  split_ifs with e1 e2 e3 hf hk2
  · exact handleRenameInput_isSome L m k
  · exact handlePriorityInput_isSome m k
  · apply handleStatusInput_isSome
    intro he
    unfold NavOrFilterKey at h
    rw [he, e3] at h
    rcases h with h | h
    · exact absurd h (by decide)
    · exact absurd h.1 (by decide)
  · rfl
  · rfl
  · apply handleListKey_isSome
    rcases h with h | h
    · exact h
    · exact absurd h.2 hf

theorem runKeys_inv (m : ListModel TI) (ks : List KeyMsg) (hc : Coherent L m)
    (hk : CursorOk m) (m' : ListModel TI) (h : runKeys L m ks = some m') :
    Coherent L m' ∧ CursorOk m' := by
  induction ks generalizing m with
  | nil =>
    simp only [runKeys, Option.some.injEq] at h
    subst h
    exact ⟨hc, hk⟩
  | cons k ks ih =>
    simp only [runKeys] at h
    cases hu : m.Update L (Msg.key k) with
    | none => simp [hu] at h
    | some r =>
      rw [hu] at h
      have hi := Update_key_inv L m k r hc hu
      exact ih r.1 hi.1 (hi.2 hk) h

theorem runKeys_isSome (m : ListModel TI) (ks : List KeyMsg) (hc : Coherent L m)
    (hk : CursorOk m) (hr : NavOrFilterRun L m ks) : (runKeys L m ks).isSome = true := by
  induction ks generalizing m with
  | nil => rfl
  | cons k ks ih =>
    simp only [NavOrFilterRun] at hr
    have hs := Update_key_isSome L m k hr.1
    cases hu : m.Update L (Msg.key k) with
    | none => simp [hu] at hs
    | some r =>
      have hr2 := hr.2
      rw [hu] at hr2
      have hi := Update_key_inv L m k r hc hu
      simp only [runKeys, hu]
      exact ih r.1 hi.1 (hi.2 hk) hr2

/-- C9: starting from a list state whose filtered list is the derived one and whose cursor is
a valid index into it (or `0` when it is empty), every sequence of navigation keys, tab keys
and filter-text edits runs without a panic and ends with the cursor in `[0, len(filtered))`
when the filtered list is non-empty and equal to `0` when it is empty; the same holds at the
end of any sequence of key presses whatever that does not panic. -/
theorem cursor_in_range_after_keys (m : ListModel TI) (ks : List KeyMsg)
    (hc : Coherent L m) (hk : CursorOk m) :
    (NavOrFilterRun L m ks → ∃ m', runKeys L m ks = some m' ∧ CursorOk m') ∧
    (∀ m', runKeys L m ks = some m' → CursorOk m') := by
  refine ⟨fun hr => ?_, fun m' h => (runKeys_inv L m ks hc hk m' h).2⟩
  have hs := runKeys_isSome L m ks hc hk hr
  cases hu : runKeys L m ks with
  | none => simp [hu] at hs
  | some m' => exact ⟨m', rfl, (runKeys_inv L m ks hc hk m' hu).2⟩

theorem coherent_exLoaded : Coherent refLib exLoaded := by
  unfold Coherent
  rfl

theorem cursorOk_exLoaded : CursorOk exLoaded := by
  unfold CursorOk
  decide

theorem cursor_in_range_after_keys_witness :
    Coherent refLib exLoaded ∧ CursorOk exLoaded ∧
    NavOrFilterRun refLib exLoaded [⟨"j"⟩, ⟨"/"⟩, ⟨"b"⟩, ⟨"enter"⟩, ⟨"l"⟩] ∧
    ∃ m', runKeys refLib exLoaded [⟨"j"⟩, ⟨"/"⟩, ⟨"b"⟩, ⟨"enter"⟩, ⟨"l"⟩] = some m' ∧
      CursorOk m' :=
  have hr : NavOrFilterRun refLib exLoaded [⟨"j"⟩, ⟨"/"⟩, ⟨"b"⟩, ⟨"enter"⟩, ⟨"l"⟩] :=
    ⟨Or.inl (by decide), Or.inl (by decide), Or.inr ⟨rfl, rfl⟩, Or.inr ⟨rfl, rfl⟩,
     Or.inl (by decide), trivial⟩
  ⟨coherent_exLoaded, cursorOk_exLoaded, hr,
    (cursor_in_range_after_keys refLib exLoaded _ coherent_exLoaded cursorOk_exLoaded).1 hr⟩
end CursorKeys

/-! ## The derived filtered list is an invariant of the list view -/

section CoherentInvariant

variable {TI : Type} (L : Lib TI)

theorem findCurrentIssue_sameView (m : ListModel TI) : SameView m (findCurrentIssue m) := by
  unfold findCurrentIssue
  split_ifs
  · exact ⟨rfl, rfl, rfl, rfl, rfl, rfl⟩
  · dsimp only
    split <;> exact ⟨rfl, rfl, rfl, rfl, rfl, rfl⟩

theorem coherent_NewListModel : Coherent L (NewListModel L) := by
  unfold Coherent
  rfl

theorem coherent_setters (m : ListModel TI) (hc : Coherent L m) :
    (∀ states, Coherent L (SetStates L m states)) ∧
    (∀ issues, Coherent L (SetMyIssues L m issues)) ∧
    (∀ issues, Coherent L (SetAllIssues L m issues)) ∧
    (∀ err, Coherent L (SetError m err)) ∧
    Coherent L (ToggleShowAll L m) ∧
    (∀ branch, Coherent L (SetCurrentBranch m branch)) ∧
    Coherent L (MoveCursorNext m) ∧ Coherent L (MoveCursorPrev m) := by
  refine ⟨fun _ => coherent_applyFilter L _, fun issues => ?_, fun issues => ?_, fun _ => hc,
    coherent_applyFilter L _, fun branch => ?_, ?_, ?_⟩
  · unfold SetMyIssues
    dsimp only
    refine (inv_of_sameView L _ _ ?_ (findCurrentIssue_sameView _)).1
    split_ifs
    · exact (inv_of_frame L (applyFilter L _) _ (coherent_applyFilter L _)
        rfl rfl rfl rfl rfl rfl).1
    · exact hc
  · unfold SetAllIssues
    dsimp only
    refine (inv_of_sameView L _ _ ?_ (findCurrentIssue_sameView _)).1
    split_ifs
    · exact coherent_applyFilter L _
    · exact hc
  · unfold SetCurrentBranch
    have hc' : Coherent L { m with currentBranch := branch } := hc
    exact (inv_of_sameView L _ _ hc' (findCurrentIssue_sameView _)).1
  · unfold MoveCursorNext
    split_ifs
    · exact hc
    · exact hc
  · unfold MoveCursorPrev
    split_ifs
    · exact hc
    · exact hc

theorem coherent_Update (m : ListModel TI) (msg : Msg) (r : ListModel TI × Option Cmd)
    (hc : Coherent L m) (h : m.Update L msg = some r) : Coherent L r.1 := by
  cases msg with
  | key k => exact (Update_key_inv L m k r hc h).1
  | statesLoaded states err =>
    cases err with
    | none => cases h; exact coherent_applyFilter L _
    | some e => cases h; exact hc
  | issuesLoaded issues err =>
    cases err with
    | none => cases h; exact coherent_applyFilter L _
    | some e => cases h; exact hc
  | issueTitleUpdated issueID newTitle err c =>
    cases err with
    | none =>
      cases h
      exact (inv_of_frame L (applyFilter L _) _ (coherent_applyFilter L _)
        rfl rfl rfl rfl rfl rfl).1
    | some e => cases h; exact hc
  | issuePriorityUpdated issueID newPriority err c =>
    cases err with
    | none =>
      cases h
      exact (inv_of_frame L (applyFilter L _) _ (coherent_applyFilter L _)
        rfl rfl rfl rfl rfl rfl).1
    | some e => cases h; exact hc
  | issueStateUpdated issueID newStateID err c =>
    cases err with
    | none =>
      cases h
      simp only [updateIssueState]
      split
      · exact (inv_of_frame L (applyFilter L _) _ (coherent_applyFilter L _)
          rfl rfl rfl rfl rfl rfl).1
      · exact (inv_of_frame L (applyFilter L _) _ (coherent_applyFilter L _)
          rfl rfl rfl rfl rfl rfl).1
    | some e => cases h; exact hc
  | _ => cases h; exact hc

end CoherentInvariant

/-! ## Removal and the cursor after a completed update: C4, C10 -/

/-- C4 fails on the code: with "my issues" displayed, the displayed set and "my issues" are
one backing array.  In the state `exLoaded` (cursor `0`, a valid index; "my issues" `a, b, c`)
a completed, error-free state update for `a` whose state id `""` is not in the states list
removes `a` from the displayed set, but "my issues" becomes `b, c, c`: `a` is gone and `c`
stands there twice. -/
theorem removeIssue_duplicates_under_aliasing :
    CursorOk exLoaded ∧
    exLoaded.states.find? (fun state => state.ID = "") = none ∧
    (exLoaded.heap.read exLoaded.issues).map (fun x => x.ID) = ["a", "b", "c"] ∧
    (exLoaded.heap.read exLoaded.myIssues).map (fun x => x.ID) = ["a", "b", "c"] ∧
    (exLoaded.Update refLib (Msg.issueStateUpdated "a" "" none true)).map
        (fun r => ((r.1.heap.read r.1.issues).map (fun x => x.ID),
                   (r.1.heap.read r.1.myIssues).map (fun x => x.ID)))
      = some (["b", "c"], ["b", "c", "c"]) :=
  ⟨cursorOk_exLoaded, by decide, by decide, by decide, by decide⟩

/-- C10 fails on the code: after the session `exSession` (the last issue of the "Todo" tab is
moved to "Done" through the status selector) the controller shows the list view with two
filtered issues and the cursor at `2`; the confirmation key of the selector had emitted the
request and the controller had answered it with the tracker update.  The key `R` then panics
inside `Update`, and `enter` returns a command that panics when it runs. -/
theorem cursor_out_of_range_after_state_update :
    (runRoot refLib idleViews {} exRoot exSession).map
        (fun r => (r.currentView, r.list.filtered.map (fun x => x.ID), r.list.cursor))
      = some (ViewList, ["c", "b"], 2) ∧
    (runRoot refLib idleViews {} exRoot (exSession.take 7)).bind
        (fun r => (r.Update refLib idleViews {} (Msg.key ⟨"enter"⟩)).map
          (fun x => Cmd.emitted x.2))
      = some (some (Msg.issueStateUpdated "a" "s2" none false)) ∧
    (runRoot refLib idleViews {} exRoot (exSession ++ [Msg.key ⟨"R"⟩])).isNone = true ∧
    (runRoot refLib idleViews {} exRoot (exSession ++ [Msg.key ⟨"p"⟩])).isNone = true ∧
    (runRoot refLib idleViews {} exRoot (exSession ++ [Msg.key ⟨"s"⟩])).isNone = true ∧
    (runRoot refLib idleViews {} exRoot exSession).bind
        (fun r => (r.Update refLib idleViews {} (Msg.key ⟨"enter"⟩)).map
          (fun x => Cmd.isPanic x.2))
      = some true :=
  ⟨by decide, by decide, by decide, by decide, by decide, by decide⟩

/-! ## Cancel and Duplicate resolution: C11, C12, C13 -/

section Resolution

theorem firstStateID_eq_find (p : State → Bool) (states : List State) :
    firstStateID p states = (states.find? p).map (fun s => s.ID) := by
  induction states with
  | nil => rfl
  | cons s ss ih =>
    by_cases h : p s
    · simp [firstStateID, List.find?_cons, h]
    · simp [firstStateID, List.find?_cons, h, ih]

theorem canceledStateID_eq (states : List State) :
    canceledStateID states = cancelResolution states := by
  unfold canceledStateID cancelResolution
  rw [firstStateID_eq_find, firstStateID_eq_find]
  have h1 : states.find? (fun state => state.Type' = "canceled" && state.Name = "Canceled")
      = states.find? (fun s => decide (s.Type' = "canceled" ∧ s.Name = "Canceled")) := by
    congr 1
    funext s
    simp
  rw [h1]
  cases states.find? (fun s => decide (s.Type' = "canceled" ∧ s.Name = "Canceled")) with
  | some s => rfl
  | none =>
    cases states.find? (fun s => decide (s.Type' = "canceled")) with
    | some s => rfl
    | none => rfl

theorem cancelResolution_of_no_canceled (states : List State)
    (h : ∀ s ∈ states, s.Type' ≠ "canceled") : cancelResolution states = "" := by
  unfold cancelResolution
  have h1 : states.find? (fun s => decide (s.Type' = "canceled" ∧ s.Name = "Canceled")) = none := by
    rw [List.find?_eq_none]
    intro s hs
    simp [h s hs]
  have h2 : states.find? (fun s => decide (s.Type' = "canceled")) = none := by
    rw [List.find?_eq_none]
    intro s hs
    simp [h s hs]
  rw [h1, h2]

/-- C11: for every list of team states Cancel resolution returns the id of the first state
whose type is "canceled" and whose name is exactly "Canceled" if there is one, otherwise the id
of the first state whose type is "canceled", otherwise no state id (the empty string, with no
error); for the states `s1` "Canceled" and `s2` "Won't Fix", both of type "canceled", it
returns `s1`. -/
theorem cancel_resolution_first_match (states : List State) :
    canceledStateID states
      = (match states.find? (fun s => s.Type' = "canceled" ∧ s.Name = "Canceled") with
        | some s => s.ID
        | none =>
          match states.find? (fun s => s.Type' = "canceled") with
          | some s => s.ID
          | none => "") ∧
    (∀ update teamID,
      GetCanceledStateID ⟨fun _ => .ok states, update⟩ teamID
        = (canceledStateID states, none)) ∧
    canceledStateID exCancelStates = "s1" :=
  ⟨canceledStateID_eq states, fun _ _ => rfl, by decide⟩

/-- C12: for a team whose states all have a non-empty id, Duplicate resolution applies the
update with the id of the first state named exactly "Duplicate", whatever its type; if there
is none it applies the update with the id the Cancel resolution rule yields; if that yields
none either it sends no update and completes with no error and no state id. -/
theorem duplicate_resolution (T : Tracker) (issueID teamID : String) (states : List State)
    (h : T.allTeamStates teamID = .ok states) (hid : ∀ s ∈ states, s.ID ≠ "") :
    markDuplicate T issueID teamID
      = (match states.find? (fun s => s.Name = "Duplicate") with
        | some d =>
          (Msg.issueStateUpdated issueID d.ID (T.updateIssueState issueID d.ID) true,
            [Call.getAllTeamStates teamID, Call.updateIssueState issueID d.ID])
        | none =>
          if cancelResolution states = "" then
            (Msg.issueStateUpdated issueID "" none true,
              [Call.getAllTeamStates teamID, Call.getAllTeamStates teamID])
          else
            (Msg.issueStateUpdated issueID (cancelResolution states)
                (T.updateIssueState issueID (cancelResolution states)) true,
              [Call.getAllTeamStates teamID, Call.getAllTeamStates teamID,
               Call.updateIssueState issueID (cancelResolution states)])) := by
  have hdup : GetDuplicateStateID T teamID
      = (((states.find? (fun s => decide (s.Name = "Duplicate"))).map (fun s => s.ID)).getD "",
          none) := by
    unfold GetDuplicateStateID duplicateStateID
    rw [h]
    simp only [firstStateID_eq_find]
    cases states.find? (fun s => decide (s.Name = "Duplicate")) <;> rfl
  have hcan : GetCanceledStateID T teamID = (cancelResolution states, none) := by
    unfold GetCanceledStateID
    rw [h]
    simp only [canceledStateID_eq]
  unfold markDuplicate
  rw [hdup, hcan]
  cases hf : states.find? (fun s => decide (s.Name = "Duplicate")) with
  | some d =>
    have hd : d.ID ≠ "" := hid d (List.mem_of_find?_eq_some hf)
    simp [hd]
  | none =>
    by_cases hc : cancelResolution states = ""
    · simp [hc]
    · simp [hc]

theorem duplicate_resolution_witness :
    (exTracker exCancelStates).allTeamStates "t1" = .ok exCancelStates ∧
    (∀ s ∈ exCancelStates, s.ID ≠ "") ∧
    markDuplicate (exTracker exCancelStates) "a" "t1"
      = (Msg.issueStateUpdated "a" "s1" none true,
          [Call.getAllTeamStates "t1", Call.getAllTeamStates "t1",
           Call.updateIssueState "a" "s1"]) :=
  ⟨rfl, by decide,
    (duplicate_resolution (exTracker exCancelStates) "a" "t1" exCancelStates rfl
      (by decide)).trans (by decide)⟩

end Resolution

section NotFound

variable {TI SV : Type} (L : Lib TI) (V : Views SV) (E : Env)

theorem updateIssueState_err (m : ListModel TI) (issueID newStateID : String) :
    (updateIssueState L m issueID newStateID).err = m.err := by
  unfold updateIssueState
  split
  · unfold removeIssue
    rw [applyFilter_err]
    rfl
  · rw [applyFilter_err]
    rfl

/-- C13: when the team has no state of type "canceled" (and, for Duplicate, no state named
"Duplicate" either), the cancel effect and the duplicate effect call the tracker only to read
the states, send no state update, and return the completed state-update event with no error
and the empty state id; the list view and the controller process that event without a panic,
with no effect, and leave their recorded errors as they were. -/
theorem unresolved_cancel_is_no_error (T : Tracker) (issueID teamID : String)
    (states : List State) (h : T.allTeamStates teamID = .ok states)
    (hc : ∀ s ∈ states, s.Type' ≠ "canceled") :
    cancelIssue T issueID teamID
      = (Msg.issueStateUpdated issueID "" none true, [Call.getAllTeamStates teamID]) ∧
    ((∀ s ∈ states, s.Name ≠ "Duplicate") →
      markDuplicate T issueID teamID
        = (Msg.issueStateUpdated issueID "" none true,
            [Call.getAllTeamStates teamID, Call.getAllTeamStates teamID])) ∧
    (∀ m : ListModel TI, ∃ m',
      m.Update L (Msg.issueStateUpdated issueID "" none true) = some (m', none) ∧
      m'.err = m.err) ∧
    (∀ m : RootModel TI SV, ∃ r,
      m.Update L V E (Msg.issueStateUpdated issueID "" none true) = some (r, none) ∧
      r.err = m.err ∧ r.list.err = m.list.err) := by
  have hcan : GetCanceledStateID T teamID = ("", none) := by
    unfold GetCanceledStateID
    rw [h]
    simp only [canceledStateID_eq, cancelResolution_of_no_canceled states hc]
  refine ⟨?_, ?_, ?_, ?_⟩
  · unfold cancelIssue
    rw [hcan]
    rfl
  · intro hd
    have hdup : GetDuplicateStateID T teamID = ("", none) := by
      unfold GetDuplicateStateID duplicateStateID
      rw [h]
      simp only [firstStateID_eq_find]
      have : states.find? (fun state => decide (state.Name = "Duplicate")) = none := by
        rw [List.find?_eq_none]
        intro s hs
        simp [hd s hs]
      rw [this]
      rfl
    unfold markDuplicate
    rw [hdup, hcan]
    rfl
  · intro m
    exact ⟨_, rfl, updateIssueState_err L m issueID ""⟩
  · intro m
    refine ⟨{ m with list :=
        { updateIssueState L m.list issueID "" with
          editMode := EditModeNone, editIssue := none } }, ?_, rfl,
      updateIssueState_err L m.list issueID ""⟩
    simp only [RootModel.Update, updateList, ListModel.Update_state]
    rfl

theorem unresolved_cancel_is_no_error_witness :
    (exTracker [exTodo, exDone]).allTeamStates "t1" = .ok [exTodo, exDone] ∧
    (∀ s ∈ [exTodo, exDone], s.Type' ≠ "canceled") ∧
    cancelIssue (exTracker [exTodo, exDone]) "a" "t1"
      = (Msg.issueStateUpdated "a" "" none true, [Call.getAllTeamStates "t1"]) :=
  ⟨rfl, by decide,
    (unresolved_cancel_is_no_error refLib idleViews ({} : Env)
      (exTracker [exTodo, exDone]) "a" "t1" [exTodo, exDone] rfl (by decide)).1⟩

end NotFound

/-! ## Branch correlation: C14, C15, C16 -/

section Branch

variable {TI : Type} (L : Lib TI)

/-- The slice `append(s, t...)` returns shows the elements of `s` followed by those of `t`. -/
theorem Heap.read_append_result (h : Heap) (s t : Slice) (hs : s.Wf h) :
    (h.append s t).1.read (h.append s t).2 = h.read s ++ h.read t := by
  unfold Heap.append
  dsimp only
  split_ifs with h1 h2
  · have : h.read t = [] := List.length_eq_zero.1 h2
    simp [this]
  · have hlen : s.arr < h.length := by
      by_contra hc
      have : h.array s.arr = [] := by
        simp [Heap.array_eq, List.getElem?_eq_none (Nat.le_of_not_lt hc)]
      have h3 := hs.2
      rw [this] at h3
      simp only [List.length_nil, Nat.le_zero_eq] at h3
      omega
    have hle : s.len ≤ (h.array s.arr).length := Nat.le_trans hs.1 hs.2
    have hA : ((h.array s.arr).take s.len).length = s.len := by
      rw [List.length_take]
      exact Nat.min_eq_left hle
    have e : ∀ (X : List Issue) (k : Nat),
        Heap.read (h.set s.arr X) { s with len := k } = X.take k := by
      intro X k
      simp [Heap.read, Heap.array_set_eq _ _ _ hlen]
    rw [e, List.append_assoc]
    rw [← List.append_assoc]
    apply List.take_left'
    rw [List.length_append, hA]
  · simp [Heap.read, Heap.array_append_length]

theorem findBranch_spec (branch : String) (hb : branch ≠ "") (l : List Issue) :
    (match findBranch branch l with
      | some i => l[i]?
      | none => none)
      = l.find?
        (fun issue => issue.Identifier.data <:+: branch.data ∨ issue.BranchName = branch) := by
  induction l with
  | nil => rfl
  | cons x xs ih =>
    unfold findBranch
    rw [List.find?_cons]
    by_cases h1 : stringsContains branch x.Identifier = true
    · have hd : decide (x.Identifier.data <:+: branch.data ∨ x.BranchName = branch) = true :=
        decide_eq_true (Or.inl (of_decide_eq_true h1))
      rw [if_pos h1, hd]
      simp
    · have hn : ¬ x.Identifier.data <:+: branch.data := fun hc => h1 (decide_eq_true hc)
      rw [if_neg h1]
      by_cases h2 : x.BranchName ≠ "" ∧ branch = x.BranchName
      · have hd : decide (x.Identifier.data <:+: branch.data ∨ x.BranchName = branch) = true :=
          decide_eq_true (Or.inr h2.2.symm)
        rw [if_pos h2, hd]
        simp
      · have hne : ¬ x.BranchName = branch := by
          intro e
          apply h2
          exact ⟨by rw [e]; exact hb, e.symm⟩
        have hd : decide (x.Identifier.data <:+: branch.data ∨ x.BranchName = branch) = false :=
          decide_eq_false (fun hc => hc.elim hn hne)
        rw [if_neg h2, hd]
        rw [← ih]
        cases findBranch branch xs with
        | none => rfl
        | some i => simp

theorem findBranch_lt (branch : String) (l : List Issue) (i : Nat)
    (h : findBranch branch l = some i) : i < l.length := by
  induction l generalizing i with
  | nil => simp [findBranch] at h
  | cons x xs ih =>
    unfold findBranch at h
    split_ifs at h
    · cases h; simp
    · cases h; simp
    · cases hf : findBranch branch xs with
      | none => simp [hf] at h
      | some j =>
        simp only [hf, Option.map_some', Option.some.injEq] at h
        subst h
        have := ih j hf
        simp only [List.length_cons]
        omega

/-- C14: for a well-formed "my issues" slice, the issue `findCurrentIssue` stores is, for a
non-empty branch name, the first issue, scanning "my issues" and then "all issues", whose
identifier is a substring of the branch name or whose stored branch name equals the branch
name; it is no issue when none qualifies or when the branch name is empty. -/
theorem findCurrentIssue_selects_first_match (m : ListModel TI)
    (hw : m.myIssues.Wf m.heap) :
    currentIssueValue (findCurrentIssue m)
      = (if m.currentBranch = "" then none
        else (m.heap.read m.myIssues ++ m.heap.read m.allIssues).find?
          (fun issue => issue.Identifier.data <:+: m.currentBranch.data ∨
            issue.BranchName = m.currentBranch)) := by
  unfold findCurrentIssue
  split_ifs with hb
  · rfl
  · have hr := Heap.read_append_result m.heap m.myIssues m.allIssues hw
    have hs := findBranch_spec m.currentBranch hb
      ((m.heap.append m.myIssues m.allIssues).1.read (m.heap.append m.myIssues m.allIssues).2)
    dsimp only
    cases hf : findBranch m.currentBranch
        ((m.heap.append m.myIssues m.allIssues).1.read
          (m.heap.append m.myIssues m.allIssues).2) with
    | none =>
      rw [hf] at hs
      rw [hr] at hs
      simp only [currentIssueValue, Option.bind]
      exact hs
    | some i =>
      rw [hf] at hs
      have hi := findBranch_lt _ _ _ hf
      rw [← hr, ← hs]
      simp only [currentIssueValue, Option.bind, Heap.deref]
      unfold Heap.read at hi ⊢
      rw [List.getElem?_take]
      simp only [List.length_take] at hi
      have : i < (m.heap.append m.myIssues m.allIssues).2.len := by omega
      simp [this]

end Branch

theorem findCurrentIssue_selects_first_match_witness :
    (exOnBranch "feature/eng-2-foo").myIssues.Wf (exOnBranch "feature/eng-2-foo").heap ∧
    currentIssueValue (findCurrentIssue (exOnBranch "feature/eng-2-foo")) = exBranchIssues[1]? :=
  have hw : (exOnBranch "feature/eng-2-foo").myIssues.Wf (exOnBranch "feature/eng-2-foo").heap := by
    unfold Slice.Wf
    decide
  ⟨hw, (findCurrentIssue_selects_first_match (exOnBranch "feature/eng-2-foo") hw).trans
    (by decide)⟩

/-- C15 fails on the code: with the issues ENG-1 (no branch name) and ENG-2 (branch name
"feature/eng-2-foo") and the branch "eng-1-fix-bug", branch correlation selects no issue:
`strings.Contains` compares case-sensitively and "ENG-1" does not occur in the branch name. -/
theorem lowercase_branch_selects_nothing :
    currentIssueValue (exOnBranch "eng-1-fix-bug") = none ∧
    (currentIssueValue (exOnBranch "eng-1-fix-bug")).map (fun x => x.Identifier)
      ≠ some "ENG-1" := by
  decide

/-- C15, as amended: with the issues ENG-1 (no branch name) and ENG-2 (branch name
"feature/eng-2-foo"), branch correlation selects ENG-2 for the branch "feature/eng-2-foo", and
ENG-1 for the branch "ENG-1-fix-bug", in which the identifier occurs letter for letter; for
"eng-1-fix-bug" it selects no issue. -/
theorem branch_scenario :
    (currentIssueValue (exOnBranch "feature/eng-2-foo")).map (fun x => x.Identifier)
      = some "ENG-2" ∧
    (currentIssueValue (exOnBranch "ENG-1-fix-bug")).map (fun x => x.Identifier)
      = some "ENG-1" ∧
    currentIssueValue (exOnBranch "eng-1-fix-bug") = none := by
  decide

/-- C16 fails on the code: on the branch "feature/eng-2-foo", with ENG-1 and ENG-2 loaded as
"my issues" and as "all issues", the stored current-branch issue is the correlated one
(ENG-2).  After a completed title update of ENG-2 the stored issue still has the old title,
while correlation over the current collections gives the issue with the new title; after the
removal of ENG-2 the stored issue is still ENG-2, while correlation gives no issue.  The update
and removal functions do not call `findCurrentIssue`. -/
theorem current_issue_stale_after_update :
    (storedAndCorrelated exCorrelated).1 = (storedAndCorrelated exCorrelated).2 ∧
    (storedAndCorrelated exCorrelated).1.map (fun x => x.Identifier) = some "ENG-2" ∧
    (exCorrelated.Update refLib (Msg.issueTitleUpdated "2" "New" none true)).map
        (fun r => ((storedAndCorrelated r.1).1.map (fun x => x.Title),
                   (storedAndCorrelated r.1).2.map (fun x => x.Title)))
      = some (some "", some "New") ∧
    (exCorrelated.Update refLib (Msg.issueStateUpdated "2" "" none true)).map
        (fun r => ((storedAndCorrelated r.1).1.map (fun x => x.Identifier),
                   (storedAndCorrelated r.1).2.map (fun x => x.Identifier)))
      = some (some "ENG-2", none) := by
  decide

/-! ## The load completions: C17 -/

section Loads

variable {TI : Type} (L : Lib TI)

theorem applyFilter_of_cursor_zero (m : ListModel TI) (h : m.cursor = 0) :
    applyFilter L m
      = { m with filtered := ((currentStateIssues m).filter
            (matchesFilter L (L.toLower (L.tiValue m.filterInput)))) } := by
  have hf := applyFilter_filtered_eq L m
  have hc : (applyFilter L m).cursor = m.cursor := by
    rw [applyFilter_cursor]
    split_ifs <;> omega
  rw [← hf]
  revert hc
  generalize hF : (applyFilter L m).filtered = F
  revert hF
  unfold applyFilter
  dsimp only
  split_ifs
  · intro hF _
    rw [← hF]
  · intro hF hc
    dsimp only at hF hc
    rw [← hF]
    obtain ⟨⟩ := m
    dsimp only at hc ⊢
    rw [hc]
  · intro hF _
    rw [← hF]

theorem findDefaultState_eq (m : ListModel TI) :
    findDefaultState L m = { m with activeState := (findTodo L m.states).getD 0 } := by
  unfold findDefaultState
  split <;> rename_i h <;> rw [h] <;> rfl

theorem findCurrentIssue_eq (m : ListModel TI) :
    findCurrentIssue m
      = if m.currentBranch = "" then { m with currentIssue := none }
        else { m with
          heap := (m.heap.append m.myIssues m.allIssues).1
          currentIssue :=
            ((findBranch m.currentBranch ((m.heap.append m.myIssues m.allIssues).1.read
              (m.heap.append m.myIssues m.allIssues).2)).map
              (fun i => ⟨(m.heap.append m.myIssues m.allIssues).2.arr, i⟩)) } := by
  unfold findCurrentIssue
  split_ifs with hb
  · rfl
  · dsimp only
    split <;> rename_i h <;> rw [h] <;> rfl

theorem findCurrentIssue_cursor (m : ListModel TI) :
    (findCurrentIssue m).cursor = m.cursor := by
  rw [findCurrentIssue_eq]
  split_ifs <;> rfl

theorem SetStates_SetMyIssues (m : ListModel TI) (S : List State) (M : List Issue)
    (hc : m.cursor = 0) (hs : m.showAllIssues = false) :
    SetStates L (SetMyIssues L m M) S = SetMyIssues L (SetStates L m S) M := by
  obtain ⟨heap, issues, allIssues, myIssues, states, issuesByState, filtered, cursor,
    activeState, filtering, filterInput, loading, showAllIssues, err, currentBranch,
    currentIssue, workingDir, version, editMode, editInput, editCursor, editIssue⟩ := m
  dsimp only at hc hs
  subst hc hs
  by_cases hb : currentBranch = ""
  · simp [SetStates, SetMyIssues, findDefaultState_eq, findCurrentIssue_eq, groupIssuesByState,
      applyFilter_of_cursor_zero, hb, currentStateIssues]
  · simp [SetStates, SetMyIssues, findDefaultState_eq, findCurrentIssue_eq, groupIssuesByState,
      applyFilter_of_cursor_zero, hb, currentStateIssues]

theorem SetStates_SetAllIssues (m : ListModel TI) (S : List State) (A : List Issue)
    (hc : m.cursor = 0) (hs : m.showAllIssues = false) :
    SetStates L (SetAllIssues L m A) S = SetAllIssues L (SetStates L m S) A := by
  obtain ⟨heap, issues, allIssues, myIssues, states, issuesByState, filtered, cursor,
    activeState, filtering, filterInput, loading, showAllIssues, err, currentBranch,
    currentIssue, workingDir, version, editMode, editInput, editCursor, editIssue⟩ := m
  dsimp only at hc hs
  subst hc hs
  by_cases hb : currentBranch = ""
  · simp [SetStates, SetAllIssues, findDefaultState_eq, findCurrentIssue_eq,
      applyFilter_of_cursor_zero, hb, currentStateIssues]
  · simp [SetStates, SetAllIssues, findDefaultState_eq, findCurrentIssue_eq,
      applyFilter_of_cursor_zero, hb, currentStateIssues]

theorem SetMyIssues_SetAllIssues_canon (m : ListModel TI) (M A : List Issue)
    (hh : m.heap = []) (hi : m.issues = {}) (hm : m.myIssues = {}) (ha : m.allIssues = {})
    (hc : m.cursor = 0) (hs : m.showAllIssues = false) :
    (SetAllIssues L (SetMyIssues L m M) A).canon
      = (SetMyIssues L (SetAllIssues L m A) M).canon := by
  obtain ⟨heap, issues, allIssues, myIssues, states, issuesByState, filtered, cursor,
    activeState, filtering, filterInput, loading, showAllIssues, err, currentBranch,
    currentIssue, workingDir, version, editMode, editInput, editCursor, editIssue⟩ := m
  dsimp only at hh hi hm ha hc hs
  subst hh hi hm ha hc hs
  by_cases hb : currentBranch = ""
  · simp [SetMyIssues, SetAllIssues, findCurrentIssue_eq, groupIssuesByState,
      applyFilter_of_cursor_zero, hb, currentStateIssues, Heap.alloc, Heap.read, Heap.array,
      ListModel.canon, ListModel.arrays, firstMention]
  · cases A with
    | nil =>
      simp [SetMyIssues, SetAllIssues, findCurrentIssue_eq, groupIssuesByState,
        applyFilter_of_cursor_zero, hb, currentStateIssues, Heap.alloc, Heap.read, Heap.array,
        Heap.append, ListModel.canon, ListModel.arrays, firstMention]
      generalize findBranch currentBranch _ = r
      cases r <;> simp [List.indexOf_cons, Heap.array]
    | cons a as =>
      simp [SetMyIssues, SetAllIssues, findCurrentIssue_eq, groupIssuesByState,
        applyFilter_of_cursor_zero, hb, currentStateIssues, Heap.alloc, Heap.read, Heap.array,
        Heap.append, ListModel.canon, ListModel.arrays, firstMention]
      generalize findBranch currentBranch _ = r
      cases r <;> simp [List.indexOf_cons, Heap.array]

theorem freshList_base (E : Env) :
    (freshList L E).heap = [] ∧ (freshList L E).issues = {} ∧ (freshList L E).myIssues = {} ∧
    (freshList L E).allIssues = {} ∧ (freshList L E).cursor = 0 ∧
    (freshList L E).showAllIssues = false ∧ (freshList L E).loading = true := by
  unfold freshList
  by_cases hb : E.branch = "" <;> cases E.wd <;>
    simp [hb, SetCurrentBranch, SetWorkingDir, SetVersion, NewListModel, findCurrentIssue_eq,
      Heap.append, Heap.read, Heap.array]

theorem SetStates_base (m : ListModel TI) (S : List State) (hc : m.cursor = 0) :
    (SetStates L m S).heap = m.heap ∧ (SetStates L m S).issues = m.issues ∧
    (SetStates L m S).myIssues = m.myIssues ∧ (SetStates L m S).allIssues = m.allIssues ∧
    (SetStates L m S).cursor = 0 ∧ (SetStates L m S).showAllIssues = m.showAllIssues ∧
    (SetStates L m S).loading = m.loading := by
  unfold SetStates
  rw [applyFilter_of_cursor_zero, findDefaultState_eq]
  · exact ⟨rfl, rfl, rfl, rfl, hc, rfl, rfl⟩
  · rw [findDefaultState_eq]
    exact hc

theorem SetMyIssues_base (m : ListModel TI) (M : List Issue) (hc : m.cursor = 0)
    (hs : m.showAllIssues = false) :
    (SetMyIssues L m M).cursor = 0 ∧ (SetMyIssues L m M).showAllIssues = false ∧
    (SetMyIssues L m M).loading = false := by
  by_cases hb : m.currentBranch = "" <;>
    simp [SetMyIssues, findCurrentIssue_eq, groupIssuesByState, applyFilter_of_cursor_zero,
      hb, hc, hs]

theorem SetAllIssues_base (m : ListModel TI) (A : List Issue) (hc : m.cursor = 0)
    (hs : m.showAllIssues = false) :
    (SetAllIssues L m A).cursor = 0 ∧ (SetAllIssues L m A).showAllIssues = false ∧
    (SetAllIssues L m A).loading = m.loading := by
  by_cases hb : m.currentBranch = "" <;>
    simp [SetAllIssues, findCurrentIssue_eq, hb, hc, hs]

theorem loads_perm_cases (S : List State) (M A : List Issue) (msgs : List Msg)
    (hp : msgs.Perm (loads S M A)) :
    msgs ∈
      [[Msg.statesLoaded S none, Msg.issuesLoaded M none, Msg.allIssuesLoaded A none],
       [Msg.statesLoaded S none, Msg.allIssuesLoaded A none, Msg.issuesLoaded M none],
       [Msg.issuesLoaded M none, Msg.statesLoaded S none, Msg.allIssuesLoaded A none],
       [Msg.issuesLoaded M none, Msg.allIssuesLoaded A none, Msg.statesLoaded S none],
       [Msg.allIssuesLoaded A none, Msg.statesLoaded S none, Msg.issuesLoaded M none],
       [Msg.allIssuesLoaded A none, Msg.issuesLoaded M none, Msg.statesLoaded S none]] := by
  have hl := hp.length_eq
  have hn : msgs.Nodup := hp.nodup_iff.2 (by simp [loads])
  match msgs, hl, hn, hp with
  | [x, y, z], _, hn, hp =>
    have hx : x ∈ loads S M A := hp.subset (by simp)
    have hy : y ∈ loads S M A := hp.subset (by simp)
    have hz : z ∈ loads S M A := hp.subset (by simp)
    simp only [loads, List.mem_cons, List.mem_singleton, List.not_mem_nil, or_false] at hx hy hz
    rcases hx with rfl | rfl | rfl <;> rcases hy with rfl | rfl | rfl <;>
      rcases hz with rfl | rfl | rfl <;> simp at hn ⊢

/-- The list view after the three loads, whatever their order, up to the addresses of the
backing arrays. -/
theorem loads_any_order (f : ListModel TI) (S : List State) (M A : List Issue)
    (hh : f.heap = []) (hi : f.issues = {}) (hm : f.myIssues = {}) (ha : f.allIssues = {})
    (hc : f.cursor = 0) (hs : f.showAllIssues = false) :
    (SetAllIssues L (SetStates L (SetMyIssues L f M) S) A).canon
        = (SetAllIssues L (SetMyIssues L (SetStates L f S) M) A).canon ∧
    (SetStates L (SetAllIssues L (SetMyIssues L f M) A) S).canon
        = (SetAllIssues L (SetMyIssues L (SetStates L f S) M) A).canon ∧
    (SetMyIssues L (SetStates L (SetAllIssues L f A) S) M).canon
        = (SetAllIssues L (SetMyIssues L (SetStates L f S) M) A).canon ∧
    (SetStates L (SetMyIssues L (SetAllIssues L f A) M) S).canon
        = (SetAllIssues L (SetMyIssues L (SetStates L f S) M) A).canon ∧
    (SetMyIssues L (SetAllIssues L (SetStates L f S) A) M).canon
        = (SetAllIssues L (SetMyIssues L (SetStates L f S) M) A).canon := by
  obtain ⟨b1, b2, b3, b4, b5, b6, _⟩ := SetStates_base L f S hc
  have key : (SetMyIssues L (SetAllIssues L (SetStates L f S) A) M).canon
      = (SetAllIssues L (SetMyIssues L (SetStates L f S) M) A).canon :=
    (SetMyIssues_SetAllIssues_canon L (SetStates L f S) M A (b1.trans hh) (b2.trans hi)
      (b3.trans hm) (b4.trans ha) b5 (b6.trans hs)).symm
  obtain ⟨m1, m2, _⟩ := SetMyIssues_base L f M hc hs
  obtain ⟨a1, a2, _⟩ := SetAllIssues_base L f A hc hs
  refine ⟨?_, ?_, ?_, ?_, key⟩
  · rw [SetStates_SetMyIssues L f S M hc hs]
  · rw [SetStates_SetAllIssues L _ S A m1 m2, SetStates_SetMyIssues L f S M hc hs]
  · rw [SetStates_SetAllIssues L f S A hc hs, key]
  · rw [SetStates_SetMyIssues L _ S M a1 a2, SetStates_SetAllIssues L f S A hc hs, key]

theorem applyFilter_loading (m : ListModel TI) : (applyFilter L m).loading = m.loading := by
  unfold applyFilter
  dsimp only
  split_ifs <;> rfl

theorem findCurrentIssue_loading (m : ListModel TI) :
    (findCurrentIssue m).loading = m.loading := by
  rw [findCurrentIssue_eq]
  split_ifs <;> rfl

theorem SetStates_loading (m : ListModel TI) (S : List State) :
    (SetStates L m S).loading = m.loading := by
  unfold SetStates
  rw [applyFilter_loading, findDefaultState_eq]

theorem SetAllIssues_loading (m : ListModel TI) (A : List Issue) :
    (SetAllIssues L m A).loading = m.loading := by
  unfold SetAllIssues
  rw [findCurrentIssue_loading]
  dsimp only
  split_ifs
  · rw [applyFilter_loading]
    rfl
  · rfl

theorem SetMyIssues_loading (m : ListModel TI) (M : List Issue) :
    (SetMyIssues L m M).loading = false := by
  unfold SetMyIssues
  rw [findCurrentIssue_loading]

end Loads

section LoadClaims

variable {TI SV : Type} (L : Lib TI) (V : Views SV) (E : Env)

theorem runRoot_statesLoaded (m : RootModel TI SV) (S : List State) (msgs : List Msg) :
    runRoot L V E m (Msg.statesLoaded S none :: msgs)
      = runRoot L V E { m with list := SetStates L m.list S } msgs := rfl

theorem runRoot_issuesLoaded (m : RootModel TI SV) (M : List Issue) (msgs : List Msg) :
    runRoot L V E m (Msg.issuesLoaded M none :: msgs)
      = runRoot L V E { m with list := SetMyIssues L m.list M } msgs := rfl

theorem runRoot_allIssuesLoaded (m : RootModel TI SV) (A : List Issue) (msgs : List Msg) :
    runRoot L V E m (Msg.allIssuesLoaded A none :: msgs)
      = runRoot L V E { m with list := SetAllIssues L m.list A } msgs := rfl

theorem runRoot_nil (m : RootModel TI SV) : runRoot L V E m [] = some m := rfl

/-- C17: delivered to a controller whose list view is freshly constructed, the three successful
load completions (states `S`, my issues `M`, all issues `A`) in any order leave the same list
view as in the order states, my issues, all issues: the two list views are equal up to the
addresses of their backing arrays.  The loading flag is then cleared.  In every controller
state, the my-issues-loaded completion clears the loading flag, and the successful
states-loaded and all-issues-loaded completions leave it as it is. -/
theorem load_completions_any_order (m : RootModel TI SV) (S : List State) (M A : List Issue)
    (msgs : List Msg) (hp : msgs.Perm (loads S M A)) :
    (∃ r r0, runRoot L V E { m with list := freshList L E } msgs = some r ∧
      runRoot L V E { m with list := freshList L E } (loads S M A) = some r0 ∧
      r.list.canon = r0.list.canon ∧ r.list.loading = false) ∧
    (∃ r, m.Update L V E (Msg.issuesLoaded M none) = some r ∧ r.1.list.loading = false) ∧
    (∃ r, m.Update L V E (Msg.statesLoaded S none) = some r ∧
      r.1.list.loading = m.list.loading) ∧
    (∃ r, m.Update L V E (Msg.allIssuesLoaded A none) = some r ∧
      r.1.list.loading = m.list.loading) := by
  refine ⟨?_, ⟨_, rfl, SetMyIssues_loading L _ M⟩, ⟨_, rfl, SetStates_loading L _ S⟩,
    ⟨_, rfl, SetAllIssues_loading L _ A⟩⟩
  obtain ⟨hh, hi, hm, ha, hc, hs, _⟩ := freshList_base L E
  obtain ⟨o1, o2, o3, o4, o5⟩ := loads_any_order L (freshList L E) S M A hh hi hm ha hc hs
  have hl : ∀ x : ListModel TI, x.canon = (SetAllIssues L (SetMyIssues L (SetStates L
      (freshList L E) S) M) A).canon → x.loading = false := by
    intro x hx
    have := congrArg ListModel.loading hx
    simp only [ListModel.canon] at this
    rw [this, SetAllIssues_loading, SetMyIssues_loading]
  have h := loads_perm_cases S M A msgs hp
  simp only [List.mem_cons, List.mem_singleton, List.not_mem_nil, or_false] at h
  rcases h with rfl | rfl | rfl | rfl | rfl | rfl <;>
    simp only [loads, runRoot_statesLoaded, runRoot_issuesLoaded, runRoot_allIssuesLoaded,
      runRoot_nil]
  · exact ⟨_, _, rfl, rfl, rfl, hl _ rfl⟩
  · exact ⟨_, _, rfl, rfl, o5, hl _ o5⟩
  · exact ⟨_, _, rfl, rfl, o1, hl _ o1⟩
  · exact ⟨_, _, rfl, rfl, o2, hl _ o2⟩
  · exact ⟨_, _, rfl, rfl, o3, hl _ o3⟩
  · exact ⟨_, _, rfl, rfl, o4, hl _ o4⟩

theorem load_completions_any_order_witness :
    [Msg.allIssuesLoaded exBranchIssues none, Msg.issuesLoaded exIssues none,
      Msg.statesLoaded [exTodo, exDone] none].Perm (loads [exTodo, exDone] exIssues exBranchIssues) ∧
    ∃ r r0, runRoot refLib idleViews {} { exRoot with list := freshList refLib {} }
        [Msg.allIssuesLoaded exBranchIssues none, Msg.issuesLoaded exIssues none,
          Msg.statesLoaded [exTodo, exDone] none] = some r ∧
      runRoot refLib idleViews {} { exRoot with list := freshList refLib {} }
        (loads [exTodo, exDone] exIssues exBranchIssues) = some r0 ∧
      r.list.canon = r0.list.canon ∧ r.list.loading = false :=
  have hp : [Msg.allIssuesLoaded exBranchIssues none, Msg.issuesLoaded exIssues none,
      Msg.statesLoaded [exTodo, exDone] none].Perm
      (loads [exTodo, exDone] exIssues exBranchIssues) :=
    (List.Perm.swap _ _ _).trans ((List.Perm.cons _ (List.Perm.swap _ _ _)).trans
      (List.Perm.swap _ _ _))
  ⟨hp, (load_completions_any_order refLib idleViews {} exRoot [exTodo, exDone] exIssues
    exBranchIssues _ hp).1⟩

end LoadClaims

/-! ## The prompt builder: C18, C19, C20 -/

section PromptLemmas

variable (P : PromptLib)

theorem foldl_append_init (l : List String) (init : String) :
    l.foldl (fun r s => r ++ s) init = init ++ String.join l := by
  unfold String.join
  induction l generalizing init with
  | nil => simp
  | cons x xs ih =>
    rw [List.foldl_cons, ih, List.foldl_cons, ih ("" ++ x)]
    simp [String.append_assoc, -String.reduceAppend]

theorem foldl_write {α : Type} (g : String → α → String) (f : α → String)
    (h : ∀ sb x, g sb x = sb ++ f x) (l : List α) (init : String) :
    l.foldl g init = init ++ String.join (l.map f) := by
  rw [← foldl_append_init, List.foldl_map]
  congr 1
  funext sb x
  exact h sb x

theorem filterSlackAttachments_eq (l : List Attachment) :
    filterSlackAttachments P l
      = (l.filter (fun att => isSlack P att), l.filter (fun att => ¬ isSlack P att)) := by
  have h : ∀ (l : List Attachment) (r : List Attachment × List Attachment),
      l.foldl (fun r att =>
          if P.toLower att.SourceType = "slack" then (r.1 ++ [att], r.2)
          else (r.1, r.2 ++ [att])) r
        = (r.1 ++ l.filter (fun att => isSlack P att),
           r.2 ++ l.filter (fun att => ¬ isSlack P att)) := by
    intro l
    induction l with
    | nil => intro r; simp
    | cons x xs ih =>
      intro r
      rw [List.foldl_cons, ih]
      by_cases hx : P.toLower x.SourceType = "slack"
      · simp [hx, isSlack, List.filter_cons]
      · simp [hx, isSlack, List.filter_cons]
  unfold filterSlackAttachments
  rw [h]
  simp

theorem filter_length_pos {α : Type} (p : α → Prop) [DecidablePred p] (l : List α) :
    (l.filter (fun x => p x)).length > 0 ↔ ∃ x ∈ l, p x := by
  rw [gt_iff_lt, List.length_pos, Ne, List.filter_eq_nil_iff]
  simp

theorem buildPromptInternal_eq (issue : Issue) (comment : String) (ctx : Option IssueContext) :
    buildPromptInternal P issue comment ctx
      = String.join (promptSections P issue comment ctx) := by
  unfold buildPromptInternal
  lift_lets
  intro sb0 sb1 sb2 sb3 sb4 sb5 sb6 sb7 sb8 sb9 labels sb10 sb11 sb12 split slackAttachments
    otherAttachments sb13 sb14 sb15 sb16 sb17 sb18 sb19 sb20 sb21 sb22 sb23 sb24 sb25 sb26
    sb27 sb28 sb29 sb30
  have h5 : sb5 = openingLine issue ++ headingLine issue
      ++ (if issue.Description = "" then "" else descriptionSection issue) := by
    simp only [sb5, sb4, sb3, sb2, sb1, sb0]
    by_cases h : issue.Description = "" <;>
      simp [h, openingLine, headingLine, descriptionSection, String.append_assoc, -String.reduceAppend]
  have h12 : sb12 = sb5 ++ metadataBlock issue := by
    simp only [sb12, sb11, sb10, labels, sb9, sb8, sb7, sb6]
    rcases ha : issue.Assignee with _ | a <;> by_cases hl : issue.Labels = [] <;>
      by_cases hb : issue.BranchName = "" <;>
      simp [metadataBlock, ha, hl, hb, String.append_assoc, -String.reduceAppend,
        List.length_pos]
  have hsplit : split = (issue.Attachments.filter (fun att => isSlack P att),
      issue.Attachments.filter (fun att => ¬ isSlack P att)) := filterSlackAttachments_eq P _
  have h13 : sb13 = sb12
      ++ (if ∃ att ∈ issue.Attachments, isSlack P att then slackSection P issue else "") := by
    simp only [sb13, slackAttachments, hsplit, filter_length_pos]
    split_ifs with h
    · rw [foldl_write _ slackEntry]
      · simp [slackSection, String.append_assoc, -String.reduceAppend]
      · intro sb att
        by_cases h1 : extractSlackContent att.Metadata = "" <;>
          by_cases h2 : att.Subtitle = "" <;>
          simp [slackEntry, h1, h2, String.append_assoc, -String.reduceAppend]
    · simp
  have h15 : sb15 = sb13
      ++ (if ∃ att ∈ issue.Attachments, ¬ isSlack P att then attachmentsSection P issue
          else "") := by
    simp only [sb15, sb14, otherAttachments, hsplit, filter_length_pos]
    split_ifs with h
    · rw [foldl_write _ attachmentLine]
      · simp [attachmentsSection, String.append_assoc, -String.reduceAppend]
      · intro sb att
        simp [attachmentLine, sourceLabel, String.append_assoc, -String.reduceAppend]
    · simp
  have h18 : sb18 = sb15
      ++ (if issue.Comments = [] then "" else discussionSection P issue) := by
    simp only [sb18, sb17, sb16]
    by_cases h : issue.Comments = []
    · simp [h]
    · have hp : issue.Comments.length > 0 := List.length_pos.2 h
      rw [if_pos hp, if_neg h, foldl_write _ (commentEntry P)]
      · simp [discussionSection, String.append_assoc, -String.reduceAppend]
      · intro sb c
        dsimp only
        rw [foldl_write _ (fun line => "> " ++ line ++ "\n") (fun _ _ => rfl)]
        simp [commentEntry, String.append_assoc, -String.reduceAppend]
  have h19 : sb19 = sb18 ++ (if comment = "" then "" else notesSection comment) := by
    simp only [sb19]
    by_cases h : comment = "" <;> simp [h, notesSection, -String.reduceAppend]
  have h27 : sb27 = sb19 ++ contextBlock issue ctx := by
    simp only [sb27, sb26, sb25, sb24, sb23, sb22, sb21, sb20]
    cases ctx <;> simp [contextBlock, identifierLines, mcpSentence, organizationLines, String.append_assoc, -String.reduceAppend]
  have h30 : sb30 = sb27 ++ closingInstruction issue := by
    simp only [sb30, sb29, sb28]
    simp [closingInstruction, commitHint, String.append_assoc, -String.reduceAppend]
  rw [h30, h27, h19, h18, h15, h13, h12, h5]
  simp [promptSections, String.join, String.append_assoc, -String.reduceAppend]

theorem join_ten (a b c d e f g h i j : String) :
    String.join [a, b, c, d, e, f, g, h, i, j]
      = a ++ b ++ c ++ d ++ e ++ f ++ g ++ h ++ i ++ j := by
  simp [String.join]

theorem data_append (a b : String) : (a ++ b).data = a.data ++ b.data := rfl

/-- C18: the prompt is the concatenation, in this order, of the opening line, the heading, the
Description section iff the description is not empty, the Metadata block, the Slack
Conversations section iff some attachment is Slack-sourced, the Attachments section iff some
attachment is not Slack-sourced, the Discussion Thread section iff there are comments, the My
Notes section iff the free-text comment is not empty, the Linear API Context block and the
closing instruction.  The context block has the two organization lines between its identifier
lines and its last sentence iff a context is given.  The closing instruction ends with the
sentence that embeds "Fixes" and the identifier, and so does the prompt. -/
theorem prompt_sections_in_order (issue : Issue) (comment : String)
    (ctx : Option IssueContext) :
    buildPromptInternal P issue comment ctx
      = openingLine issue
        ++ headingLine issue
        ++ (if issue.Description = "" then "" else descriptionSection issue)
        ++ metadataBlock issue
        ++ (if ∃ att ∈ issue.Attachments, isSlack P att then slackSection P issue else "")
        ++ (if ∃ att ∈ issue.Attachments, ¬ isSlack P att then attachmentsSection P issue
            else "")
        ++ (if issue.Comments = [] then "" else discussionSection P issue)
        ++ (if comment = "" then "" else notesSection comment)
        ++ contextBlock issue ctx
        ++ closingInstruction issue ∧
    contextBlock issue none = identifierLines issue ++ mcpSentence ∧
    (∀ c, contextBlock issue (some c)
      = identifierLines issue ++ organizationLines c ++ mcpSentence) ∧
    (∃ pre, closingInstruction issue = pre ++
      ("**Important**: When you make the commit that resolves this issue, include `Fixes "
        ++ issue.Identifier
        ++ "` in the commit message so Linear automatically marks it as done.")) ∧
    (commitHint issue).data <:+ (buildPromptInternal P issue comment ctx).data := by
  have h := buildPromptInternal_eq P issue comment ctx
  rw [promptSections, join_ten] at h
  refine ⟨h, ?_, fun c => rfl, ⟨_, rfl⟩, ?_⟩
  · simp [contextBlock]
  · rw [h, closingInstruction, ← String.append_assoc, data_append]
    exact List.suffix_append _ _

/-- C19: for an issue with an empty description and no comments, built with an empty
free-text comment, the prompt is the opening line, the heading, the Metadata block, the Slack
Conversations and Attachments sections under their conditions, the context block and the
closing instruction: there is no Description section, no Discussion Thread section and no My
Notes section.  The prompt contains the identifier, a colon and a blank, and the title; it
ends with the closing sentence, which contains "Fixes" followed by the identifier.  For the
issue ENG-42 "Fix crash" the prompt contains "ENG-42: Fix crash" and "Fixes ENG-42", and
contains neither "### Description" nor "### Discussion Thread". -/
theorem prompt_of_bare_issue (issue : Issue) (ctx : Option IssueContext)
    (hd : issue.Description = "") (hc : issue.Comments = []) :
    buildPromptInternal P issue "" ctx
      = openingLine issue
        ++ headingLine issue
        ++ metadataBlock issue
        ++ (if ∃ att ∈ issue.Attachments, isSlack P att then slackSection P issue else "")
        ++ (if ∃ att ∈ issue.Attachments, ¬ isSlack P att then attachmentsSection P issue
            else "")
        ++ contextBlock issue ctx
        ++ closingInstruction issue ∧
    (issue.Identifier ++ ": " ++ issue.Title).data
      <:+: (buildPromptInternal P issue "" ctx).data ∧
    (commitHint issue).data <:+ (buildPromptInternal P issue "" ctx).data ∧
    ("Fixes " ++ issue.Identifier).data <:+: (commitHint issue).data ∧
    "ENG-42: Fix crash".data <:+: (buildPromptInternal P exCrash "" none).data ∧
    "Fixes ENG-42".data <:+: (buildPromptInternal P exCrash "" none).data ∧
    ¬ "### Description".data <:+: (buildPromptInternal P exCrash "" none).data ∧
    ¬ "### Discussion Thread".data <:+: (buildPromptInternal P exCrash "" none).data := by
  have h := buildPromptInternal_eq P issue "" ctx
  rw [promptSections, join_ten] at h
  simp only [hd, hc, if_true, String.append_empty] at h
  have hx : buildPromptInternal P exCrash "" none
      = buildPromptInternal exPromptLib exCrash "" none := rfl
  refine ⟨h, ?_, ?_, ?_, ?_, ?_, ?_, ?_⟩
  · rw [h]
    simp only [headingLine, data_append, List.append_assoc]
    generalize "\n\n".data ++ _ = r
    exact ⟨(openingLine issue).data ++ "## ".data, r, by simp only [List.append_assoc]⟩
  · rw [h, closingInstruction, ← String.append_assoc, data_append]
    exact List.suffix_append _ _
  · exact ⟨"**Important**: When you make the commit that resolves this issue, include `".data,
      "` in the commit message so Linear automatically marks it as done.".data, rfl⟩
  · rw [hx]
    decide!
  · rw [hx]
    decide!
  · rw [hx]
    decide!
  · rw [hx]
    decide!

end PromptLemmas

theorem prompt_of_bare_issue_witness :
    exCrash.Description = "" ∧ exCrash.Comments = [] ∧
    "Fixes ENG-42".data <:+: (buildPromptInternal exPromptLib exCrash "" none).data :=
  ⟨rfl, rfl, (prompt_of_bare_issue exPromptLib exCrash none rfl rfl).2.2.2.2.2.1⟩

section Attachments

variable (P : PromptLib)

/-- C20: `filterSlackAttachments` returns the attachments whose lower-cased source type is
"slack" and the other attachments, each list in the order of the input: both are sublists of
the input, together they are a permutation of it (every attachment is in the two lists as
often as in the input), and an attachment is in the Slack list iff it is in the input with a
source type that lower-cases to "slack".  In the prompt, the Attachments section follows the
first five sections and lists the other attachments one per line; the line of an attachment
with an empty source type ends with "(link)".  Of the four example attachments, "slack" and
"Slack" go to the Slack list, "github" and the empty source type to the other list. -/
theorem filterSlackAttachments_partition (attachments : List Attachment) :
    filterSlackAttachments P attachments
      = (attachments.filter (fun att => P.toLower att.SourceType = "slack"),
         attachments.filter (fun att => ¬ P.toLower att.SourceType = "slack")) ∧
    (filterSlackAttachments P attachments).1.Sublist attachments ∧
    (filterSlackAttachments P attachments).2.Sublist attachments ∧
    ((filterSlackAttachments P attachments).1
      ++ (filterSlackAttachments P attachments).2).Perm attachments ∧
    (∀ att, (filterSlackAttachments P attachments).1.count att
      + (filterSlackAttachments P attachments).2.count att = attachments.count att) ∧
    (∀ att, att ∈ (filterSlackAttachments P attachments).1
      ↔ att ∈ attachments ∧ P.toLower att.SourceType = "slack") ∧
    (∀ att, att ∈ (filterSlackAttachments P attachments).2
      ↔ att ∈ attachments ∧ P.toLower att.SourceType ≠ "slack") ∧
    (∀ (issue : Issue) (comment : String) (ctx : Option IssueContext),
      buildPromptInternal P issue comment ctx
        = String.join ((promptSections P issue comment ctx).take 5)
          ++ (if (filterSlackAttachments P issue.Attachments).2 = [] then ""
              else "\n### Attachments\n"
                ++ String.join
                  ((filterSlackAttachments P issue.Attachments).2.map attachmentLine)
                ++ "\n")
          ++ String.join ((promptSections P issue comment ctx).drop 6)) ∧
    (∀ att : Attachment, att.SourceType = "" →
      attachmentLine att = "- [" ++ att.Title ++ "](" ++ att.URL ++ ") (" ++ "link" ++ ")\n") ∧
    (filterSlackAttachments exPromptLib exAttachments).1.map (fun att => att.SourceType)
      = ["slack", "Slack"] ∧
    (filterSlackAttachments exPromptLib exAttachments).2.map (fun att => att.SourceType)
      = ["github", ""] ∧
    String.join ((filterSlackAttachments exPromptLib exAttachments).2.map attachmentLine)
      = "- [pr](u2) (github)\n- [doc](u3) (link)\n" := by
  have he : filterSlackAttachments P attachments
      = (attachments.filter (fun att => P.toLower att.SourceType = "slack"),
         attachments.filter (fun att => ¬ P.toLower att.SourceType = "slack")) := by
    rw [filterSlackAttachments_eq]
    simp only [isSlack]
  have hp : ((filterSlackAttachments P attachments).1
      ++ (filterSlackAttachments P attachments).2).Perm attachments := by
    rw [he]
    simpa using List.filter_append_perm (fun att => decide (P.toLower att.SourceType = "slack"))
      attachments
  refine ⟨he, ?_, ?_, hp, ?_, ?_, ?_, ?_, ?_, by decide, by decide, by decide⟩
  · rw [he]
    exact List.filter_sublist _
  · rw [he]
    exact List.filter_sublist _
  · intro att
    rw [← List.count_append]
    exact hp.count_eq att
  · intro att
    rw [he]
    simp [List.mem_filter]
  · intro att
    rw [he]
    simp [List.mem_filter]
  · intro issue comment ctx
    rw [buildPromptInternal_eq, filterSlackAttachments_eq]
    have hn : (issue.Attachments.filter (fun att => ¬ isSlack P att) = [])
        ↔ ¬ ∃ att ∈ issue.Attachments, ¬ isSlack P att := by
      rw [← filter_length_pos (fun att => ¬ isSlack P att), gt_iff_lt, List.length_pos]
      simp
    by_cases hx : ∃ att ∈ issue.Attachments, ¬ isSlack P att
    · have hf := fun hh => (hn.1 hh) hx
      simp only [promptSections, List.take, List.drop, if_pos hx, if_neg hf, String.join,
        List.foldl, attachmentsSection, String.append_assoc, String.empty_append]
    · have hf := hn.2 hx
      simp only [promptSections, List.take, List.drop, if_neg hx, if_pos hf, String.join,
        List.foldl, String.append_assoc, String.empty_append]
  · intro att h
    simp only [attachmentLine, sourceLabel, h, if_true]

end Attachments

/-! ## The Discussion Thread section: C21 -/

section Discussion

variable (P : PromptLib)

theorem splitNewline_ne_nil (cs : List Char) : splitNewline cs ≠ [] := by
  cases cs with
  | nil => simp [splitNewline]
  | cons c cs =>
    unfold splitNewline
    split_ifs
    · simp
    · split <;> simp

theorem intercalate_two {α : Type} (sep x y : List α) (ys : List (List α)) :
    sep.intercalate (x :: y :: ys) = x ++ sep ++ sep.intercalate (y :: ys) := by
  simp [List.intercalate, List.intersperse]

theorem intercalate_one {α : Type} (sep x : List α) : sep.intercalate [x] = x := by
  simp [List.intercalate, List.intersperse]

theorem splitNewline_intercalate (cs : List Char) :
    [Char.ofNat 10].intercalate (splitNewline cs) = cs := by
  induction cs with
  | nil => simp [splitNewline, List.intercalate]
  | cons c cs ih =>
    unfold splitNewline
    rcases hs : splitNewline cs with _ | ⟨l, ls⟩
    · exact absurd hs (splitNewline_ne_nil cs)
    · rw [hs] at ih
      split_ifs with h
      · rw [intercalate_two, ih, h]
        simp
      · dsimp only
        cases ls with
        | nil =>
          rw [intercalate_one] at ih ⊢
          rw [ih]
        | cons l2 ls =>
          rw [intercalate_two] at ih ⊢
          rw [← ih]
          simp

theorem splitNewline_no_newline (cs : List Char) :
    ∀ l ∈ splitNewline cs, Char.ofNat 10 ∉ l := by
  induction cs with
  | nil => simp [splitNewline]
  | cons c cs ih =>
    unfold splitNewline
    rcases hs : splitNewline cs with _ | ⟨l, ls⟩
    · exact absurd hs (splitNewline_ne_nil cs)
    · rw [hs] at ih
      split_ifs with h
      · intro x hx
        rcases List.mem_cons.1 hx with rfl | hx
        · simp
        · exact ih x hx
      · intro x hx
        rcases List.mem_cons.1 hx with rfl | hx
        · intro hm
          rcases List.mem_cons.1 hm with e | hm
          · exact h e.symm
          · exact ih l (List.mem_cons_self _ _) hm
        · exact ih x (List.mem_cons_of_mem _ hx)

theorem splitNewline_length (cs : List Char) :
    (splitNewline cs).length = cs.count (Char.ofNat 10) + 1 := by
  induction cs with
  | nil => simp [splitNewline]
  | cons c cs ih =>
    unfold splitNewline
    rcases hs : splitNewline cs with _ | ⟨l, ls⟩
    · exact absurd hs (splitNewline_ne_nil cs)
    · rw [hs] at ih
      split_ifs with h
      · rw [h, List.count_cons_self, List.length_cons, ih]
      · have hc : (c == Char.ofNat 10) = false := by simpa using h
        dsimp only
        rw [List.count_cons, hc, List.length_cons]
        simp only [List.length_cons] at ih
        simpa using ih

/-- C21: for an issue with at least one comment the prompt has, after its first six sections,
the Discussion Thread section: the heading, the line with the number of comments, and then
one entry for each comment, in the order of the issue's comment list.  An entry is the line
with the author and the date, then one line "> " followed by the piece for each piece of
`strings.Split(body, "\n")`, in order, then an empty line.  The pieces are the
newline-separated lines of the body: joined by line feeds they give the body, none of them
contains a line feed, and there is one more of them than there are line feeds in the body. -/
theorem discussion_thread_quotes_lines (issue : Issue) (comment : String)
    (ctx : Option IssueContext) (h : issue.Comments ≠ []) :
    buildPromptInternal P issue comment ctx
      = String.join ((promptSections P issue comment ctx).take 6)
        ++ ("\n### Discussion Thread\n"
            ++ ("*" ++ Nat.repr issue.Comments.length ++ " comment(s) on this issue:*\n\n")
            ++ String.join (issue.Comments.map (fun c =>
                ("**" ++ c.User.Name ++ "** (" ++ formatCommentDate P c.CreatedAt ++ "):\n")
                ++ String.join
                    ((stringsSplitNewline c.Body).map (fun line => "> " ++ line ++ "\n"))
                ++ "\n")))
        ++ String.join ((promptSections P issue comment ctx).drop 7) ∧
    (∀ body : String,
      [Char.ofNat 10].intercalate ((stringsSplitNewline body).map String.data) = body.data ∧
      (∀ line ∈ stringsSplitNewline body, Char.ofNat 10 ∉ line.data) ∧
      (stringsSplitNewline body).length = body.data.count (Char.ofNat 10) + 1) := by
  constructor
  · have hce : (fun c : Comment =>
        ("**" ++ c.User.Name ++ "** (" ++ formatCommentDate P c.CreatedAt ++ "):\n")
        ++ String.join
            ((stringsSplitNewline c.Body).map (fun line => "> " ++ line ++ "\n"))
        ++ "\n") = commentEntry P := rfl
    rw [buildPromptInternal_eq, hce]
    simp only [promptSections, List.take, List.drop, if_neg h, String.join, List.foldl,
      discussionSection, String.append_assoc, String.empty_append]
  · intro body
    refine ⟨?_, ?_, ?_⟩
    · simp only [stringsSplitNewline, List.map_map]
      have : (String.data ∘ String.mk) = id := rfl
      rw [this, List.map_id]
      exact splitNewline_intercalate body.data
    · intro line hl
      simp only [stringsSplitNewline, List.mem_map] at hl
      obtain ⟨l, hl, rfl⟩ := hl
      exact splitNewline_no_newline body.data l hl
    · simp only [stringsSplitNewline, List.length_map]
      exact splitNewline_length body.data

end Discussion

theorem discussion_thread_quotes_lines_witness :
    exFull.Comments ≠ [] ∧
    String.join (exFull.Comments.map (fun c =>
      ("**" ++ c.User.Name ++ "** (" ++ formatCommentDate exPromptLib c.CreatedAt ++ "):\n")
      ++ String.join ((stringsSplitNewline c.Body).map (fun line => "> " ++ line ++ "\n"))
      ++ "\n"))
      = "**Bob** (2024-03-05):\n> first\n\n**Cy** (yesterday):\n> a\n> b\n\n" ∧
    buildPromptInternal exPromptLib exFull "" none
      = String.join ((promptSections exPromptLib exFull "" none).take 6)
        ++ ("\n### Discussion Thread\n"
            ++ ("*" ++ Nat.repr exFull.Comments.length ++ " comment(s) on this issue:*\n\n")
            ++ String.join (exFull.Comments.map (fun c =>
                ("**" ++ c.User.Name ++ "** (" ++ formatCommentDate exPromptLib c.CreatedAt
                  ++ "):\n")
                ++ String.join
                    ((stringsSplitNewline c.Body).map (fun line => "> " ++ line ++ "\n"))
                ++ "\n")))
        ++ String.join ((promptSections exPromptLib exFull "" none).drop 7) :=
  ⟨by decide, by decide,
    (discussion_thread_quotes_lines exPromptLib exFull "" none (by decide)).1⟩

/-! ## The controller: C22, C23, C24, C29 -/

section RootClaims

variable {TI SV : Type} (L : Lib TI) (V : Views SV) (E : Env)

/-- C22: in a controller state that has not quit, the key `q` makes the controller mark itself
quitting and return the quit command if and only if the active view is neither StartWork nor
Settings.  In the other views the new state is the old one marked quitting.  In the StartWork
and Settings views the controller only hands the key to the view: the state is not marked
quitting and the command is the one the view returns.  Of the views of the source, the
StartWork view returns for `q` the command of its text input when the comment has the focus
and no command otherwise, and the Settings view returns the switch to the List view, or no
command while a provider is being selected. -/
theorem q_quits_outside_startwork_and_settings (m : RootModel TI SV)
    (hq : m.quitting = false) :
    ((∃ m', m.Update L V E (Msg.key ⟨"q"⟩) = some (m', some Cmd.quit) ∧ m'.quitting = true)
      ↔ m.currentView ≠ ViewStartWork ∧ m.currentView ≠ ViewSettings) ∧
    (m.currentView ≠ ViewStartWork ∧ m.currentView ≠ ViewSettings →
      m.Update L V E (Msg.key ⟨"q"⟩) = some ({ m with quitting := true }, some Cmd.quit)) ∧
    (m.currentView = ViewStartWork ∨ m.currentView = ViewSettings →
      m.Update L V E (Msg.key ⟨"q"⟩)
        = some ({ m with views := (V.update m.currentView m.views (Msg.key ⟨"q"⟩)).1 },
            (V.update m.currentView m.views (Msg.key ⟨"q"⟩)).2)) ∧
    (∀ sw : StartWorkModel TI,
      (sw.Update L (Msg.key ⟨"q"⟩)).2
        = if sw.focusIndex = 0 then (L.tiUpdate sw.commentInput ⟨"q"⟩).2 else none) ∧
    (∀ st : SettingsModel,
      st.Update (Msg.key ⟨"q"⟩)
        = some (st, if st.editingProvider = true then none
            else some (Cmd.emit Msg.switchToList))) := by
  have h1 : m.currentView ≠ ViewStartWork ∧ m.currentView ≠ ViewSettings →
      m.Update L V E (Msg.key ⟨"q"⟩) = some ({ m with quitting := true }, some Cmd.quit) := by
    intro h
    simp [RootModel.Update, h]
  have h2 : m.currentView = ViewStartWork ∨ m.currentView = ViewSettings →
      m.Update L V E (Msg.key ⟨"q"⟩)
        = some ({ m with views := (V.update m.currentView m.views (Msg.key ⟨"q"⟩)).1 },
            (V.update m.currentView m.views (Msg.key ⟨"q"⟩)).2) := by
    intro h
    rcases h with h | h <;> simp [RootModel.Update, delegate, h]
  refine ⟨⟨?_, ?_⟩, h1, h2, ?_, ?_⟩
  · rintro ⟨m', hu, hm'⟩
    by_contra hc
    have hv : m.currentView = ViewStartWork ∨ m.currentView = ViewSettings := by
      by_cases ha : m.currentView = ViewStartWork
      · exact Or.inl ha
      · by_cases hb : m.currentView = ViewSettings
        · exact Or.inr hb
        · exact absurd ⟨ha, hb⟩ hc
    rw [h2 hv] at hu
    simp only [Option.some.injEq, Prod.mk.injEq] at hu
    rw [← hu.1] at hm'
    simp [hq] at hm'
  · intro h
    exact ⟨_, h1 h, rfl⟩
  · intro sw
    by_cases hf : sw.focusIndex = 0
    · simp [StartWorkModel.Update, hf]
    · simp [StartWorkModel.Update, hf]
  · intro st
    by_cases he : st.editingProvider = true
    · simp [SettingsModel.Update, SettingsModel.handleProviderInput, he]
    · simp [SettingsModel.Update, he]

theorem q_quits_outside_startwork_and_settings_witness :
    exRoot.quitting = false ∧
    exRoot.Update refLib idleViews {} (Msg.key ⟨"q"⟩)
      = some ({ exRoot with quitting := true }, some Cmd.quit) :=
  ⟨rfl, (q_quits_outside_startwork_and_settings refLib idleViews {} exRoot rfl).2.1
    (by decide)⟩

/-- C23: on a successful viewer-loaded event the controller stores the teams.  If the
workspace remembers a default team id (a non-empty one) and it is the id of one of the teams,
the first such team is selected; otherwise, if there is exactly one team, that team is
selected.  With a team selected the controller switches to the List view and returns the
batch of exactly the three load commands (states, my issues, all issues) for the id of that
team.  In every other case it switches to the TeamSelect view, hands the teams to it, and
returns no command. -/
theorem viewer_loaded_selects_team (m : RootModel TI SV) (teams : List Team) :
    (∀ ws team, m.workspace = some ws → ws.DefaultTeamID ≠ "" →
      teams.find? (fun t => t.ID = ws.DefaultTeamID) = some team →
      m.Update L V E (Msg.viewerLoaded teams none)
        = some ({ m with teams := teams, selectedTeam := some team, currentView := ViewList },
            some (Cmd.batch [Cmd.loadStates team.ID, Cmd.loadIssues team.ID,
              Cmd.loadAllIssues team.ID]))) ∧
    ((∀ ws, m.workspace = some ws →
        ws.DefaultTeamID = "" ∨ ∀ t ∈ teams, t.ID ≠ ws.DefaultTeamID) →
      (∀ team, teams = [team] →
        m.Update L V E (Msg.viewerLoaded teams none)
          = some ({ m with teams := teams, selectedTeam := some team, currentView := ViewList },
              some (Cmd.batch [Cmd.loadStates team.ID, Cmd.loadIssues team.ID,
                Cmd.loadAllIssues team.ID]))) ∧
      (teams.length ≠ 1 →
        m.Update L V E (Msg.viewerLoaded teams none)
          = some ({ m with teams := teams, currentView := ViewTeamSelect,
                           views := V.setTeams m.views teams }, none))) := by
  constructor
  · intro ws team hw hd hf
    simp only [RootModel.Update, hw, hd, ne_eq, not_false_eq_true, if_true, hf]
    rfl
  · intro hn
    obtain ⟨cfg, workspace, workspaces, currentDir, providers, currentView, views, list, teams0,
      selectedTeam, err, quitting, startClaude, addNewWorkspace⟩ := m
    have hf : ∀ ws, workspace = some ws → ws.DefaultTeamID ≠ "" →
        teams.find? (fun team => decide (team.ID = ws.DefaultTeamID)) = none := by
      intro ws hw hd
      rw [List.find?_eq_none]
      intro t ht
      rcases hn ws hw with h | h
      · exact absurd h hd
      · simpa using h t ht
    constructor
    · intro team ht
      subst ht
      cases workspace with
      | none => rfl
      | some ws =>
        by_cases hd : ws.DefaultTeamID = ""
        · simp only [RootModel.Update, hd, ne_eq, not_true_eq_false, if_false]
          rfl
        · simp only [RootModel.Update, hd, ne_eq, not_false_eq_true, if_true, hf ws rfl hd]
          rfl
    · intro hl
      cases workspace with
      | none =>
        match teams, hl with
        | [], _ => rfl
        | [t], hl => exact absurd rfl hl
        | _ :: _ :: _, _ => rfl
      | some ws =>
        by_cases hd : ws.DefaultTeamID = ""
        · simp only [RootModel.Update, hd, ne_eq, not_true_eq_false, if_false]
          match teams, hl with
          | [], _ => rfl
          | [t], hl => exact absurd rfl hl
          | _ :: _ :: _, _ => rfl
        · simp only [RootModel.Update, hd, ne_eq, not_false_eq_true, if_true, hf ws rfl hd]
          match teams, hl with
          | [], _ => rfl
          | [t], hl => exact absurd rfl hl
          | _ :: _ :: _, _ => rfl

theorem viewer_loaded_selects_team_witness :
    exRoot.Update refLib idleViews {}
        (Msg.viewerLoaded [{ ID := "t1", Name := "Team", Key := "T" }] none)
      = some ({ exRoot with teams := [{ ID := "t1", Name := "Team", Key := "T" }],
                            selectedTeam := some { ID := "t1", Name := "Team", Key := "T" },
                            currentView := ViewList },
          some (Cmd.batch [Cmd.loadStates "t1", Cmd.loadIssues "t1", Cmd.loadAllIssues "t1"])) :=
  ((viewer_loaded_selects_team refLib idleViews {} exRoot
      [{ ID := "t1", Name := "Team", Key := "T" }]).2
    (fun ws hw => Option.noConfusion (show (none : Option Workspace) = some ws from hw))).1
    _ rfl

/-- C24: on a launch request with a non-empty comment the controller only records the request
(it is not marked quitting and the active view is the same) and returns exactly the
create-comment command for the issue and the comment of the request; in a state that holds a
launch request the comment-created event, whatever its outcome, marks the controller quitting
and returns the quit command.  On a launch request with an empty comment the controller
records the request, marks itself quitting and returns the quit command.  In both cases the
controller that has quit holds that launch request for `main`. -/
theorem launch_request_handling (m : RootModel TI SV) (s : StartClaudeMsg) :
    (s.Comment ≠ "" →
      m.Update L V E (Msg.startClaude s)
        = some ({ m with startClaude := some s },
            some (Cmd.createComment s.Issue.ID s.Comment)) ∧
      ∀ comment err,
        ({ m with startClaude := some s } : RootModel TI SV).Update L V E
            (Msg.commentCreated comment err)
          = some ({ m with startClaude := some s, quitting := true }, some Cmd.quit) ∧
        ({ m with startClaude := some s, quitting := true } :
          RootModel TI SV).ShouldStartClaude = some s) ∧
    (s.Comment = "" →
      m.Update L V E (Msg.startClaude s)
        = some ({ m with startClaude := some s, quitting := true }, some Cmd.quit) ∧
      ({ m with startClaude := some s, quitting := true } :
        RootModel TI SV).ShouldStartClaude = some s) := by
  constructor
  · intro h
    refine ⟨?_, fun comment err => ⟨rfl, rfl⟩⟩
    simp only [RootModel.Update, h, ne_eq, not_false_eq_true, if_true]
  · intro h
    refine ⟨?_, rfl⟩
    simp only [RootModel.Update, h, ne_eq, not_true_eq_false, if_false]

theorem launch_request_handling_witness :
    exLaunch.Comment ≠ "" ∧
    exRoot.Update refLib idleViews {} (Msg.startClaude exLaunch)
      = some ({ exRoot with startClaude := some exLaunch },
          some (Cmd.createComment "uuid-7" "note")) :=
  ⟨by decide, ((launch_request_handling refLib idleViews {} exRoot exLaunch).1
    (by decide)).1⟩

/-- C29: while the List view is active, whatever the state of the list view (filter input
focused, rename input focused, or neither), the key `q` makes the controller mark itself
quitting and return the quit command, and the list view is left as it was: the key does not
reach it, so the filter text and the rename text are unchanged.  Had the list view received
the key, it would have handed it to the focused text input. -/
theorem q_in_list_view_quits (m : RootModel TI SV) (hv : m.currentView = ViewList) :
    m.Update L V E (Msg.key ⟨"q"⟩) = some ({ m with quitting := true }, some Cmd.quit) ∧
    (∀ r, m.Update L V E (Msg.key ⟨"q"⟩) = some r →
      r.1.list = m.list ∧ r.1.quitting = true ∧ r.2 = some Cmd.quit) ∧
    (m.list.editMode = EditModeNone → m.list.filtering = true →
      m.list.Update L (Msg.key ⟨"q"⟩)
        = some (applyFilter L
            { m.list with filterInput := (L.tiUpdate m.list.filterInput ⟨"q"⟩).1 },
          (L.tiUpdate m.list.filterInput ⟨"q"⟩).2)) ∧
    (m.list.editMode = EditModeRename →
      m.list.Update L (Msg.key ⟨"q"⟩)
        = some ({ m.list with editInput := (L.tiUpdate m.list.editInput ⟨"q"⟩).1 },
          (L.tiUpdate m.list.editInput ⟨"q"⟩).2)) := by
  have h : m.Update L V E (Msg.key ⟨"q"⟩)
      = some ({ m with quitting := true }, some Cmd.quit) := by
    simp [RootModel.Update, hv]
  refine ⟨h, ?_, ?_, ?_⟩
  · intro r hr
    rw [h] at hr
    simp only [Option.some.injEq] at hr
    subst hr
    exact ⟨rfl, rfl, rfl⟩
  · intro he hf
    simp [ListModel.Update, he, hf]
  · intro he
    simp [ListModel.Update, he, handleRenameInput]

end RootClaims

theorem q_in_list_view_quits_witness :
    ({ exRoot with currentView := ViewList, list := { exLoaded with filtering := true } } :
      RootModel String Unit).currentView = ViewList ∧
    ({ exRoot with currentView := ViewList, list := { exLoaded with filtering := true } } :
      RootModel String Unit).Update refLib idleViews {} (Msg.key ⟨"q"⟩)
      = some ({ exRoot with currentView := ViewList,
                            list := { exLoaded with filtering := true },
                            quitting := true }, some Cmd.quit) :=
  ⟨rfl, (q_in_list_view_quits refLib idleViews {}
    { exRoot with currentView := ViewList, list := { exLoaded with filtering := true } }
    rfl).1⟩

/-! ## The status selector and the tabs: C26, C28 -/

section ListKeys

variable {TI : Type} (L : Lib TI)

/-- C26: in Set Status mode with an edit target, `enter` leaves the list view as it is and
returns the command that emits: with the selector at the index `i` of a team state, the
state-update request (not completed, no error) with the target's issue id and the id of the
`i`-th state; with the selector at `n`, the number of team states, the cancel intent; with the
selector at `n + 1`, the duplicate intent; both intents carry the target's issue id and team
id and nothing else.  The down keys move the selector by one while it is below `n + 1` and
leave it otherwise, so they never move it beyond `n + 1`. -/
theorem status_selector_confirm (m : ListModel TI) (issue : Issue)
    (hm : m.editMode = EditModeStatus) (he : m.editIssue = some issue) :
    (∀ (i : Nat) (st : State), m.editCursor = i → m.states[i]? = some st →
      m.Update L (Msg.key ⟨"enter"⟩)
        = some (m, some (Cmd.emit (Msg.issueStateUpdated issue.ID st.ID none false)))) ∧
    (m.editCursor = m.states.length →
      m.Update L (Msg.key ⟨"enter"⟩)
        = some (m, some (Cmd.emit (Msg.cancelIssue issue.ID issue.Team.ID)))) ∧
    (m.editCursor = m.states.length + 1 →
      m.Update L (Msg.key ⟨"enter"⟩)
        = some (m, some (Cmd.emit (Msg.markDuplicate issue.ID issue.Team.ID)))) ∧
    (∀ k ∈ ["down", "j"],
      (m.editCursor < m.states.length + 1 →
        m.Update L (Msg.key ⟨k⟩) = some ({ m with editCursor := m.editCursor + 1 }, none)) ∧
      (¬ m.editCursor < m.states.length + 1 → m.Update L (Msg.key ⟨k⟩) = some (m, none)) ∧
      (m.editCursor ≤ m.states.length + 1 →
        ∃ m', m.Update L (Msg.key ⟨k⟩) = some (m', none) ∧
          m'.editCursor ≤ m'.states.length + 1)) := by
  have hu : ∀ k, m.Update L (Msg.key k) = handleStatusInput m k := by
    intro k
    simp [ListModel.Update, hm]
  refine ⟨?_, ?_, ?_, ?_⟩
  · intro i st hi hs
    have hlt : i < m.states.length := by
      by_contra hc
      rw [List.getElem?_eq_none (by omega)] at hs
      exact absurd hs (by simp)
    have h1 : ¬ m.editCursor = (m.states.length : Int) := by omega
    have h2 : ¬ m.editCursor = (m.states.length : Int) + 1 := by omega
    have h3 : m.editCursor < (m.states.length : Int) := by omega
    have h4 : ¬ m.editCursor < 0 := by omega
    have h5 : m.editCursor.toNat = i := by omega
    rw [hu]
    simp only [handleStatusInput, he, h1, h2, h3, h4, h5, hs, if_true, if_false]
    simp
  · intro h
    rw [hu]
    simp [handleStatusInput, he, h]
  · intro h
    have h1 : ¬ m.editCursor = (m.states.length : Int) := by omega
    rw [hu]
    simp [handleStatusInput, he, h, h1]
  · intro k hk
    have hd : handleStatusInput m ⟨k⟩
        = some (if m.editCursor < (m.states.length : Int) + 1
            then { m with editCursor := m.editCursor + 1 } else m, none) := by
      simp only [List.mem_cons, List.mem_singleton, List.not_mem_nil, or_false] at hk
      rcases hk with rfl | rfl <;> simp [handleStatusInput]
    rw [hu, hd]
    refine ⟨fun h => by rw [if_pos h], fun h => by rw [if_neg h], fun h => ?_⟩
    refine ⟨_, rfl, ?_⟩
    split_ifs with hc
    · show m.editCursor + 1 ≤ (m.states.length : Int) + 1
      omega
    · exact h

/-- C28: outside the edit modes and outside filter entry, with `n` workflow states: the left
keys at the first tab and the right keys at the last tab (or with no states) leave the list
view as it is; otherwise they move the tab index by one, set the cursor to 0, empty the filter
text and make the filtered list the whole bucket of the new tab, leaving states and buckets as
they were.  No command is returned, and a tab index below `n` stays below `n`. -/
theorem tab_keys (m : ListModel TI) (hm : m.editMode = EditModeNone)
    (hf : m.filtering = false) :
    (∀ k ∈ ["left", "h"],
      (m.activeState = 0 → m.Update L (Msg.key ⟨k⟩) = some (m, none)) ∧
      (m.activeState > 0 →
        ∃ m', m.Update L (Msg.key ⟨k⟩) = some (m', none) ∧
          m'.activeState = m.activeState - 1 ∧ m'.cursor = 0 ∧
          L.tiValue m'.filterInput = "" ∧ m'.filtered = currentStateIssues m' ∧
          m'.states = m.states ∧ m'.issuesByState = m.issuesByState)) ∧
    (∀ k ∈ ["right", "l"],
      (¬ m.activeState < m.states.length - 1 → m.Update L (Msg.key ⟨k⟩) = some (m, none)) ∧
      (m.activeState < m.states.length - 1 →
        ∃ m', m.Update L (Msg.key ⟨k⟩) = some (m', none) ∧
          m'.activeState = m.activeState + 1 ∧ m'.cursor = 0 ∧
          L.tiValue m'.filterInput = "" ∧ m'.filtered = currentStateIssues m' ∧
          m'.states = m.states ∧ m'.issuesByState = m.issuesByState)) ∧
    (∀ k ∈ ["left", "h", "right", "l"], ∀ r, m.Update L (Msg.key ⟨k⟩) = some r →
      r.2 = none ∧ r.1.states = m.states ∧
      (m.activeState < m.states.length → r.1.activeState < r.1.states.length)) := by
  have hu : ∀ k, m.Update L (Msg.key k) = handleListKey L m k := by
    intro k
    simp [ListModel.Update, hm, hf]
  have hmove : ∀ a : Nat,
      ∃ m', applyFilter L { m with activeState := a, cursor := 0,
                                   filterInput := L.tiSetValue m.filterInput "" } = m' ∧
        m'.activeState = a ∧ m'.cursor = 0 ∧ L.tiValue m'.filterInput = "" ∧
        m'.filtered = currentStateIssues m' ∧ m'.states = m.states ∧
        m'.issuesByState = m.issuesByState := by
    intro a
    refine ⟨_, rfl, ?_, ?_, ?_, ?_, ?_, ?_⟩
    · rw [applyFilter_activeState]
    · rw [applyFilter_cursor]
      simp [L.tiValue_setValue_empty, toLower_empty]
    · rw [applyFilter_filterInput]
      exact L.tiValue_setValue_empty _
    · rw [applyFilter_filtered_eq]
      simp only [L.tiValue_setValue_empty, toLower_empty]
      rw [List.filter_eq_self.2 (fun a _ => matchesFilter_empty L a)]
      exact (currentStateIssues_congr _ _ (applyFilter_states L _)
        (applyFilter_activeState L _) (applyFilter_issuesByState L _)).symm
    · rw [applyFilter_states]
    · rw [applyFilter_issuesByState]
  have hl : ∀ k ∈ ["left", "h"], handleListKey L m ⟨k⟩
      = if m.activeState > 0 then
          some (applyFilter L { m with activeState := m.activeState - 1, cursor := 0,
                                       filterInput := L.tiSetValue m.filterInput "" }, none)
        else some (m, none) := by
    intro k hk
    simp only [List.mem_cons, List.mem_singleton, List.not_mem_nil, or_false] at hk
    rcases hk with rfl | rfl <;> simp [handleListKey]
  have hr : ∀ k ∈ ["right", "l"], handleListKey L m ⟨k⟩
      = if m.activeState < m.states.length - 1 then
          some (applyFilter L { m with activeState := m.activeState + 1, cursor := 0,
                                       filterInput := L.tiSetValue m.filterInput "" }, none)
        else some (m, none) := by
    intro k hk
    simp only [List.mem_cons, List.mem_singleton, List.not_mem_nil, or_false] at hk
    rcases hk with rfl | rfl <;> simp [handleListKey]
  refine ⟨?_, ?_, ?_⟩
  · intro k hk
    rw [hu, hl k hk]
    constructor
    · intro h0
      rw [if_neg (by omega)]
    · intro hp
      rw [if_pos hp]
      obtain ⟨m', e, h⟩ := hmove (m.activeState - 1)
      exact ⟨m', by rw [e], h⟩
  · intro k hk
    rw [hu, hr k hk]
    constructor
    · intro h0
      rw [if_neg h0]
    · intro hp
      rw [if_pos hp]
      obtain ⟨m', e, h⟩ := hmove (m.activeState + 1)
      exact ⟨m', by rw [e], h⟩
  · intro k hk r hr'
    rw [hu] at hr'
    have hk' : k ∈ ["left", "h"] ∨ k ∈ ["right", "l"] := by
      simp only [List.mem_cons, List.mem_singleton, List.not_mem_nil, or_false] at hk ⊢
      tauto
    rcases hk' with hk' | hk'
    · rw [hl k hk'] at hr'
      split_ifs at hr' with hc
      · obtain ⟨m', e, h1, _, _, _, h5, _⟩ := hmove (m.activeState - 1)
        rw [e] at hr'
        simp only [Option.some.injEq] at hr'
        subst hr'
        refine ⟨rfl, h5, fun hlt => ?_⟩
        show m'.activeState < m'.states.length
        rw [h1, h5]
        omega
      · simp only [Option.some.injEq] at hr'
        subst hr'
        exact ⟨rfl, rfl, fun hlt => hlt⟩
    · rw [hr k hk'] at hr'
      split_ifs at hr' with hc
      · obtain ⟨m', e, h1, _, _, _, h5, _⟩ := hmove (m.activeState + 1)
        rw [e] at hr'
        simp only [Option.some.injEq] at hr'
        subst hr'
        refine ⟨rfl, h5, fun hlt => ?_⟩
        show m'.activeState < m'.states.length
        rw [h1, h5]
        omega
      · simp only [Option.some.injEq] at hr'
        subst hr'
        exact ⟨rfl, rfl, fun hlt => hlt⟩

end ListKeys

theorem status_selector_confirm_witness :
    ({ exLoaded with editMode := EditModeStatus, editIssue := some (exIssue "a" 0 exTodo),
                     editCursor := 2 } : ListModel String).editMode = EditModeStatus ∧
    ({ exLoaded with editMode := EditModeStatus, editIssue := some (exIssue "a" 0 exTodo),
                     editCursor := 2 } : ListModel String).Update refLib (Msg.key ⟨"enter"⟩)
      = some ({ exLoaded with editMode := EditModeStatus,
                              editIssue := some (exIssue "a" 0 exTodo), editCursor := 2 },
          some (Cmd.emit (Msg.cancelIssue "a" ""))) :=
  ⟨rfl, (status_selector_confirm refLib
    { exLoaded with editMode := EditModeStatus, editIssue := some (exIssue "a" 0 exTodo),
                    editCursor := 2 } (exIssue "a" 0 exTodo) rfl rfl).2.1 (by decide)⟩

theorem tab_keys_witness :
    exLoaded.editMode = EditModeNone ∧ exLoaded.filtering = false ∧
    ∃ m', exLoaded.Update refLib (Msg.key ⟨"right"⟩) = some (m', none) ∧
      m'.activeState = exLoaded.activeState + 1 ∧ m'.cursor = 0 ∧
      refLib.tiValue m'.filterInput = "" ∧ m'.filtered = currentStateIssues m' ∧
      m'.states = exLoaded.states ∧ m'.issuesByState = exLoaded.issuesByState :=
  ⟨by decide, by decide,
    ((tab_keys refLib exLoaded (by decide) (by decide)).2.1 "right" (by decide)).2
      (by decide)⟩

/-! ## The display order of the team states: C27 -/

section TeamStates

theorem swapIfGreater_cases (s : List State) (i j : Nat) :
    (swapIfGreater s i j = s ∧
      ∀ a b, s[i]? = some a → s[j]? = some b → a.Position ≤ b.Position) ∨
    (∃ a b, s[i]? = some a ∧ s[j]? = some b ∧ b.Position < a.Position ∧
      swapIfGreater s i j = (s.set i b).set j a) := by
  unfold swapIfGreater
  rcases hi : s[i]? with _ | a
  · left
    exact ⟨rfl, fun a b h => absurd h (by simp)⟩
  · rcases hj : s[j]? with _ | b
    · left
      exact ⟨rfl, fun a b _ h => absurd h (by simp)⟩
    · by_cases hc : a.Position > b.Position
      · right
        exact ⟨a, b, rfl, rfl, hc, by simp [hc]⟩
      · left
        refine ⟨by simp [hc], fun a' b' ha hb => ?_⟩
        simp only [Option.some.injEq] at ha hb
        subst ha hb
        exact not_lt.1 hc

theorem swapIfGreater_length (s : List State) (i j : Nat) :
    (swapIfGreater s i j).length = s.length := by
  rcases swapIfGreater_cases s i j with ⟨h, _⟩ | ⟨a, b, _, _, _, h⟩ <;> rw [h]
  simp

theorem swap_perm (s : List State) (i j : Nat) (a b : State) (hi : s[i]? = some a)
    (hj : s[j]? = some b) : ((s.set i b).set j a).Perm s := by
  have hil : i < s.length := by
    by_contra hc
    rw [List.getElem?_eq_none (by omega)] at hi
    exact absurd hi (by simp)
  have hjl : j < s.length := by
    by_contra hc
    rw [List.getElem?_eq_none (by omega)] at hj
    exact absurd hj (by simp)
  have ha : s[i] = a := by
    rw [List.getElem?_eq_getElem hil] at hi
    exact Option.some.inj hi
  have hb : s[j] = b := by
    rw [List.getElem?_eq_getElem hjl] at hj
    exact Option.some.inj hj
  rw [List.perm_iff_count]
  intro c
  rw [List.count_set _ _ _ _ (by simpa using hjl), List.count_set _ _ _ _ hil,
    List.getElem_set, ha]
  have h1 : (if (a == c) = true then 1 else 0) ≤ s.count c := by
    by_cases hac : a = c
    · subst hac
      simp only [beq_self_eq_true, if_true]
      exact List.count_pos_iff.2 (ha ▸ List.getElem_mem _)
    · simp [hac]
  have h2 : (if (b == c) = true then 1 else 0) ≤ s.count c := by
    by_cases hbc : b = c
    · subst hbc
      simp only [beq_self_eq_true, if_true]
      exact List.count_pos_iff.2 (hb ▸ List.getElem_mem _)
    · simp [hbc]
  by_cases hij : i = j
  · subst hij
    have : a = b := ha.symm.trans hb
    subst this
    simp only [if_true]
    omega
  · simp only [hij, if_false, hb]
    by_cases hac : a = c
    · subst hac
      by_cases hbc : b = a
      · subst hbc
        simp only [beq_self_eq_true, if_true] at h1 ⊢
        omega
      · have : (b == a) = false := by simpa using hbc
        simp only [beq_self_eq_true, if_true, this] at h1 ⊢
        simp
        omega
    · have hac' : (a == c) = false := by simpa using hac
      simp only [hac', Bool.false_eq_true, if_false] at h1 ⊢
      by_cases hbc : b = c
      · subst hbc
        simp only [beq_self_eq_true, if_true] at h2 ⊢
        omega
      · have : (b == c) = false := by simpa using hbc
        simp [this]

theorem swapIfGreater_perm (s : List State) (i j : Nat) : (swapIfGreater s i j).Perm s := by
  rcases swapIfGreater_cases s i j with ⟨h, _⟩ | ⟨a, b, hi, hj, _, h⟩ <;> rw [h]
  exact swap_perm s i j a b hi hj

theorem swapIfGreater_step (s : List State) (i j : Nat) (hij : i < j) :
    (∀ k, k ≠ i → k ≠ j → (swapIfGreater s i j)[k]? = s[k]?) ∧
    (∀ k x, i ≤ k → (swapIfGreater s i j)[k]? = some x → ∃ k', i ≤ k' ∧ s[k']? = some x) ∧
    ((∀ k, i < k → k < j → LeAt s i k) →
      ∀ k, i < k → k < j + 1 → LeAt (swapIfGreater s i j) i k) := by
  rcases swapIfGreater_cases s i j with ⟨h, hle⟩ | ⟨a, b, hi, hj, hlt, h⟩
  · rw [h]
    refine ⟨fun _ _ _ => rfl, fun k x hk hx => ⟨k, hk, hx⟩, fun hinv k h1 h2 => ?_⟩
    by_cases hkj : k = j
    · subst hkj
      exact hle
    · exact hinv k h1 (by omega)
  · have hil : i < s.length := by
      by_contra hc
      rw [List.getElem?_eq_none (by omega)] at hi
      exact absurd hi (by simp)
    have hjl : j < s.length := by
      by_contra hc
      rw [List.getElem?_eq_none (by omega)] at hj
      exact absurd hj (by simp)
    have e1 : ∀ k, k ≠ i → k ≠ j → ((s.set i b).set j a)[k]? = s[k]? := by
      intro k h1 h2
      rw [List.getElem?_set, if_neg (Ne.symm h2), List.getElem?_set, if_neg (Ne.symm h1)]
    have e2 : ((s.set i b).set j a)[i]? = some b := by
      rw [List.getElem?_set, if_neg (by omega), List.getElem?_set, if_pos rfl, if_pos hil]
    have e3 : ((s.set i b).set j a)[j]? = some a := by
      rw [List.getElem?_set, if_pos rfl, if_pos (by simpa using hjl)]
    rw [h]
    refine ⟨e1, ?_, ?_⟩
    · intro k x hk hx
      by_cases hki : k = i
      · subst hki
        rw [e2] at hx
        exact ⟨j, by omega, hx ▸ hj⟩
      · by_cases hkj : k = j
        · subst hkj
          rw [e3] at hx
          exact ⟨i, le_refl _, hx ▸ hi⟩
        · rw [e1 k hki hkj] at hx
          exact ⟨k, hk, hx⟩
    · intro hinv k h1 h2 x y hx hy
      rw [e2] at hx
      simp only [Option.some.injEq] at hx
      subst hx
      by_cases hkj : k = j
      · subst hkj
        rw [e3] at hy
        simp only [Option.some.injEq] at hy
        subst hy
        exact le_of_lt hlt
      · rw [e1 k (by omega) hkj] at hy
        exact le_trans (le_of_lt hlt) (hinv k h1 (by omega) a y hi hy)

theorem inner_fold (i : Nat) : ∀ (len j : Nat) (s : List State), i < j →
    ((List.range' j len).foldl (fun s j => swapIfGreater s i j) s).length = s.length ∧
    ((List.range' j len).foldl (fun s j => swapIfGreater s i j) s).Perm s ∧
    (∀ k, k < i →
      ((List.range' j len).foldl (fun s j => swapIfGreater s i j) s)[k]? = s[k]?) ∧
    (∀ k x, i ≤ k →
      ((List.range' j len).foldl (fun s j => swapIfGreater s i j) s)[k]? = some x →
      ∃ k', i ≤ k' ∧ s[k']? = some x) ∧
    ((∀ k, i < k → k < j → LeAt s i k) →
      ∀ k, i < k → k < j + len →
        LeAt ((List.range' j len).foldl (fun s j => swapIfGreater s i j) s) i k) := by
  intro len
  induction len with
  | zero =>
    intro j s _
    exact ⟨rfl, List.Perm.refl _, fun _ _ => rfl, fun k x hk hx => ⟨k, hk, hx⟩, fun h => h⟩
  | succ len ih =>
    intro j s hij
    rw [List.range'_succ, List.foldl_cons]
    obtain ⟨a1, a2, a3, a4, a5⟩ := ih (j + 1) (swapIfGreater s i j) (by omega)
    obtain ⟨b1, b2, b3⟩ := swapIfGreater_step s i j hij
    refine ⟨a1.trans (swapIfGreater_length s i j), a2.trans (swapIfGreater_perm s i j),
      ?_, ?_, ?_⟩
    · intro k hk
      rw [a3 k hk, b1 k (by omega) (by omega)]
    · intro k x hk hx
      obtain ⟨k', hk', hx'⟩ := a4 k x hk hx
      exact b2 k' x hk' hx'
    · intro hinv k h1 h2
      exact a5 (b3 hinv) k h1 (by omega)

theorem sortInner_spec (i : Nat) (s : List State) :
    (sortInner i s).length = s.length ∧ (sortInner i s).Perm s ∧
    (∀ k, i < k → LeAt (sortInner i s) i k) ∧
    (∀ a, a < i → (∀ b, a < b → LeAt s a b) → ∀ b, a < b → LeAt (sortInner i s) a b) := by
  obtain ⟨a1, a2, a3, a4, a5⟩ := inner_fold i (s.length - (i + 1)) (i + 1) s (by omega)
  unfold sortInner
  refine ⟨a1, a2, ?_, ?_⟩
  · intro k hk
    by_cases hkl : k < s.length
    · exact a5 (fun k h1 h2 => absurd h1 (by omega)) k hk (by omega)
    · intro x y _ hy
      rw [List.getElem?_eq_none (by omega)] at hy
      exact absurd hy (by simp)
  · intro a ha hinv b hab x y hx hy
    rw [a3 a ha] at hx
    by_cases hbi : b < i
    · rw [a3 b hbi] at hy
      exact hinv b hab x y hx hy
    · obtain ⟨b', hb', hy'⟩ := a4 b y (by omega) hy
      exact hinv b' (by omega) x y hx hy'

theorem sort_fold (s : List State) : ∀ m : Nat,
    ((List.range m).foldl (fun s i => sortInner i s) s).length = s.length ∧
    ((List.range m).foldl (fun s i => sortInner i s) s).Perm s ∧
    ∀ a, a < m → ∀ b, a < b → LeAt ((List.range m).foldl (fun s i => sortInner i s) s) a b := by
  intro m
  induction m with
  | zero =>
    exact ⟨rfl, List.Perm.refl _, fun a h => absurd h (by omega)⟩
  | succ m ih =>
    rw [List.range_succ, List.foldl_append, List.foldl_cons, List.foldl_nil]
    obtain ⟨h1, h2, h3⟩ := ih
    obtain ⟨g1, g2, g3, g4⟩ := sortInner_spec m ((List.range m).foldl (fun s i => sortInner i s) s)
    refine ⟨g1.trans h1, g2.trans h2, ?_⟩
    intro a ha b hab
    by_cases ham : a = m
    · subst ham
      exact g3 b hab
    · exact g4 a (by omega) (h3 a (by omega)) b hab

theorem sort_spec (s : List State) :
    (GetTeamStates.sort s).Perm s ∧ SortedByPosition (GetTeamStates.sort s) := by
  obtain ⟨h1, h2, h3⟩ := sort_fold s (s.length - 1)
  unfold GetTeamStates.sort SortedByPosition
  refine ⟨h2, ?_⟩
  rw [List.pairwise_iff_getElem]
  intro a b ha hb hab
  rw [h1] at ha hb
  have hb' := hb
  rw [← h1] at ha hb'
  exact h3 a (by omega) b hab _ _ (List.getElem?_eq_getElem ha) (List.getElem?_eq_getElem hb')

theorem bands_eq (nodes : List State) :
    GetTeamStates.bands nodes
      = (nodes.filter (fun s => s.Type' ≠ "canceled" ∧ s.Type' ≠ "completed"),
         nodes.filter (fun s => s.Type' = "completed"),
         nodes.filter (fun s => s.Type' = "canceled")) := by
  have h : ∀ (l : List State) (r : List State × List State × List State),
      l.foldl (fun r node =>
          if node.Type' = "canceled" then (r.1, r.2.1, r.2.2 ++ [node])
          else if node.Type' = "completed" then (r.1, r.2.1 ++ [node], r.2.2)
          else (r.1 ++ [node], r.2.1, r.2.2)) r
        = (r.1 ++ l.filter (fun s => s.Type' ≠ "canceled" ∧ s.Type' ≠ "completed"),
           r.2.1 ++ l.filter (fun s => s.Type' = "completed"),
           r.2.2 ++ l.filter (fun s => s.Type' = "canceled")) := by
    intro l
    induction l with
    | nil => intro r; simp
    | cons x xs ih =>
      intro r
      rw [List.foldl_cons, ih]
      by_cases h1 : x.Type' = "canceled"
      · simp [h1, List.filter_cons]
      · by_cases h2 : x.Type' = "completed"
        · simp [h1, h2, List.filter_cons]
        · simp [h1, h2, List.filter_cons]
  unfold GetTeamStates.bands
  rw [h]
  simp

theorem bands_perm (nodes : List State) :
    (nodes.filter (fun s => s.Type' ≠ "canceled" ∧ s.Type' ≠ "completed")
      ++ nodes.filter (fun s => s.Type' = "completed")
      ++ nodes.filter (fun s => s.Type' = "canceled")).Perm nodes := by
  induction nodes with
  | nil => simp
  | cons x xs ih =>
    by_cases h1 : x.Type' = "canceled"
    · have e1 : (x :: xs).filter (fun s => s.Type' ≠ "canceled" ∧ s.Type' ≠ "completed")
          = xs.filter (fun s => s.Type' ≠ "canceled" ∧ s.Type' ≠ "completed") := by
        simp [List.filter_cons, h1]
      have e2 : (x :: xs).filter (fun s => s.Type' = "completed")
          = xs.filter (fun s => s.Type' = "completed") := by
        simp [List.filter_cons, h1]
      have e3 : (x :: xs).filter (fun s => s.Type' = "canceled")
          = x :: xs.filter (fun s => s.Type' = "canceled") := by
        simp [List.filter_cons, h1]
      rw [e1, e2, e3]
      exact List.perm_middle.trans (List.Perm.cons x ih)
    · by_cases h2 : x.Type' = "completed"
      · have e1 : (x :: xs).filter (fun s => s.Type' ≠ "canceled" ∧ s.Type' ≠ "completed")
            = xs.filter (fun s => s.Type' ≠ "canceled" ∧ s.Type' ≠ "completed") := by
          simp [List.filter_cons, h2]
        have e2 : (x :: xs).filter (fun s => s.Type' = "completed")
            = x :: xs.filter (fun s => s.Type' = "completed") := by
          simp [List.filter_cons, h2]
        have e3 : (x :: xs).filter (fun s => s.Type' = "canceled")
            = xs.filter (fun s => s.Type' = "canceled") := by
          simp [List.filter_cons, h1]
        rw [e1, e2, e3, List.append_assoc, List.cons_append]
        rw [List.append_assoc] at ih
        exact List.perm_middle.trans (List.Perm.cons x ih)
      · have e1 : (x :: xs).filter (fun s => s.Type' ≠ "canceled" ∧ s.Type' ≠ "completed")
            = x :: xs.filter (fun s => s.Type' ≠ "canceled" ∧ s.Type' ≠ "completed") := by
          simp [List.filter_cons, h1, h2]
        have e2 : (x :: xs).filter (fun s => s.Type' = "completed")
            = xs.filter (fun s => s.Type' = "completed") := by
          simp [List.filter_cons, h2]
        have e3 : (x :: xs).filter (fun s => s.Type' = "canceled")
            = xs.filter (fun s => s.Type' = "canceled") := by
          simp [List.filter_cons, h1]
        rw [e1, e2, e3]
        exact List.Perm.cons x ih

/-- C27: when the tracker returns the states `nodes` for a team, `GetTeamStates` returns a
permutation of `nodes` made of three parts in this order: the states whose type is neither
"completed" nor "canceled", the states of type "completed", the states of type "canceled";
each part is a permutation of the nodes of that kind and is in non-decreasing order of
position. -/
theorem team_states_in_three_bands (T : Tracker) (teamID : String) (nodes : List State)
    (h : T.allTeamStates teamID = .ok nodes) :
    ∃ active completed canceled,
      GetTeamStates T teamID = .ok (active ++ completed ++ canceled) ∧
      (active ++ completed ++ canceled).Perm nodes ∧
      active.Perm (nodes.filter
        (fun s => s.Type' ≠ "canceled" ∧ s.Type' ≠ "completed")) ∧
      completed.Perm (nodes.filter (fun s => s.Type' = "completed")) ∧
      canceled.Perm (nodes.filter (fun s => s.Type' = "canceled")) ∧
      (∀ s ∈ active, s.Type' ≠ "completed" ∧ s.Type' ≠ "canceled") ∧
      (∀ s ∈ completed, s.Type' = "completed") ∧
      (∀ s ∈ canceled, s.Type' = "canceled") ∧
      SortedByPosition active ∧ SortedByPosition completed ∧ SortedByPosition canceled := by
  obtain ⟨p1, s1⟩ := sort_spec (nodes.filter
    (fun s => s.Type' ≠ "canceled" ∧ s.Type' ≠ "completed"))
  obtain ⟨p2, s2⟩ := sort_spec (nodes.filter (fun s => s.Type' = "completed"))
  obtain ⟨p3, s3⟩ := sort_spec (nodes.filter (fun s => s.Type' = "canceled"))
  refine ⟨_, _, _, ?_, ((p1.append p2).append p3).trans (bands_perm nodes), p1, p2, p3,
    ?_, ?_, ?_, s1, s2, s3⟩
  · unfold GetTeamStates
    rw [h]
    dsimp only
    rw [bands_eq]
  · intro s hs
    have := (List.mem_filter.1 (p1.subset hs)).2
    simp only [ne_eq, decide_eq_true_eq] at this
    exact ⟨this.2, this.1⟩
  · intro s hs
    simpa using (List.mem_filter.1 (p2.subset hs)).2
  · intro s hs
    simpa using (List.mem_filter.1 (p3.subset hs)).2

end TeamStates

theorem team_states_in_three_bands_witness :
    exClient.allTeamStates "t1" = .ok exNodes ∧
    (GetTeamStates exClient.toTracker "t1").toOption.map (fun l => l.map (fun s => s.ID))
      = some ["b", "t", "p", "d", "c"] ∧
    ∃ active completed canceled,
      GetTeamStates exClient.toTracker "t1" = .ok (active ++ completed ++ canceled) ∧
      (active ++ completed ++ canceled).Perm exNodes :=
  have h := team_states_in_three_bands exClient.toTracker "t1" exNodes rfl
  ⟨rfl, by decide, h.elim fun a h => h.elim fun c h => h.elim fun x h => ⟨a, c, x, h.1, h.2.1⟩⟩

/-! ## The launch: C25, C30 -/

section Launch

variable {TI SV : Type} (L : Lib TI) (V : Views SV) (E : Env)

theorem createComment_msg (C : Client) (issueID body : String) :
    ∃ comment err, createComment C issueID body
      = (Msg.commentCreated comment err, [Action.createComment issueID body]) := by
  unfold createComment
  cases C.createComment issueID body with
  | error e => exact ⟨_, _, rfl⟩
  | ok c => exact ⟨_, _, rfl⟩

/-- The session of a launch request with a comment: the controller's create-comment command
runs first, then `main` goes on with the request. -/
theorem launchSession_with_comment (C : Client) (cfg : Config) (m : RootModel TI SV)
    (s : StartClaudeMsg) (hc : s.Comment ≠ "") :
    launchSession L V E C cfg m s
      = (mainAfterRun C cfg ({ m with startClaude := some s, quitting := true } :
          RootModel TI SV)).map
          (fun actions => Action.createComment s.Issue.ID s.Comment :: actions) := by
  obtain ⟨comment, err, hm⟩ := createComment_msg C s.Issue.ID s.Comment
  unfold launchSession
  simp only [RootModel.Update, hc, ne_eq, not_false_eq_true, if_true, hm]
  rfl

/-- The session of a launch request without a comment: the controller quits at once. -/
theorem launchSession_without_comment (C : Client) (cfg : Config) (m : RootModel TI SV)
    (s : StartClaudeMsg) (hc : s.Comment = "") :
    launchSession L V E C cfg m s
      = mainAfterRun C cfg ({ m with startClaude := some s, quitting := true } :
          RootModel TI SV) := by
  unfold launchSession
  simp only [RootModel.Update, hc, ne_eq, not_true_eq_false, if_false]

theorem prepareLinearIssue_count (C : Client) (s : StartClaudeMsg) (hc : s.Comment ≠ "") :
    (prepareLinearIssue C s).count (Action.createComment s.Issue.ID s.Comment) = 1 := by
  unfold prepareLinearIssue
  dsimp only
  rw [if_pos hc]
  rcases (GetInProgressStateID C.toTracker s.Issue.Team.ID).2 with _ | e
  · by_cases h1 : (GetInProgressStateID C.toTracker s.Issue.Team.ID).1 = "" <;>
      by_cases h2 : s.UseBranch = true ∧ s.Issue.BranchName ≠ "" <;>
      simp [h1, h2, List.count_cons]
  · by_cases h2 : s.UseBranch = true ∧ s.Issue.BranchName ≠ "" <;>
      simp [h2, List.count_cons]

/-- C30: for a launch request with a non-empty comment that is not checkout-only (in a
controller that is not in the add-workspace flow), the session is: the create-comment request
of the controller's command, run before the controller quits; then, in `main`, the
issue-context query, the organization query, what `prepareLinearIssue` does, and the call of
the provider (or the exit when the provider is not registered).  `prepareLinearIssue` makes
the create-comment request with the same issue id and body exactly once, so the session makes
it exactly twice. -/
theorem comment_created_twice (C : Client) (cfg : Config) (m : RootModel TI SV)
    (s : StartClaudeMsg) (ha : m.addNewWorkspace = false) (hc : s.Comment ≠ "")
    (ho : s.CheckoutOnly = false) :
    (∃ last, launchSession L V E C cfg m s
      = some (Action.createComment s.Issue.ID s.Comment
          :: ([Action.issueWithContext s.Issue.ID, Action.workspaceInfo]
            ++ prepareLinearIssue C s ++ [last]))) ∧
    m.Update L V E (Msg.startClaude s)
      = some ({ m with startClaude := some s },
          some (Cmd.createComment s.Issue.ID s.Comment)) ∧
    (createComment C s.Issue.ID s.Comment).2 = [Action.createComment s.Issue.ID s.Comment] ∧
    (prepareLinearIssue C s).count (Action.createComment s.Issue.ID s.Comment) = 1 ∧
    ∀ actions, launchSession L V E C cfg m s = some actions →
      actions.count (Action.createComment s.Issue.ID s.Comment) = 2 := by
  have hrun : ∃ last, last ≠ Action.createComment s.Issue.ID s.Comment ∧
      launchSession L V E C cfg m s
        = some (Action.createComment s.Issue.ID s.Comment
            :: ([Action.issueWithContext s.Issue.ID, Action.workspaceInfo]
              ++ prepareLinearIssue C s ++ [last])) := by
    rw [launchSession_with_comment L V E C cfg m s hc]
    simp only [mainAfterRun, RootModel.ShouldAddNewWorkspace, RootModel.ShouldStartClaude, ha,
      ho, Bool.false_eq_true, if_false]
    by_cases hp : cfg.GetProvider ∈ registeredProviders
    · simp only [hp, if_true]
      exact ⟨_, by simp, rfl⟩
    · simp only [hp, if_false]
      exact ⟨_, by simp, rfl⟩
  obtain ⟨last, hl, hrun⟩ := hrun
  obtain ⟨comment, err, hm⟩ := createComment_msg C s.Issue.ID s.Comment
  refine ⟨⟨last, hrun⟩, ?_, ?_, prepareLinearIssue_count C s hc, ?_⟩
  · simp only [RootModel.Update, hc, ne_eq, not_false_eq_true, if_true]
  · rw [hm]
  · intro actions hact
    rw [hrun] at hact
    simp only [Option.some.injEq] at hact
    subst hact
    have hl' : (last == Action.createComment s.Issue.ID s.Comment) = false := by
      simpa using hl
    simp [List.count_cons, List.count_append, prepareLinearIssue_count C s hc, hl']

/-- The session of a checkout-only launch request: the comment creation when the request
carries a comment, then the checkout when the issue has a branch name. -/
theorem launchSession_checkout_only (C : Client) (cfg : Config) (m : RootModel TI SV)
    (s : StartClaudeMsg) (ha : m.addNewWorkspace = false) (ho : s.CheckoutOnly = true) :
    launchSession L V E C cfg m s
      = some ((if s.Comment ≠ "" then [Action.createComment s.Issue.ID s.Comment] else [])
          ++ (if s.Issue.BranchName ≠ "" then [Action.checkoutBranch s.Issue.BranchName]
              else [])) := by
  by_cases hc : s.Comment = ""
  · rw [launchSession_without_comment L V E C cfg m s hc]
    by_cases hb : s.Issue.BranchName = "" <;>
      simp [mainAfterRun, RootModel.ShouldAddNewWorkspace, RootModel.ShouldStartClaude, ha, ho,
        hc, hb]
  · rw [launchSession_with_comment L V E C cfg m s hc]
    by_cases hb : s.Issue.BranchName = "" <;>
      simp [mainAfterRun, RootModel.ShouldAddNewWorkspace, RootModel.ShouldStartClaude, ha, ho,
        hc, hb]

end Launch

theorem comment_created_twice_witness :
    exRoot.addNewWorkspace = false ∧ exLaunch.Comment ≠ "" ∧ exLaunch.CheckoutOnly = false ∧
    launchSession refLib idleViews {} exClient {} exRoot exLaunch
      = some [Action.createComment "uuid-7" "note", Action.issueWithContext "uuid-7",
          Action.workspaceInfo, Action.teamStates "t1", Action.updateIssueState "uuid-7" "p",
          Action.createComment "uuid-7" "note", Action.checkoutBranch "eng-7-add-login",
          Action.exec "claude" exFull "note"
            (some { OrganizationID := "o1", OrganizationName := "Org" }) true] ∧
    ∀ actions, launchSession refLib idleViews {} exClient {} exRoot exLaunch = some actions →
      actions.count (Action.createComment exLaunch.Issue.ID exLaunch.Comment) = 2 :=
  ⟨rfl, by decide, rfl, by decide,
    (comment_created_twice refLib idleViews {} exClient {} exRoot exLaunch rfl (by decide)
      rfl).2.2.2.2⟩

/-- C25 fails on the code: with the comment field holding "note", the checkout-only button of
the StartWork view sends a launch request that carries the comment; the controller answers a
launch request with a non-empty comment by the create-comment command whether or not the
request is checkout-only, so the session makes a request to the tracker (the comment
creation) before `main` checks out the branch.  The agent is not invoked. -/
theorem checkout_only_creates_comment :
    (({ NewStartWorkModel refLib exFull with commentInput := "note", focusIndex := 4 } :
        StartWorkModel String).Update refLib (Msg.key ⟨"enter"⟩)).2
      = some (Cmd.emit (Msg.startClaude exCheckoutOnly)) ∧
    exRoot.Update refLib idleViews {} (Msg.startClaude exCheckoutOnly)
      = some ({ exRoot with startClaude := some exCheckoutOnly },
          some (Cmd.createComment "uuid-7" "note")) ∧
    launchSession refLib idleViews {} exClient {} exRoot exCheckoutOnly
      = some [Action.createComment "uuid-7" "note",
          Action.checkoutBranch "eng-7-add-login"] ∧
    (launchSession refLib idleViews {} exClient {} exRoot exCheckoutOnly).map
        (fun actions => (actions.any Action.isTrackerCall, actions.any Action.isExec))
      = some (true, false) :=
  ⟨rfl, rfl, by decide, by decide⟩

end Linc
